import Mathlib

/-!
# Tracy: event ingestion and tracer cache

A shallow embedding of `tracer/rest/event_rest.go` (single and bulk event
ingestion) and `api/common/tracer.go` (tracer creation and the tracer cache
actor), with the properties of the specification stated over it.

Modelling conventions.

* Go `string` and textual `[]byte` values are Lean `String`s: the code only
  compares them with `""`, concatenates them, formats them and searches them
  for an ASCII needle.  `Request.RawRequest`, which the code slices at a byte
  offset, is a list of bytes.
* `error` values are represented by their message (`err.Error()`).
* The database is external.  Its operations are parameters of the model and
  the database state is threaded explicitly through every call.
* Logging (`log.Trace`, `log.Error`, `log.Warning`) has no effect on any
  returned value and is left out; `log.Error.Fatal` and run-time panics, which
  end the process, are results of type `Except`.
-/

namespace Tracy

/-! ## Data model -/

namespace types

/-- Modelled from the spec: the column type of the three text attributes of an
event is declared outside the files at hand; the code reads its `String`
field (the shape of `sql.NullString`). -/
structure NullString where
  String : String
  Valid : Bool
deriving DecidableEq, Repr

/-- Modelled from the spec: the declaration of `types.TracerEvent` is not among
the source files.  It has the owning tracer and the three attributes `Data`,
`Location`, `EventType` that `addEventHelper` validates. -/
structure TracerEvent where
  TracerID : Nat
  Data : NullString
  Location : NullString
  EventType : NullString
deriving DecidableEq, Repr

/-- Modelled from the spec: the declaration of `types.TracerEventBulk` is not
among the source files.  One batch item is an observed event together with the
tracer strings found with it. -/
structure TracerEventBulk where
  TracerEvent : TracerEvent
  TracerStrings : List String
deriving DecidableEq, Repr

end types

open types

/-! ## Library functions used by the code -/

namespace http

abbrev StatusOK : Nat := 200
abbrev StatusConflict : Nat := 409
abbrev StatusInternalServerError : Nat := 500

end http

namespace strings

/-- Substring search on character lists: `sub` occurs in `s` at some offset. -/
def containsChars (sub : List Char) : List Char → Bool
  | [] => sub.isPrefixOf []
  | c :: t => sub.isPrefixOf (c :: t) || containsChars sub t

/-- Go `strings.Contains(s, substr)`. -/
def Contains (s substr : String) : Bool :=
  containsChars substr.data s.data

end strings

/-! ## `tracer/rest/event_rest.go` -/

namespace rest

/-- The two database operations that the event handlers call and that are
defined outside the files at hand, over a database state `σ`.

* `DBGetTracerIDByTracerString` is `store.DBGetTracerIDByTracerString`, a
  query: it reads the state and returns a tracer ID or an error.
* `AddEvent` is `common.AddEvent`, the write: it returns the serialized event
  or an error, and the next state. -/
structure EventStore (σ : Type) where
  DBGetTracerIDByTracerString : σ → String → Except String Int
  AddEvent : Int → TracerEvent → σ → Except String String × σ

/-- The same store with a counter of the calls of `AddEvent` beside the
state. -/
def EventStore.counting {σ : Type} (st : EventStore σ) : EventStore (σ × Nat) where
  DBGetTracerIDByTracerString := fun s trcrStr => st.DBGetTracerIDByTracerString s.1 trcrStr
  AddEvent := fun trcrID trcrEvnt s =>
    ((st.AddEvent trcrID trcrEvnt s.1).1, ((st.AddEvent trcrID trcrEvnt s.1).2, s.2 + 1))

/-- The function `addEventHelper` (event_rest.go, lines 18-53): the HTTP status and the
body for one event, and the database state afterwards. -/
def addEventHelper {σ : Type} (st : EventStore σ) (trcrID : Int) (trcrEvnt : TracerEvent)
    (s : σ) : (Nat × String) × σ :=
  -- `ret` starts as the text of an empty JSON object; every path assigns it.
  let status := http.StatusInternalServerError
  if trcrEvnt.Data.String = "" then
    let ret := "The data field for the event was empty."
    ((status, ret), s)
  else if trcrEvnt.Location.String = "" then
    let ret := "The location field for the event was empty."
    ((status, ret), s)
  else if trcrEvnt.EventType.String = "" then
    let ret := "The event type field for the event was empty."
    ((status, ret), s)
  else
    match st.AddEvent trcrID trcrEvnt s with
    | (Except.error err, s') =>
      let ret := err
      if strings.Contains err "UNIQUE" then
        ((http.StatusConflict, ret), s')
      else
        ((status, ret), s')
    | (Except.ok evntStr, s') =>
      ((http.StatusOK, evntStr), s')

/-- Accumulators of the loop of `AddEvents` (lines 76-83). -/
structure BulkState where
  finalStatus : Nat
  finalRet : String
  count : Nat
deriving DecidableEq, Repr

/-- The body `fmt.Sprintf("{\"Status\": \"%s\":}", ret)` of lines 104 and 107. -/
def statusBody (ret : String) : String :=
  "\x7b\"Status\": \"" ++ ret ++ "\":\x7d"

/-- The body of line 115, with the count printed in decimal (`%d`). -/
def successBody (count : Nat) : String :=
  "\x7b\"Status\":\"Success\", \"Count\":\"" ++ toString count ++ "\"\x7d"

/-- Lines 100-110: the effect of one single-event result on the accumulators. -/
def aggregate (acc : BulkState) (status : Nat) (ret : String) : BulkState :=
  if status = http.StatusInternalServerError then
    { acc with finalStatus := http.StatusInternalServerError, finalRet := statusBody ret }
  else if status = http.StatusConflict ∧ acc.finalStatus ≠ http.StatusInternalServerError then
    { acc with finalStatus := http.StatusConflict, finalRet := statusBody ret }
  else
    { acc with count := acc.count + 1 }

/-- Lines 89-110: one iteration of the inner loop, for one tracer string of
the event `trcrEvnt`.  A failed lookup leaves everything as it is
(`continue`). -/
def bulkPair {σ : Type} (st : EventStore σ) (trcrEvnt : TracerEvent) (acc : BulkState × σ)
    (trcrStr : String) : BulkState × σ :=
  match st.DBGetTracerIDByTracerString acc.2 trcrStr with
  | Except.error _ => acc
  | Except.ok trcrID =>
    let r := addEventHelper st trcrID trcrEvnt acc.2
    (aggregate acc.1 r.1.1 r.1.2, r.2)

/-- Lines 85-112: the two nested loops over the batch. -/
def bulkLoop {σ : Type} (st : EventStore σ) (trcrEvntsBulk : List TracerEventBulk)
    (acc : BulkState × σ) : BulkState × σ :=
  trcrEvntsBulk.foldl
    (fun acc trcrEvnt => trcrEvnt.TracerStrings.foldl (bulkPair st trcrEvnt.TracerEvent) acc) acc

/-- The handler `AddEvents` (lines 75-121) on the decoded batch: the status and the body
written to the response, and the database state afterwards. -/
def AddEvents {σ : Type} (st : EventStore σ) (trcrEvntsBulk : List TracerEventBulk)
    (s : σ) : (Nat × String) × σ :=
  let finalStatus := http.StatusOK
  let finalRet := ""
  let count := 0
  let r := bulkLoop st trcrEvntsBulk (⟨finalStatus, finalRet, count⟩, s)
  let finalRet := if r.1.finalRet.length = 0 then successBody r.1.count else r.1.finalRet
  ((r.1.finalStatus, finalRet), r.2)

/-! ### The per-pair view of a batch -/

/-- The `(event, tracerString)` pairs of a batch in the order in which the
nested loops visit them. -/
def pairs (trcrEvntsBulk : List TracerEventBulk) : List (TracerEvent × String) :=
  trcrEvntsBulk.flatMap fun trcrEvnt => trcrEvnt.TracerStrings.map fun t => (trcrEvnt.TracerEvent, t)

/-- The results `(status, ret)` of the calls of `addEventHelper` that a run
over the given pairs makes, in order: one for each pair whose tracer string
resolved when the pair was reached. -/
def outcomesOf {σ : Type} (st : EventStore σ) : List (TracerEvent × String) → σ → List (Nat × String)
  | [], _ => []
  | p :: ps, s =>
    match st.DBGetTracerIDByTracerString s p.2 with
    | Except.error _ => outcomesOf st ps s
    | Except.ok trcrID =>
      (addEventHelper st trcrID p.1 s).1 :: outcomesOf st ps (addEventHelper st trcrID p.1 s).2

/-- The per-pair results of `AddEvents` on a batch. -/
def pairOutcomes {σ : Type} (st : EventStore σ) (trcrEvntsBulk : List TracerEventBulk) (s : σ) :
    List (Nat × String) :=
  outcomesOf st (pairs trcrEvntsBulk) s

/-- The database state after a run over the given pairs. -/
def stateAfter {σ : Type} (st : EventStore σ) : List (TracerEvent × String) → σ → σ
  | [], s => s
  | p :: ps, s =>
    match st.DBGetTracerIDByTracerString s p.2 with
    | Except.error _ => stateAfter st ps s
    | Except.ok trcrID => stateAfter st ps (addEventHelper st trcrID p.1 s).2

/-! ### The aggregation as the specification words it -/

/-- The ranking of the three statuses: failure above conflict above success
(and above anything else). -/
def statusRank (status : Nat) : Nat :=
  if status = http.StatusInternalServerError then 2
  else if status = http.StatusConflict then 1
  else 0

/-- The higher-ranked of two statuses, the first one on a tie. -/
def rankMax (a b : Nat) : Nat :=
  if statusRank a < statusRank b then b else a

/-- The final status as a fold over the per-pair statuses, starting from
success. -/
def specFinalStatus (statuses : List Nat) : Nat :=
  statuses.foldl rankMax http.StatusOK

/-- The message of the last result with the given status, if there is one. -/
def lastMessage (status : Nat) (outcomes : List (Nat × String)) : Option String :=
  ((outcomes.filter fun o => o.1 = status).getLast?).map Prod.snd

/-- The message of the last offending result, one whose status is failure or
conflict, if there is one. -/
def lastOffendingMessage (outcomes : List (Nat × String)) : Option String :=
  ((outcomes.filter fun o => o.1 = http.StatusInternalServerError ∨
      o.1 = http.StatusConflict).getLast?).map Prod.snd

/-! ### The accumulators as a fold -/

/-- The accumulators after the given per-pair results, from the initial values
of lines 76-83. -/
def aggregateAll (outcomes : List (Nat × String)) : BulkState :=
  outcomes.foldl (fun b o => aggregate b o.1 o.2) ⟨http.StatusOK, "", 0⟩

/-! ### Batches without the skipped pairs -/

/-- Whether the lookup of a tracer string succeeds in state `s`. -/
def resolvable {σ : Type} (st : EventStore σ) (s : σ) (trcrStr : String) : Bool :=
  match st.DBGetTracerIDByTracerString s trcrStr with
  | Except.ok _ => true
  | Except.error _ => false

/-- The batch without the tracer strings whose lookup fails in state `s`. -/
def dropUnresolvable {σ : Type} (st : EventStore σ) (s : σ)
    (trcrEvntsBulk : List TracerEventBulk) : List TracerEventBulk :=
  trcrEvntsBulk.map fun trcrEvnt =>
    { trcrEvnt with TracerStrings := trcrEvnt.TracerStrings.filter (resolvable st s) }

/-- The tracer strings of one batch item whose lookup succeeds when the inner
loop reaches them, starting in state `s`, and the state after the item. -/
def keepResolved {σ : Type} (st : EventStore σ) (trcrEvnt : TracerEvent) :
    List String → σ → List String × σ
  | [], s => ([], s)
  | t :: ts, s =>
    match st.DBGetTracerIDByTracerString s t with
    | Except.error _ => keepResolved st trcrEvnt ts s
    | Except.ok trcrID =>
      (t :: (keepResolved st trcrEvnt ts (addEventHelper st trcrID trcrEvnt s).2).1,
        (keepResolved st trcrEvnt ts (addEventHelper st trcrID trcrEvnt s).2).2)

/-- The batch without the tracer strings whose lookup fails when the run that
starts in state `s` reaches them. -/
def dropSkipped {σ : Type} (st : EventStore σ) : List TracerEventBulk → σ → List TracerEventBulk
  | [], _ => []
  | trcrEvnt :: rest, s =>
    { trcrEvnt with
        TracerStrings := (keepResolved st trcrEvnt.TracerEvent trcrEvnt.TracerStrings s).1 } ::
      dropSkipped st rest (keepResolved st trcrEvnt.TracerEvent trcrEvnt.TracerStrings s).2

/-- The pairs whose lookup succeeds when a run over the given pairs reaches
them. -/
def resolvedPairs {σ : Type} (st : EventStore σ) :
    List (TracerEvent × String) → σ → List (TracerEvent × String)
  | [], _ => []
  | p :: ps, s =>
    match st.DBGetTracerIDByTracerString s p.2 with
    | Except.error _ => resolvedPairs st ps s
    | Except.ok trcrID => p :: resolvedPairs st ps (addEventHelper st trcrID p.1 s).2

/-! ### A concrete store for examples -/

/-- A small database: the state is the list of stored `(tracer, event)` rows,
a duplicate row is refused with a uniqueness error, tracer 3 is on a broken
disk, and the tracer strings `"a"`, `"b"`, `"c"` are known. -/
def demoStore : EventStore (List (Int × TracerEvent)) where
  DBGetTracerIDByTracerString := fun _ trcrStr =>
    if trcrStr = "a" then Except.ok 1
    else if trcrStr = "b" then Except.ok 2
    else if trcrStr = "c" then Except.ok 3
    else Except.error "record not found"
  AddEvent := fun trcrID trcrEvnt s =>
    if trcrID = 3 then (Except.error "disk I/O error", s)
    else if (trcrID, trcrEvnt) ∈ s then
      (Except.error "UNIQUE constraint failed: tracer_events.event_data", s)
    else (Except.ok ("event:" ++ trcrEvnt.Data.String), (trcrID, trcrEvnt) :: s)

/-- A well-formed event. -/
def demoEvent : TracerEvent :=
  ⟨0, ⟨"<img>", true⟩, ⟨"/home", true⟩, ⟨"mutation", true⟩⟩

/-- An event without data and without location. -/
def demoEmptyEvent : TracerEvent :=
  ⟨0, ⟨"", false⟩, ⟨"", false⟩, ⟨"load", true⟩⟩

/-- A batch of four pairs: the first event is rejected, the tracer string
`"zzz"` is unknown, and the second `"a"` repeats the first. -/
def demoBatch : List TracerEventBulk :=
  [⟨demoEmptyEvent, ["a"]⟩, ⟨demoEvent, ["a", "zzz", "a"]⟩]

/-- A batch whose second pair repeats the first. -/
def demoConflictBatch : List TracerEventBulk :=
  [⟨demoEvent, ["a", "a"]⟩]

/-- A batch of three pairs of which the second cannot be resolved. -/
def demoCleanBatch : List TracerEventBulk :=
  [⟨demoEvent, ["a", "nope", "b"]⟩]

/-- A batch whose first pair fails on the broken disk and whose last pair
repeats the second. -/
def demoFailureThenConflictBatch : List TracerEventBulk :=
  [⟨demoEvent, ["c", "a", "a"]⟩]

/-- A store whose answers depend on the rows written before: the state is the
list of the tracers that have an event, and an event for tracer 2 is refused
until tracer 1 has one.  The tracer strings are those of `demoStore`. -/
def orderStore : EventStore (List Int) where
  DBGetTracerIDByTracerString := fun _ trcrStr =>
    if trcrStr = "a" then Except.ok 1
    else if trcrStr = "b" then Except.ok 2
    else Except.error "record not found"
  AddEvent := fun trcrID trcrEvnt s =>
    if trcrID = 2 ∧ (1 : Int) ∉ s then (Except.error "FOREIGN KEY constraint failed", s)
    else (Except.ok ("event:" ++ trcrEvnt.Data.String), trcrID :: s)

/-- A store whose answers do not depend on its state: tracer 3 always fails
and tracer 2 always conflicts. -/
def pureStore : EventStore Unit where
  DBGetTracerIDByTracerString := fun _ trcrStr =>
    if trcrStr = "a" then Except.ok 1
    else if trcrStr = "b" then Except.ok 2
    else if trcrStr = "c" then Except.ok 3
    else Except.error "record not found"
  AddEvent := fun trcrID trcrEvnt s =>
    if trcrID = 3 then (Except.error "disk I/O error", s)
    else if trcrID = 2 then (Except.error "UNIQUE constraint failed: tracer_events.event_data", s)
    else (Except.ok ("event:" ++ trcrEvnt.Data.String), s)

/-- The pairs of `demoBatch` in another order. -/
def demoBatchReordered : List TracerEventBulk :=
  [⟨demoEvent, ["a", "zzz", "a"]⟩, ⟨demoEmptyEvent, ["a"]⟩]

/-- The per-pair status of a pair under a store whose answers do not depend on the
state, evaluated in state `s`; `none` when the tracer string does not resolve. -/
def pairStatus {σ : Type} (st : EventStore σ) (s : σ) (p : TracerEvent × String) : Option Nat :=
  match st.DBGetTracerIDByTracerString s p.2 with
  | Except.error _ => none
  | Except.ok trcrID => some (addEventHelper st trcrID p.1 s).1.1

end rest

/-! ## `api/common/tracer.go` -/

namespace types

/-- Modelled from the spec: the declaration of `types.Tracer` is not among the
source files.  The fields are the numeric ID (of the embedded `gorm.Model`),
the parent request, the planted marker string, the session and the
screenshot. -/
structure Tracer where
  ID : Nat
  RequestID : Nat
  TracerString : String
  UUID : String
  Screenshot : String
deriving DecidableEq, Repr

/-- Modelled from the spec: the declaration of `types.Request` is not among the
source files.  A request has a numeric ID, the session UUID, the raw captured
payload (a Go string, here its bytes) and its tracers. -/
structure Request where
  ID : Nat
  UUID : String
  RawRequest : List UInt8
  Tracers : List Tracer
deriving DecidableEq, Repr

end types

namespace common

/-- How the process can end abnormally. -/
inductive Crash where
  /-- The call `log.Error.Fatal(err)`. -/
  | fatal (err : String)
  /-- Run-time panic `assignment to entry in nil map`. -/
  | nilMapWrite
  /-- Run-time panic `slice bounds out of range`. -/
  | sliceBounds
deriving DecidableEq, Repr

/-! ### The tracer cache actor

The text of `tracerCache` does not type-check as it stands in three places;
the model takes the types that every other use forces.

* `tracers` and `tracersJSON` are made as `map[string]types.Request` and
  `map[string]byte`, but every use indexes, ranges over, appends to and
  compares with `nil` their entries, and the entries are assigned the results
  of `getTracersDB` and `json.Marshal`: the entries are `[]types.Request` and
  `[]byte`.
* Line 36 sends `tracers` on `out`, a `chan []types.Request`: the value sent is
  the entry `tracers[u]` that the lines before it fill.
* Line 65 assigns the result of `json.Marshal` to `tracersJSON`: the target is
  the entry `tracersJSON[u]`, as in lines 43, 49 and 75.

A Go map that is only indexed and assigned is a function from keys to entries;
a `nil` map reads as the map with no entries and panics when assigned to.  A
slice is `none` when it is `nil` and `some l` otherwise.

In this first model a cached request has tracers of its own.  In the program
the tracers of a request are a slice, and the copies of one request share its
elements; the second model, further down, keeps the tracers in memory cells
and is the one used wherever a write through a shared slice can be seen. -/

/-- A Go map from strings to slices of `α`; `none` is the `nil` map. -/
abbrev GoMap (α : Type) := Option (String → Option α)

/-- The expression `m[k]`. -/
def GoMap.get {α : Type} (m : GoMap α) (k : String) : Option α :=
  match m with
  | none => none
  | some f => f k

/-- The statement `m[k] = v`. -/
def GoMap.set {α : Type} (m : GoMap α) (k : String) (v : Option α) : Except Crash (GoMap α) :=
  match m with
  | none => Except.error Crash.nilMapWrite
  | some f => Except.ok (some (Function.update f k v))

/-- The local variables of `tracerCache` that live across iterations: the key
`u` of the last read, and the two maps. -/
structure CacheState where
  u : String
  tracers : GoMap (List Request)
  tracersJSON : GoMap String

/-- The state in which the loop is entered (lines 15-21). -/
def CacheState.init : CacheState :=
  ⟨"", some fun _ => none, some fun _ => none⟩

/-- One message on one of the four input channels. -/
inductive Msg where
  | inClear (v : Int)
  | inR (u : String)
  | inRJ (u : String)
  | inU (r : Request)
deriving DecidableEq, Repr

/-- One value sent on one of the two output channels. -/
inductive Reply where
  | out (reqs : Option (List Request))
  | outJSON (bytes : Option String)
deriving DecidableEq, Repr

/-- The result of one iteration: the next state, the value sent back if any,
and the session keys for which the database was queried. -/
structure StepResult where
  state : CacheState
  reply : Option Reply
  queries : List String

/-- The statement `tracersJSON[u], err = json.Marshal(v)`: the entry becomes
the encoding, or `nil` when encoding fails; the flag tells whether `err` is
set. -/
def marshalInto (Marshal : Option (List Request) → Except String String)
    (tracersJSON : GoMap String) (u : String) (v : Option (List Request)) :
    Except Crash (GoMap String × Bool) :=
  match Marshal v with
  | Except.ok bytes => (tracersJSON.set u (some bytes)).map fun m => (m, false)
  | Except.error _ => (tracersJSON.set u none).map fun m => (m, true)

/-- Lines 61-71, the loop over the tracers of the cached request at hand.
`whole ts` is the session's list when the request at hand has the tracers
`ts`; `done` are the tracers already visited, the third argument those still
to visit. -/
def patchTracersLoop (Marshal : Option (List Request) → Except String String) (u : String)
    (r0 : Tracer) (whole : List Tracer → List Request) :
    List Tracer → List Tracer → GoMap String → Except Crash (List Tracer × GoMap String)
  | done, [], tracersJSON => Except.ok (done, tracersJSON)
  | done, t :: todo, tracersJSON =>
    if r0.ID = t.ID then
      match marshalInto Marshal tracersJSON u
          (some (whole (done ++ { t with Screenshot := r0.Screenshot } :: todo))) with
      | Except.error c => Except.error c
      | Except.ok (tracersJSON', _) =>
        patchTracersLoop Marshal u r0 whole (done ++ [{ t with Screenshot := r0.Screenshot }])
          todo tracersJSON'
    else
      patchTracersLoop Marshal u r0 whole (done ++ [t]) todo tracersJSON

/-- Lines 60-72, the loop over the cached requests of the session: `done` are
the requests already visited, the second list those still to visit. -/
def patchRequestsLoop (Marshal : Option (List Request) → Except String String) (u : String)
    (r0 : Tracer) :
    List Request → List Request → GoMap String → Except Crash (List Request × GoMap String)
  | done, [], tracersJSON => Except.ok (done, tracersJSON)
  | done, req :: todo, tracersJSON =>
    match patchTracersLoop Marshal u r0 (fun ts => done ++ { req with Tracers := ts } :: todo)
        [] req.Tracers tracersJSON with
    | Except.error c => Except.error c
    | Except.ok (ts, tracersJSON') =>
      patchRequestsLoop Marshal u r0 (done ++ [{ req with Tracers := ts }]) todo tracersJSON'

/-- The condition of line 59, `len(r.Tracers) > 0 && r.Tracers[0].RequestID == 0`. -/
def isScreenshotUpdate (r : Request) : Bool :=
  match r.Tracers with
  | [] => false
  | t0 :: _ => t0.RequestID = 0

/-- Lines 74-78, the append branch of the update. -/
def appendUpdate (Marshal : Option (List Request) → Except String String) (s : CacheState)
    (r : Request) : Except Crash StepResult :=
  match s.tracers.set s.u (some ((s.tracers.get s.u).getD [] ++ [r])) with
  | Except.error c => Except.error c
  | Except.ok tracers' =>
    match marshalInto Marshal s.tracersJSON s.u (tracers'.get s.u) with
    | Except.error c => Except.error c
    | Except.ok (tracersJSON', _) =>
      Except.ok ⟨{ s with tracers := tracers', tracersJSON := tracersJSON' }, none, []⟩

/-- One iteration of the loop of `tracerCache` (lines 23-81) on one message.
`getTracersDB` is the database query of lines 149-161 at the time of the
iteration and `Marshal` is `json.Marshal` on a slice of requests. -/
def tracerCacheStep (getTracersDB : String → Except String (Option (List Request)))
    (Marshal : Option (List Request) → Except String String) (s : CacheState) :
    Msg → Except Crash StepResult
  | Msg.inClear _ =>
    Except.ok ⟨{ s with tracers := none, tracersJSON := none }, none, []⟩
  | Msg.inR u =>
    if (s.tracers.get u).isNone then
      match getTracersDB u with
      | Except.error err =>
        match s.tracers.set u none with
        | Except.error c => Except.error c
        | Except.ok _ => Except.error (Crash.fatal err)
      | Except.ok reqs =>
        match s.tracers.set u reqs with
        | Except.error c => Except.error c
        | Except.ok tracers' =>
          Except.ok ⟨{ s with u := u, tracers := tracers' }, some (Reply.out (tracers'.get u)), [u]⟩
    else
      Except.ok ⟨{ s with u := u }, some (Reply.out (s.tracers.get u)), []⟩
  | Msg.inRJ u =>
    if (s.tracers.get u).isNone then
      match getTracersDB u with
      | Except.error err =>
        match s.tracers.set u none with
        | Except.error c => Except.error c
        | Except.ok _ => Except.error (Crash.fatal err)
      | Except.ok reqs =>
        match s.tracers.set u reqs with
        | Except.error c => Except.error c
        | Except.ok tracers' =>
          match marshalInto Marshal s.tracersJSON u (tracers'.get u) with
          | Except.error c => Except.error c
          | Except.ok (tracersJSON', true) =>
            Except.ok ⟨{ u := u, tracers := tracers', tracersJSON := tracersJSON' },
              some (Reply.outJSON (some "")), [u]⟩
          | Except.ok (tracersJSON', false) =>
            Except.ok ⟨{ u := u, tracers := tracers', tracersJSON := tracersJSON' },
              some (Reply.outJSON (tracersJSON'.get u)), [u]⟩
    else if (s.tracersJSON.get u).isNone then
      match marshalInto Marshal s.tracersJSON u (s.tracers.get u) with
      | Except.error c => Except.error c
      | Except.ok (tracersJSON', true) =>
        Except.ok ⟨{ s with u := u, tracersJSON := tracersJSON' },
          some (Reply.outJSON (some "")), []⟩
      | Except.ok (tracersJSON', false) =>
        Except.ok ⟨{ s with u := u, tracersJSON := tracersJSON' },
          some (Reply.outJSON (tracersJSON'.get u)), []⟩
    else
      Except.ok ⟨{ s with u := u }, some (Reply.outJSON (s.tracersJSON.get u)), []⟩
  | Msg.inU r =>
    match r.Tracers with
    | [] => appendUpdate Marshal s r
    | t0 :: _ =>
      if t0.RequestID = 0 then
        match s.tracers.get s.u with
        | none => Except.ok ⟨s, none, []⟩
        | some cached =>
          match patchRequestsLoop Marshal s.u t0 [] cached s.tracersJSON with
          | Except.error c => Except.error c
          | Except.ok (cached', tracersJSON') =>
            Except.ok ⟨{ s with
                tracers := s.tracers.map fun f => Function.update f s.u (some cached'),
                tracersJSON := tracersJSON' }, none, []⟩
      else appendUpdate Marshal s r

/-- The loop on a sequence of messages, in the order in which they are
received: the state at the end and the values sent back, or the crash that
ended the loop. -/
def tracerCacheRun (getTracersDB : String → Except String (Option (List Request)))
    (Marshal : Option (List Request) → Except String String) :
    CacheState → List Msg → Except Crash (CacheState × List Reply)
  | s, [] => Except.ok (s, [])
  | s, m :: ms =>
    match tracerCacheStep getTracersDB Marshal s m with
    | Except.error c => Except.error c
    | Except.ok r =>
      match tracerCacheRun getTracersDB Marshal r.state ms with
      | Except.error c => Except.error c
      | Except.ok (s', replies) => Except.ok (s', r.reply.toList ++ replies)

/-- A tracer with its screenshot blanked. -/
def eraseScreenshot (t : Tracer) : Tracer :=
  { t with Screenshot := "" }

/-- A request with the screenshot of every tracer blanked: two requests with
the same image differ at most in screenshots. -/
def eraseScreenshots (r : Request) : Request :=
  { r with Tracers := r.Tracers.map eraseScreenshot }

/-! ### Adding a tracer -/

/-- What `AddTracer` does to the world outside, in order. -/
inductive Effect where
  /-- The call `store.DB.Create(&request)` with this request. -/
  | dbCreate (request : Request)
  /-- The send `inUpdateChanTracer <- request`. -/
  | cacheUpdate (request : Request)
  /-- The call `UpdateSubscribers(request)`. -/
  | notify (request : Request)
  /-- The call `store.DB.Model(&t).Where("uuid = ?", tracer.UUID).Updates(tracer)`. -/
  | dbUpdates (t tracer : Tracer)
deriving DecidableEq, Repr

/-- The returned pair `(ret, err)` of `AddTracer`, the database state and the
effects performed, in order.  A `nil` byte slice is the empty string. -/
structure AddTracerResult (σ : Type) where
  ret : String
  err : Option String
  db : σ
  effects : List Effect

/-- The function `AddTracer` (lines 102-125).  `MaxRequestSize` is
`configure.Current.MaxRequestSize`; `Create` is `store.DB.Create(&request)`,
which returns the request as the database completed it and the error, if any;
`Marshal` is `json.Marshal` on a request. -/
def AddTracer {σ : Type} (MaxRequestSize : Int)
    (Create : Request → σ → (Request × Option String) × σ)
    (Marshal : Request → Except String String) (request : Request) (s : σ) :
    Except Crash (AddTracerResult σ) :=
  let limited : Except Crash Request :=
    if (request.RawRequest.length : Int) > MaxRequestSize then
      if MaxRequestSize < 0 then Except.error Crash.sliceBounds
      else Except.ok { request with RawRequest := request.RawRequest.take MaxRequestSize.toNat }
    else Except.ok request
  match limited with
  | Except.error c => Except.error c
  | Except.ok request =>
    match Create request s with
    | ((_, some err), s') => Except.ok ⟨"", some err, s', [Effect.dbCreate request]⟩
    | ((created, none), s') =>
      let effects := [Effect.dbCreate request, Effect.cacheUpdate created, Effect.notify created]
      match Marshal created with
      | Except.error err => Except.ok ⟨"", some err, s', effects⟩
      | Except.ok ret => Except.ok ⟨ret, none, s', effects⟩

/-- The request that a call of `AddTracer` handed to the database. -/
def AddTracerResult.stored {σ : Type} (r : AddTracerResult σ) : Option Request :=
  match r.effects with
  | Effect.dbCreate request :: _ => some request
  | _ => none

/-- The function `EditTracer` (lines 189-205).  `Updates` is the call
`store.DB.Model(&t).Where("uuid = ?", tracer.UUID).Updates(tracer)`, which
returns the model `t` as the database left it and the error, if any; `Marshal`
is `json.Marshal` on a tracer.  The result has the shape of that of
`AddTracer`. -/
def EditTracer {σ : Type} (Updates : Tracer → Tracer → σ → (Tracer × Option String) × σ)
    (Marshal : Tracer → Except String String) (tracer : Tracer) (id : Nat) (s : σ) :
    AddTracerResult σ :=
  let t : Tracer := ⟨id, 0, "", "", ""⟩
  match Updates t tracer s with
  | ((_, some err), s') => ⟨"", some err, s', [Effect.dbUpdates t tracer]⟩
  | ((t', none), s') =>
    let r : Request := ⟨0, "", [], [t']⟩
    let effects := [Effect.dbUpdates t tracer, Effect.cacheUpdate r, Effect.notify r]
    match Marshal tracer with
    | Except.error err => ⟨"", some err, s', effects⟩
    | Except.ok ret => ⟨ret, none, s', effects⟩

/-! ### The cache actor, continued -/

/-- The function `getTracersDB` (lines 149-161).  `Find` is the query
`store.DB.Where("uuid = ?", u).Preload("Tracers").Find(&reqs)`: the error, or
the rows found.  On success the slice is not `nil`, also when no row is found:
the query replaces the destination by a freshly made slice before it scans the
rows. -/
def getTracersDB (Find : String → Except String (List Request)) (u : String) :
    Except String (Option (List Request)) :=
  match Find u with
  | Except.error err => Except.error err
  | Except.ok reqs => Except.ok (some reqs)

/-- The entry that `tracersJSON[u], err = json.Marshal(v)` stores: the encoding,
or `nil` when encoding fails. -/
def encodeEntry (Marshal : Option (List Request) → Except String String)
    (v : Option (List Request)) : Option String :=
  match Marshal v with
  | Except.ok bytes => some bytes
  | Except.error _ => none

/-- Lines 62-64 on one cached tracer: the screenshot is overwritten when the
ID is that of the update, and nothing else changes. -/
def patchTracer (r0 t : Tracer) : Tracer :=
  if r0.ID = t.ID then { t with Screenshot := r0.Screenshot } else t

/-- A cached request with every one of its tracers patched. -/
def patchRequest (r0 : Tracer) (req : Request) : Request :=
  { req with Tracers := req.Tracers.map (patchTracer r0) }

/-- Whether some tracer of the list has the ID of the update. -/
def matchesTracers (r0 : Tracer) (ts : List Tracer) : Bool :=
  ts.any fun t => r0.ID = t.ID

/-- Whether some tracer of some request of the list has the ID of the
update. -/
def matchesRequests (r0 : Tracer) (l : List Request) : Bool :=
  l.any fun req => matchesTracers r0 req.Tracers

/-- Lines 60-72, the screenshot branch of the update, for the first tracer
`t0` of the incoming request. -/
def patchUpdate (Marshal : Option (List Request) → Except String String) (s : CacheState)
    (t0 : Tracer) : Except Crash StepResult :=
  match s.tracers.get s.u with
  | none => Except.ok ⟨s, none, []⟩
  | some cached =>
    match patchRequestsLoop Marshal s.u t0 [] cached s.tracersJSON with
    | Except.error c => Except.error c
    | Except.ok (cached', tracersJSON') =>
      Except.ok ⟨{ s with
          tracers := s.tracers.map fun f => Function.update f s.u (some cached'),
          tracersJSON := tracersJSON' }, none, []⟩

/-- The shape of a screenshot update as the specification words it: exactly
one tracer, whose numeric ID is zero. -/
def specScreenshotShape (r : Request) : Bool :=
  match r.Tracers with
  | [t] => t.ID = 0
  | _ => false

/-! ### Concrete values for examples -/

/-- A tracer row of request 2. -/
def demoTracer : Tracer := ⟨7, 2, "zzXSSzz", "A", ""⟩

/-- A request already stored for session `"A"`. -/
def demoRequest0 : Request := ⟨1, "A", [71, 69, 84], []⟩

/-- A new request of session `"A"` carrying a persisted tracer. -/
def demoRequestA : Request := ⟨2, "A", [80, 79, 83, 84, 32, 47], [demoTracer]⟩

/-- An update descriptor for the screenshot of tracer 7. -/
def demoScreenshot : Request := ⟨0, "", [], [⟨7, 0, "", "", "shot.png"⟩]⟩

/-- A database that holds `demoRequest0` for session `"A"` and nothing else. -/
def demoDB : String → Except String (Option (List Request)) :=
  fun u => if u = "A" then Except.ok (some [demoRequest0]) else Except.ok (some [])

/-- The same database after `demoRequestA` was stored. -/
def demoDBAfter : String → Except String (Option (List Request)) :=
  fun u => if u = "A" then Except.ok (some [demoRequest0, demoRequestA]) else Except.ok (some [])

/-- An encoder that never fails and writes the number of requests. -/
def demoMarshal : Option (List Request) → Except String String :=
  fun v => match v with
    | none => Except.ok "null"
    | some l => Except.ok ("[" ++ toString l.length ++ "]")

/-- A database write that accepts every request and numbers it. -/
def demoCreate : Request → Nat → (Request × Option String) × Nat :=
  fun request n => (({ request with ID := n + 1 }, none), n + 1)

/-- The rows of `demoDB` as the query finds them. -/
def demoFind : String → Except String (List Request) :=
  fun u => if u = "A" then Except.ok [demoRequest0] else Except.ok []

/-- An encoder that fails on every value. -/
def demoFailingMarshal : Option (List Request) → Except String String :=
  fun _ => Except.error "json: unsupported value"

/-- A request with exactly one tracer, of ID zero, that belongs to request 5. -/
def demoZeroID : Request := ⟨0, "", [], [⟨0, 5, "", "", "shot.png"⟩]⟩

/-- A database update that accepts every change and copies the screenshot to
the model. -/
def demoUpdates : Tracer → Tracer → Nat → (Tracer × Option String) × Nat :=
  fun t tracer n => (({ t with Screenshot := tracer.Screenshot }, none), n + 1)

end common

namespace common

/-! ### The actor with the storage of the `Tracers` slices explicit

In the program the field `Tracers` of a request is a slice, a window on an
array of tracers.  Copying a request (sending it on the channel, appending it
to a cached list, handing a list out) copies the window and not the array, so
the copies of one request share their tracers, and line 64 writes through the
window into the array.  The model above gives every cached request tracers of
its own; the model below keeps the tracers in memory cells and a request holds
the cells of its window.  A cell may be held by several requests, cached under
one key or under several.  The lists of requests themselves are never shared
between two keys (each entry is the result of a query or of an `append` to the
same entry) and stay values.  The two models make the same step on an update
as long as no tracer that the update writes is held by a request cached under
another key (`tracerCacheStepMem_inU_view`). -/

/-- A request as the program holds it: the scalar fields, and for `Tracers` the
memory cells that hold the elements of the slice, in order. -/
structure RequestRef where
  ID : Nat
  UUID : String
  RawRequest : List UInt8
  Tracers : List Nat
deriving DecidableEq, Repr

/-- The memory that holds the tracers: the tracer in each cell. -/
abbrev TracerMem := Nat → Tracer

/-- The request with the tracers that its cells hold. -/
def RequestRef.load (mem : TracerMem) (r : RequestRef) : Request :=
  ⟨r.ID, r.UUID, r.RawRequest, r.Tracers.map mem⟩

/-- A list of requests with the tracers that their cells hold. -/
def loadAll (mem : TracerMem) (l : List RequestRef) : List Request :=
  l.map (RequestRef.load mem)

/-- The cells of the tracers of a list of requests, in the order of the two
loops of lines 60-61. -/
def cellsOf (l : List RequestRef) : List Nat :=
  l.flatMap fun req => req.Tracers

/-- The variables of `tracerCache` that live across iterations, and the memory
of the tracers. -/
structure MemState where
  u : String
  tracers : GoMap (List RequestRef)
  tracersJSON : GoMap String
  mem : TracerMem

/-- The state in which the loop is entered (lines 15-21), with the memory as it
is then. -/
def MemState.init (mem : TracerMem) : MemState :=
  ⟨"", some fun _ => none, some fun _ => none, mem⟩

/-- One message on one of the four input channels; an update carries the
request with the cells of its tracers. -/
inductive MemMsg where
  | inClear (v : Int)
  | inR (u : String)
  | inRJ (u : String)
  | inU (r : RequestRef)
deriving DecidableEq, Repr

/-- The result of one iteration: the next state, the value sent back if any (as
its reader finds it when it is sent), and the session keys for which the
database was queried. -/
structure MemStepResult where
  state : MemState
  reply : Option Reply
  queries : List String

/-- Lines 61-71, the loop over the tracers of one cached request, whose cells
are the fourth argument.  `c0` is the cell of `r.Tracers[0]` and `entry` is the
list `tracers[u]`. -/
def patchTracersLoopMem (Marshal : Option (List Request) → Except String String) (u : String)
    (c0 : Nat) (entry : List RequestRef) :
    List Nat → TracerMem → GoMap String → Except Crash (TracerMem × GoMap String)
  | [], mem, tracersJSON => Except.ok (mem, tracersJSON)
  | c :: todo, mem, tracersJSON =>
    if (mem c0).ID = (mem c).ID then
      match marshalInto Marshal tracersJSON u
          (some (loadAll (Function.update mem c { mem c with Screenshot := (mem c0).Screenshot })
            entry)) with
      | Except.error e => Except.error e
      | Except.ok (tracersJSON', _) =>
        patchTracersLoopMem Marshal u c0 entry todo
          (Function.update mem c { mem c with Screenshot := (mem c0).Screenshot }) tracersJSON'
    else
      patchTracersLoopMem Marshal u c0 entry todo mem tracersJSON

/-- Lines 60-72, the loop over the cached requests of the key `u`; the fourth
argument holds the requests still to visit. -/
def patchRequestsLoopMem (Marshal : Option (List Request) → Except String String) (u : String)
    (c0 : Nat) (entry : List RequestRef) :
    List RequestRef → TracerMem → GoMap String → Except Crash (TracerMem × GoMap String)
  | [], mem, tracersJSON => Except.ok (mem, tracersJSON)
  | req :: todo, mem, tracersJSON =>
    match patchTracersLoopMem Marshal u c0 entry req.Tracers mem tracersJSON with
    | Except.error e => Except.error e
    | Except.ok (mem', tracersJSON') =>
      patchRequestsLoopMem Marshal u c0 entry todo mem' tracersJSON'

/-- The condition of line 59 on a request in memory. -/
def isScreenshotUpdateMem (mem : TracerMem) (r : RequestRef) : Bool :=
  match r.Tracers with
  | [] => false
  | c0 :: _ => (mem c0).RequestID = 0

/-- Lines 74-78, the append branch of the update: the request is copied to the
end of the entry, with the cells it holds. -/
def appendUpdateMem (Marshal : Option (List Request) → Except String String) (s : MemState)
    (r : RequestRef) : Except Crash MemStepResult :=
  match s.tracers.set s.u (some ((s.tracers.get s.u).getD [] ++ [r])) with
  | Except.error c => Except.error c
  | Except.ok tracers' =>
    match marshalInto Marshal s.tracersJSON s.u ((tracers'.get s.u).map (loadAll s.mem)) with
    | Except.error c => Except.error c
    | Except.ok (tracersJSON', _) =>
      Except.ok ⟨{ s with tracers := tracers', tracersJSON := tracersJSON' }, none, []⟩

/-- One iteration of the loop of `tracerCache` (lines 23-81) on one message.
`getTracersDB` is the database query of lines 149-161 at the time of the
iteration: the error, or the rows with the cells in which it has laid their
tracers and the memory afterwards. -/
def tracerCacheStepMem
    (getTracersDB : TracerMem → String → Except String (Option (List RequestRef) × TracerMem))
    (Marshal : Option (List Request) → Except String String) (s : MemState) :
    MemMsg → Except Crash MemStepResult
  | MemMsg.inClear _ =>
    Except.ok ⟨{ s with tracers := none, tracersJSON := none }, none, []⟩
  | MemMsg.inR u =>
    if (s.tracers.get u).isNone then
      match getTracersDB s.mem u with
      | Except.error err =>
        match s.tracers.set u none with
        | Except.error c => Except.error c
        | Except.ok _ => Except.error (Crash.fatal err)
      | Except.ok (reqs, mem') =>
        match s.tracers.set u reqs with
        | Except.error c => Except.error c
        | Except.ok tracers' =>
          Except.ok ⟨⟨u, tracers', s.tracersJSON, mem'⟩,
            some (Reply.out ((tracers'.get u).map (loadAll mem'))), [u]⟩
    else
      Except.ok ⟨{ s with u := u }, some (Reply.out ((s.tracers.get u).map (loadAll s.mem))), []⟩
  | MemMsg.inRJ u =>
    if (s.tracers.get u).isNone then
      match getTracersDB s.mem u with
      | Except.error err =>
        match s.tracers.set u none with
        | Except.error c => Except.error c
        | Except.ok _ => Except.error (Crash.fatal err)
      | Except.ok (reqs, mem') =>
        match s.tracers.set u reqs with
        | Except.error c => Except.error c
        | Except.ok tracers' =>
          match marshalInto Marshal s.tracersJSON u ((tracers'.get u).map (loadAll mem')) with
          | Except.error c => Except.error c
          | Except.ok (tracersJSON', true) =>
            Except.ok ⟨⟨u, tracers', tracersJSON', mem'⟩, some (Reply.outJSON (some "")), [u]⟩
          | Except.ok (tracersJSON', false) =>
            Except.ok ⟨⟨u, tracers', tracersJSON', mem'⟩,
              some (Reply.outJSON (tracersJSON'.get u)), [u]⟩
    else if (s.tracersJSON.get u).isNone then
      match marshalInto Marshal s.tracersJSON u ((s.tracers.get u).map (loadAll s.mem)) with
      | Except.error c => Except.error c
      | Except.ok (tracersJSON', true) =>
        Except.ok ⟨{ s with u := u, tracersJSON := tracersJSON' },
          some (Reply.outJSON (some "")), []⟩
      | Except.ok (tracersJSON', false) =>
        Except.ok ⟨{ s with u := u, tracersJSON := tracersJSON' },
          some (Reply.outJSON (tracersJSON'.get u)), []⟩
    else
      Except.ok ⟨{ s with u := u }, some (Reply.outJSON (s.tracersJSON.get u)), []⟩
  | MemMsg.inU r =>
    match r.Tracers with
    | [] => appendUpdateMem Marshal s r
    | c0 :: _ =>
      if (s.mem c0).RequestID = 0 then
        match s.tracers.get s.u with
        | none => Except.ok ⟨s, none, []⟩
        | some cached =>
          match patchRequestsLoopMem Marshal s.u c0 cached cached s.mem s.tracersJSON with
          | Except.error c => Except.error c
          | Except.ok (mem', tracersJSON') =>
            Except.ok ⟨{ s with tracersJSON := tracersJSON', mem := mem' }, none, []⟩
      else appendUpdateMem Marshal s r

/-- The loop on a sequence of messages, each with what the rest of the program
has written to the memory since the message before and with the database query
as it answers when the message is processed. -/
def tracerCacheRunMem (Marshal : Option (List Request) → Except String String) :
    MemState →
      List ((TracerMem → TracerMem) ×
        (TracerMem → String → Except String (Option (List RequestRef) × TracerMem)) × MemMsg) →
      Except Crash (MemState × List Reply)
  | s, [] => Except.ok (s, [])
  | s, step :: steps =>
    match tracerCacheStepMem step.2.1 Marshal { s with mem := step.1 s.mem } step.2.2 with
    | Except.error c => Except.error c
    | Except.ok r =>
      match tracerCacheRunMem Marshal r.state steps with
      | Except.error c => Except.error c
      | Except.ok (s', replies) => Except.ok (s', r.reply.toList ++ replies)

/-- The key of the last read among the messages, or `u₀` when there is
none. -/
def lastReadKeyMem (u₀ : String) : List MemMsg → String
  | [] => u₀
  | MemMsg.inR u :: ms => lastReadKeyMem u ms
  | MemMsg.inRJ u :: ms => lastReadKeyMem u ms
  | _ :: ms => lastReadKeyMem u₀ ms

/-- The memory after line 64 has run on each of the given cells for the tracer
`r0` of the update: a cell among them whose tracer has the ID of `r0` holds
that tracer with the screenshot of `r0`, every other cell is as before. -/
def patchMem (r0 : Tracer) (cells : List Nat) (mem : TracerMem) : TracerMem :=
  fun c => if c ∈ cells ∧ r0.ID = (mem c).ID then { mem c with Screenshot := r0.Screenshot }
    else mem c

/-- Whether the tracer in one of the given cells has the ID of the update. -/
def matchesCells (r0 : Tracer) (cells : List Nat) (mem : TracerMem) : Bool :=
  cells.any fun c => r0.ID = (mem c).ID

/-- The state as the first model sees it: every cached request with the tracers
that its cells hold. -/
def MemState.view (s : MemState) : CacheState :=
  ⟨s.u, s.tracers.map fun f k => (f k).map (loadAll s.mem), s.tracersJSON⟩

end common

namespace common

/-- A memory in which cell 0 holds `demoTracer` and cell 1 the tracer of
`demoScreenshot`. -/
def demoMem : TracerMem :=
  fun c => if c = 0 then demoTracer else if c = 1 then ⟨7, 0, "", "", "shot.png"⟩
    else ⟨0, 0, "", "", ""⟩

/-- The request `demoRequestA` in `demoMem`: its tracer sits in cell 0. -/
def demoRefA : RequestRef := ⟨2, "A", [80, 79, 83, 84, 32, 47], [0]⟩

/-- The descriptor `demoScreenshot` in `demoMem`: its tracer sits in cell 1. -/
def demoRefShot : RequestRef := ⟨0, "", [], [1]⟩

/-- A database without rows. -/
def demoEmptyLoad : TracerMem → String → Except String (Option (List RequestRef) × TracerMem) :=
  fun mem _ => Except.ok (some [], mem)

/-- The database `demoDBAfter`: for session `"A"` it lays the tracer of the
second row in cell 10. -/
def demoLoadAfter : TracerMem → String → Except String (Option (List RequestRef) × TracerMem) :=
  fun mem u =>
    if u = "A" then
      Except.ok (some [⟨1, "A", [71, 69, 84], []⟩, ⟨2, "A", [80, 79, 83, 84, 32, 47], [10]⟩],
        Function.update mem 10 demoTracer)
    else Except.ok (some [], mem)

/-- An encoder that never fails and writes the screenshots of the tracers. -/
def demoMarshalShots : Option (List Request) → Except String String :=
  fun v => match v with
    | none => Except.ok "null"
    | some l =>
      Except.ok ("[" ++ String.intercalate ","
        (l.flatMap fun req => req.Tracers.map fun t => t.Screenshot) ++ "]")

/-- A state in which the key is `"A"` and `demoRefA` is cached under it. -/
def demoPatchState : MemState :=
  ⟨"A", some fun k => if k = "A" then some [demoRefA] else none, some fun _ => none, demoMem⟩

end common

/-! ## Library functions -/

namespace strings

/-- The search of `Contains` finds exactly the contiguous occurrences. -/
theorem containsChars_iff_infix (sub s : List Char) :
    containsChars sub s = true ↔ sub <:+: s := by
  induction s with
  | nil =>
    simp only [containsChars, List.isPrefixOf_iff_prefix, List.prefix_nil, List.infix_nil]
  | cons c t ih =>
    simp only [containsChars, Bool.or_eq_true, List.isPrefixOf_iff_prefix, ih,
      List.infix_cons_iff]

end strings

/-! ## Properties of `addEventHelper` -/

namespace rest

/-- C1: an event with an empty `Data`, `Location` or `EventType` gets status
500 and the message of the first empty field in that order (so an empty
`Data` always gets the data message); the store write is not invoked: the
database state is returned as it was, the result is the same for every store,
and a store that counts its writes shows the same count afterwards. -/
theorem addEventHelper_rejects_first_empty_field {σ : Type} (st : EventStore σ) (trcrID : Int)
    (trcrEvnt : TracerEvent) (s : σ)
    (h : trcrEvnt.Data.String = "" ∨ trcrEvnt.Location.String = "" ∨
      trcrEvnt.EventType.String = "") :
    addEventHelper st trcrID trcrEvnt s =
        ((500,
          if trcrEvnt.Data.String = "" then "The data field for the event was empty."
          else if trcrEvnt.Location.String = "" then "The location field for the event was empty."
          else "The event type field for the event was empty."), s)
      ∧ (trcrEvnt.Data.String = "" →
          (addEventHelper st trcrID trcrEvnt s).1 =
            (500, "The data field for the event was empty."))
      ∧ (∀ st' : EventStore σ,
          addEventHelper st' trcrID trcrEvnt s = addEventHelper st trcrID trcrEvnt s)
      ∧ (∀ n : Nat, (addEventHelper st.counting trcrID trcrEvnt (s, n)).2 = (s, n)) := by
  have key : ∀ {τ : Type} (st' : EventStore τ) (s' : τ),
      addEventHelper st' trcrID trcrEvnt s' =
        ((500,
          if trcrEvnt.Data.String = "" then "The data field for the event was empty."
          else if trcrEvnt.Location.String = "" then "The location field for the event was empty."
          else "The event type field for the event was empty."), s') := by
    intro τ st' s'
    unfold addEventHelper
    by_cases hd : trcrEvnt.Data.String = ""
    · simp [hd]
    · by_cases hl : trcrEvnt.Location.String = ""
      · simp [hd, hl]
      · have he : trcrEvnt.EventType.String = "" := by
          rcases h with h | h | h
          · exact absurd h hd
          · exact absurd h hl
          · exact h
        simp [hd, hl, he]
  refine ⟨key st s, ?_, ?_, ?_⟩
  · intro hd
    rw [key st s]
    simp [hd]
  · intro st'
    rw [key st s, key st' s]
  · intro n
    rw [key st.counting (s, n)]

theorem addEventHelper_rejects_first_empty_field_witness :
    (demoEmptyEvent.Data.String = "" ∨ demoEmptyEvent.Location.String = "" ∨
        demoEmptyEvent.EventType.String = "")
      ∧ addEventHelper demoStore 1 demoEmptyEvent [] =
          ((500, "The data field for the event was empty."), []) :=
  ⟨Or.inl rfl,
    (addEventHelper_rejects_first_empty_field demoStore 1 demoEmptyEvent []
      (Or.inl rfl)).1⟩

/-- C2: for an event whose three fields are non-empty and whose store write
returns an error, the status is 409 when the error message contains
`UNIQUE` and 500 otherwise, and the body is the error message. -/
theorem addEventHelper_store_error {σ : Type} (st : EventStore σ) (trcrID : Int)
    (trcrEvnt : TracerEvent) (s s' : σ) (err : String)
    (hd : trcrEvnt.Data.String ≠ "") (hl : trcrEvnt.Location.String ≠ "")
    (he : trcrEvnt.EventType.String ≠ "")
    (hw : st.AddEvent trcrID trcrEvnt s = (Except.error err, s')) :
    (strings.Contains err "UNIQUE" = true →
        addEventHelper st trcrID trcrEvnt s = ((409, err), s'))
      ∧ (strings.Contains err "UNIQUE" = false →
        addEventHelper st trcrID trcrEvnt s = ((500, err), s'))
      ∧ (addEventHelper st trcrID trcrEvnt s).1.2 = err := by
  unfold addEventHelper
  simp only [hd, hl, he, if_false, hw]
  cases hc : strings.Contains err "UNIQUE" <;> simp

theorem addEventHelper_store_error_witness :
    addEventHelper demoStore 1 demoEvent [(1, demoEvent)] =
        ((409, "UNIQUE constraint failed: tracer_events.event_data"), [(1, demoEvent)])
      ∧ addEventHelper demoStore 3 demoEvent [] = ((500, "disk I/O error"), []) :=
  ⟨(addEventHelper_store_error demoStore 1 demoEvent [(1, demoEvent)] [(1, demoEvent)]
      "UNIQUE constraint failed: tracer_events.event_data"
      (by decide) (by decide) (by decide) rfl).1 (by decide),
    (addEventHelper_store_error demoStore 3 demoEvent [] [] "disk I/O error"
      (by decide) (by decide) (by decide) rfl).2.1 (by decide)⟩

/-- C3: the status is 200 exactly when the three fields are non-empty and the
store write succeeds; the body is then the serialized event that the store
write returned (and the state is the one it left). -/
theorem addEventHelper_success_iff {σ : Type} (st : EventStore σ) (trcrID : Int)
    (trcrEvnt : TracerEvent) (s : σ) :
    ((addEventHelper st trcrID trcrEvnt s).1.1 = 200 ↔
        (trcrEvnt.Data.String ≠ "" ∧ trcrEvnt.Location.String ≠ "" ∧
          trcrEvnt.EventType.String ≠ "" ∧
          ∃ evntStr, (st.AddEvent trcrID trcrEvnt s).1 = Except.ok evntStr))
      ∧ (∀ evntStr, trcrEvnt.Data.String ≠ "" → trcrEvnt.Location.String ≠ "" →
          trcrEvnt.EventType.String ≠ "" →
          (st.AddEvent trcrID trcrEvnt s).1 = Except.ok evntStr →
          addEventHelper st trcrID trcrEvnt s =
            ((200, evntStr), (st.AddEvent trcrID trcrEvnt s).2)) := by
  unfold addEventHelper
  by_cases hd : trcrEvnt.Data.String = ""
  · simp [hd]
  by_cases hl : trcrEvnt.Location.String = ""
  · simp [hd, hl]
  by_cases he : trcrEvnt.EventType.String = ""
  · simp [hd, hl, he]
  simp only [hd, hl, he, if_false]
  rcases hw : st.AddEvent trcrID trcrEvnt s with ⟨r, s'⟩
  cases r with
  | error err =>
    cases hc : strings.Contains err "UNIQUE" <;> simp [hc]
  | ok evntStr => simp [hd, hl, he]

theorem addEventHelper_success_iff_witness :
    addEventHelper demoStore 1 demoEvent [] = ((200, "event:<img>"), [(1, demoEvent)]) :=
  (addEventHelper_success_iff demoStore 1 demoEvent []).2 "event:<img>"
    (by decide) (by decide) (by decide) rfl

end rest

/-! ## The loop of `AddEvents` as a fold over the per-pair results -/

namespace rest

theorem addEventHelper_status {σ : Type} (st : EventStore σ) (trcrID : Int)
    (trcrEvnt : TracerEvent) (s : σ) :
    (addEventHelper st trcrID trcrEvnt s).1.1 = 200 ∨
      (addEventHelper st trcrID trcrEvnt s).1.1 = 409 ∨
      (addEventHelper st trcrID trcrEvnt s).1.1 = 500 := by
  unfold addEventHelper
  by_cases hd : trcrEvnt.Data.String = ""
  · simp [hd]
  by_cases hl : trcrEvnt.Location.String = ""
  · simp [hd, hl]
  by_cases he : trcrEvnt.EventType.String = ""
  · simp [hd, hl, he]
  simp only [hd, hl, he, if_false]
  rcases st.AddEvent trcrID trcrEvnt s with ⟨r, s'⟩
  cases r with
  | error err => cases hc : strings.Contains err "UNIQUE" <;> simp [hc]
  | ok evntStr => simp

theorem outcomesOf_status {σ : Type} (st : EventStore σ) (ps : List (TracerEvent × String)) :
    ∀ (s : σ), ∀ o ∈ outcomesOf st ps s, o.1 = 200 ∨ o.1 = 409 ∨ o.1 = 500 := by
  induction ps with
  | nil => intro s o ho; simp [outcomesOf] at ho
  | cons p ps ih =>
    intro s o ho
    unfold outcomesOf at ho
    cases hq : st.DBGetTracerIDByTracerString s p.2 with
    | error e =>
      rw [hq] at ho
      exact ih s o ho
    | ok trcrID =>
      rw [hq] at ho
      rcases List.mem_cons.mp ho with h | h
      · rw [h]; exact addEventHelper_status st trcrID p.1 s
      · exact ih _ o h

theorem bulkLoop_eq_foldl_pairs {σ : Type} (st : EventStore σ)
    (trcrEvntsBulk : List TracerEventBulk) :
    ∀ acc : BulkState × σ,
      bulkLoop st trcrEvntsBulk acc =
        (pairs trcrEvntsBulk).foldl (fun acc p => bulkPair st p.1 acc p.2) acc := by
  induction trcrEvntsBulk with
  | nil => intro acc; rfl
  | cons item rest ih =>
    intro acc
    have h := ih (item.TracerStrings.foldl (bulkPair st item.TracerEvent) acc)
    simp only [bulkLoop, List.foldl_cons] at h ⊢
    rw [h]
    simp [pairs, List.foldl_append, List.foldl_map]

theorem foldl_bulkPair {σ : Type} (st : EventStore σ) (ps : List (TracerEvent × String)) :
    ∀ (b : BulkState) (s : σ),
      ps.foldl (fun acc p => bulkPair st p.1 acc p.2) (b, s) =
        ((outcomesOf st ps s).foldl (fun b o => aggregate b o.1 o.2) b, stateAfter st ps s) := by
  induction ps with
  | nil => intro b s; rfl
  | cons p ps ih =>
    intro b s
    simp only [List.foldl_cons]
    unfold outcomesOf stateAfter
    cases hq : st.DBGetTracerIDByTracerString s p.2 with
    | error e =>
      have hb : bulkPair st p.1 (b, s) p.2 = (b, s) := by simp [bulkPair, hq]
      rw [hb, ih]
    | ok trcrID =>
      have hb : bulkPair st p.1 (b, s) p.2 =
          (aggregate b (addEventHelper st trcrID p.1 s).1.1 (addEventHelper st trcrID p.1 s).1.2,
            (addEventHelper st trcrID p.1 s).2) := by
        simp [bulkPair, hq]
      rw [hb, ih]
      simp

/-- The loop result of `AddEvents` is the fold of `aggregate` over the
per-pair results. -/
theorem AddEvents_eq_fold {σ : Type} (st : EventStore σ) (trcrEvntsBulk : List TracerEventBulk)
    (s : σ) :
    AddEvents st trcrEvntsBulk s =
      (((aggregateAll (pairOutcomes st trcrEvntsBulk s)).finalStatus,
        if (aggregateAll (pairOutcomes st trcrEvntsBulk s)).finalRet.length = 0
        then successBody (aggregateAll (pairOutcomes st trcrEvntsBulk s)).count
        else (aggregateAll (pairOutcomes st trcrEvntsBulk s)).finalRet),
        stateAfter st (pairs trcrEvntsBulk) s) := by
  unfold AddEvents pairOutcomes aggregateAll
  simp only [bulkLoop_eq_foldl_pairs, foldl_bulkPair]

theorem aggregate_finalStatus (acc : BulkState) (status : Nat) (ret : String) :
    (aggregate acc status ret).finalStatus = rankMax acc.finalStatus status := by
  unfold aggregate rankMax statusRank
  by_cases h5 : status = 500
  · subst h5
    by_cases ha : acc.finalStatus = 500 <;> simp [ha]
    by_cases ha' : acc.finalStatus = 409 <;> simp [ha']
  · by_cases h4 : status = 409
    · subst h4
      by_cases ha : acc.finalStatus = 500
      · simp [ha]
      · by_cases ha' : acc.finalStatus = 409 <;> simp [ha, ha']
    · simp [h5, h4]

theorem foldl_aggregate_finalStatus (l : List (Nat × String)) :
    ∀ acc : BulkState,
      (l.foldl (fun b o => aggregate b o.1 o.2) acc).finalStatus =
        (l.map Prod.fst).foldl rankMax acc.finalStatus := by
  induction l with
  | nil => intro acc; rfl
  | cons o l ih =>
    intro acc
    simp only [List.foldl_cons, List.map_cons]
    rw [ih, aggregate_finalStatus]

theorem foldl_rankMax (l : List Nat) :
    ∀ a : Nat,
      l.foldl rankMax a =
        if 500 ∈ l then 500
        else if 409 ∈ l then (if a = 500 then 500 else 409)
        else a := by
  induction l with
  | nil => intro a; simp
  | cons x l ih =>
    intro a
    simp only [List.foldl_cons, List.mem_cons]
    rw [ih]
    unfold rankMax statusRank
    by_cases h5 : (500 : Nat) ∈ l
    · simp [h5]
    by_cases hx5 : x = 500
    · subst hx5
      by_cases ha : a = 500 <;> simp [h5, ha]
      by_cases ha' : a = 409 <;> simp [ha']
    by_cases hx4 : x = 409
    · subst hx4
      by_cases ha : a = 500
      · simp [h5, ha]
      · by_cases ha' : a = 409 <;> simp [h5, ha, ha']
    · have e5 : ¬ (500 = x) := fun h => hx5 h.symm
      have e4 : ¬ (409 = x) := fun h => hx4 h.symm
      simp [h5, hx5, hx4, e5, e4]

theorem specFinalStatus_eq (l : List Nat) :
    specFinalStatus l = if 500 ∈ l then 500 else if 409 ∈ l then 409 else 200 := by
  unfold specFinalStatus
  rw [foldl_rankMax]
  simp

theorem aggregateAll_finalStatus (l : List (Nat × String)) :
    (aggregateAll l).finalStatus = specFinalStatus (l.map Prod.fst) := by
  unfold aggregateAll specFinalStatus
  rw [foldl_aggregate_finalStatus]

theorem aggregateAll_concat (l : List (Nat × String)) (o : Nat × String) :
    aggregateAll (l ++ [o]) = aggregate (aggregateAll l) o.1 o.2 := by
  simp [aggregateAll, List.foldl_append]

theorem lastMessage_concat_eq (status : Nat) (l : List (Nat × String)) (o : Nat × String)
    (h : o.1 = status) : lastMessage status (l ++ [o]) = some o.2 := by
  simp [lastMessage, List.filter_append, h]

theorem lastMessage_concat_ne (status : Nat) (l : List (Nat × String)) (o : Nat × String)
    (h : o.1 ≠ status) : lastMessage status (l ++ [o]) = lastMessage status l := by
  simp [lastMessage, List.filter_append, h]

theorem statusBody_length_ne_zero (ret : String) : (statusBody ret).length ≠ 0 := by
  unfold statusBody
  rw [String.length_append, String.length_append]
  have h : ("\x7b\"Status\": \"" : String).length = 12 := by decide
  omega

/-- What the accumulators hold after any list of per-pair results with
statuses among 200, 409 and 500. -/
theorem aggregateAll_cases (l : List (Nat × String))
    (hS : ∀ o ∈ l, o.1 = 200 ∨ o.1 = 409 ∨ o.1 = 500) :
    ((aggregateAll l).finalStatus = 200 ∧ (aggregateAll l).finalRet = "" ∧
        (aggregateAll l).count = l.length ∧ ∀ o ∈ l, o.1 = 200)
      ∨ ((aggregateAll l).finalStatus = 409 ∧
          ∃ m, lastMessage 409 l = some m ∧ (aggregateAll l).finalRet = statusBody m)
      ∨ ((aggregateAll l).finalStatus = 500 ∧
          ∃ m, lastMessage 500 l = some m ∧ (aggregateAll l).finalRet = statusBody m) := by
  induction l using List.reverseRecOn with
  | nil => left; simp [aggregateAll]
  | append_singleton l o ih =>
    have hl : ∀ o ∈ l, o.1 = 200 ∨ o.1 = 409 ∨ o.1 = 500 :=
      fun x hx => hS x (List.mem_append_left _ hx)
    have ho : o.1 = 200 ∨ o.1 = 409 ∨ o.1 = 500 := hS o (by simp)
    rw [aggregateAll_concat]
    rcases ho with ho | ho | ho
    · -- a success: only the count moves
      have hagg : aggregate (aggregateAll l) o.1 o.2 =
          { aggregateAll l with count := (aggregateAll l).count + 1 } := by
        simp [aggregate, ho]
      rw [hagg]
      rcases ih hl with ⟨h1, h2, h3, h4⟩ | ⟨h1, m, h2, h3⟩ | ⟨h1, m, h2, h3⟩
      · left
        refine ⟨h1, h2, by simp [h3], ?_⟩
        intro x hx
        rcases List.mem_append.mp hx with hx | hx
        · exact h4 x hx
        · simp at hx; rw [hx]; exact ho
      · right; left
        exact ⟨h1, m, by rw [lastMessage_concat_ne _ _ _ (by omega)]; exact h2, h3⟩
      · right; right
        exact ⟨h1, m, by rw [lastMessage_concat_ne _ _ _ (by omega)]; exact h2, h3⟩
    · -- a conflict
      by_cases hf : (aggregateAll l).finalStatus = 500
      · have hagg : aggregate (aggregateAll l) o.1 o.2 =
            { aggregateAll l with count := (aggregateAll l).count + 1 } := by
          simp [aggregate, ho, hf]
        rw [hagg]
        rcases ih hl with ⟨h1, _⟩ | ⟨h1, _⟩ | ⟨h1, m, h2, h3⟩
        · omega
        · omega
        · right; right
          exact ⟨h1, m, by rw [lastMessage_concat_ne _ _ _ (by omega)]; exact h2, h3⟩
      · have hagg : aggregate (aggregateAll l) o.1 o.2 =
            { aggregateAll l with finalStatus := 409, finalRet := statusBody o.2 } := by
          simp [aggregate, ho, hf]
        rw [hagg]
        right; left
        exact ⟨rfl, o.2, lastMessage_concat_eq _ _ _ ho, rfl⟩
    · -- a failure
      have hagg : aggregate (aggregateAll l) o.1 o.2 =
          { aggregateAll l with finalStatus := 500, finalRet := statusBody o.2 } := by
        simp [aggregate, ho]
      rw [hagg]
      right; right
      exact ⟨rfl, o.2, lastMessage_concat_eq _ _ _ ho, rfl⟩

end rest

/-! ## Runs and the pairs they skip -/

namespace rest

theorem outcomesOf_cons_error {σ : Type} (st : EventStore σ) (p : TracerEvent × String)
    (ps : List (TracerEvent × String)) (s : σ) (e : String)
    (hq : st.DBGetTracerIDByTracerString s p.2 = Except.error e) :
    outcomesOf st (p :: ps) s = outcomesOf st ps s := by
  simp [outcomesOf, hq]

theorem outcomesOf_cons_ok {σ : Type} (st : EventStore σ) (p : TracerEvent × String)
    (ps : List (TracerEvent × String)) (s : σ) (trcrID : Int)
    (hq : st.DBGetTracerIDByTracerString s p.2 = Except.ok trcrID) :
    outcomesOf st (p :: ps) s =
      (addEventHelper st trcrID p.1 s).1 :: outcomesOf st ps (addEventHelper st trcrID p.1 s).2 := by
  simp [outcomesOf, hq]

theorem stateAfter_cons_error {σ : Type} (st : EventStore σ) (p : TracerEvent × String)
    (ps : List (TracerEvent × String)) (s : σ) (e : String)
    (hq : st.DBGetTracerIDByTracerString s p.2 = Except.error e) :
    stateAfter st (p :: ps) s = stateAfter st ps s := by
  simp [stateAfter, hq]

theorem stateAfter_cons_ok {σ : Type} (st : EventStore σ) (p : TracerEvent × String)
    (ps : List (TracerEvent × String)) (s : σ) (trcrID : Int)
    (hq : st.DBGetTracerIDByTracerString s p.2 = Except.ok trcrID) :
    stateAfter st (p :: ps) s = stateAfter st ps (addEventHelper st trcrID p.1 s).2 := by
  simp [stateAfter, hq]

theorem resolvedPairs_cons_error {σ : Type} (st : EventStore σ) (p : TracerEvent × String)
    (ps : List (TracerEvent × String)) (s : σ) (e : String)
    (hq : st.DBGetTracerIDByTracerString s p.2 = Except.error e) :
    resolvedPairs st (p :: ps) s = resolvedPairs st ps s := by
  simp [resolvedPairs, hq]

theorem resolvedPairs_cons_ok {σ : Type} (st : EventStore σ) (p : TracerEvent × String)
    (ps : List (TracerEvent × String)) (s : σ) (trcrID : Int)
    (hq : st.DBGetTracerIDByTracerString s p.2 = Except.ok trcrID) :
    resolvedPairs st (p :: ps) s =
      p :: resolvedPairs st ps (addEventHelper st trcrID p.1 s).2 := by
  simp [resolvedPairs, hq]

theorem stateAfter_append {σ : Type} (st : EventStore σ) (ps qs : List (TracerEvent × String)) :
    ∀ s : σ, stateAfter st (ps ++ qs) s = stateAfter st qs (stateAfter st ps s) := by
  induction ps with
  | nil => intro s; rfl
  | cons p ps ih =>
    intro s
    rw [List.cons_append]
    cases hq : st.DBGetTracerIDByTracerString s p.2 with
    | error e =>
      rw [stateAfter_cons_error st p _ s e hq, stateAfter_cons_error st p _ s e hq]
      exact ih s
    | ok trcrID =>
      rw [stateAfter_cons_ok st p _ s trcrID hq, stateAfter_cons_ok st p _ s trcrID hq]
      exact ih _

theorem resolvedPairs_append {σ : Type} (st : EventStore σ)
    (ps qs : List (TracerEvent × String)) :
    ∀ s : σ, resolvedPairs st (ps ++ qs) s =
      resolvedPairs st ps s ++ resolvedPairs st qs (stateAfter st ps s) := by
  induction ps with
  | nil => intro s; rfl
  | cons p ps ih =>
    intro s
    rw [List.cons_append]
    cases hq : st.DBGetTracerIDByTracerString s p.2 with
    | error e =>
      rw [resolvedPairs_cons_error st p _ s e hq, resolvedPairs_cons_error st p _ s e hq,
        stateAfter_cons_error st p _ s e hq]
      exact ih s
    | ok trcrID =>
      rw [resolvedPairs_cons_ok st p _ s trcrID hq, resolvedPairs_cons_ok st p _ s trcrID hq,
        stateAfter_cons_ok st p _ s trcrID hq, ih, List.cons_append]

theorem keepResolved_pairs {σ : Type} (st : EventStore σ) (trcrEvnt : TracerEvent)
    (ts : List String) :
    ∀ s : σ,
      (keepResolved st trcrEvnt ts s).1.map (fun t => (trcrEvnt, t)) =
          resolvedPairs st (ts.map fun t => (trcrEvnt, t)) s
        ∧ (keepResolved st trcrEvnt ts s).2 =
          stateAfter st (ts.map fun t => (trcrEvnt, t)) s := by
  induction ts with
  | nil => intro s; exact ⟨rfl, rfl⟩
  | cons t ts ih =>
    intro s
    rw [List.map_cons]
    cases hq : st.DBGetTracerIDByTracerString s t with
    | error e =>
      have hk : keepResolved st trcrEvnt (t :: ts) s = keepResolved st trcrEvnt ts s := by
        simp [keepResolved, hq]
      rw [hk, resolvedPairs_cons_error st (trcrEvnt, t) _ s e hq,
        stateAfter_cons_error st (trcrEvnt, t) _ s e hq]
      exact ih s
    | ok trcrID =>
      have hk : keepResolved st trcrEvnt (t :: ts) s =
          (t :: (keepResolved st trcrEvnt ts (addEventHelper st trcrID trcrEvnt s).2).1,
            (keepResolved st trcrEvnt ts (addEventHelper st trcrID trcrEvnt s).2).2) := by
        simp [keepResolved, hq]
      rw [hk, resolvedPairs_cons_ok st (trcrEvnt, t) _ s trcrID hq,
        stateAfter_cons_ok st (trcrEvnt, t) _ s trcrID hq]
      simp only [List.map_cons]
      exact ⟨by rw [(ih _).1], (ih _).2⟩

theorem pairs_dropSkipped {σ : Type} (st : EventStore σ)
    (trcrEvntsBulk : List TracerEventBulk) :
    ∀ s : σ, pairs (dropSkipped st trcrEvntsBulk s) = resolvedPairs st (pairs trcrEvntsBulk) s := by
  induction trcrEvntsBulk with
  | nil => intro s; rfl
  | cons item rest ih =>
    intro s
    have hk := keepResolved_pairs st item.TracerEvent item.TracerStrings s
    have hl : pairs (dropSkipped st (item :: rest) s) =
        (keepResolved st item.TracerEvent item.TracerStrings s).1.map
            (fun t => (item.TracerEvent, t)) ++
          pairs (dropSkipped st rest
            (keepResolved st item.TracerEvent item.TracerStrings s).2) := by
      simp [dropSkipped, pairs]
    have hr : pairs (item :: rest) =
        (item.TracerStrings.map fun t => (item.TracerEvent, t)) ++ pairs rest := by
      simp [pairs]
    rw [hl, hr, resolvedPairs_append, ih, hk.1, hk.2]

theorem run_resolvedPairs {σ : Type} (st : EventStore σ) (ps : List (TracerEvent × String)) :
    ∀ s : σ,
      outcomesOf st (resolvedPairs st ps s) s = outcomesOf st ps s
        ∧ stateAfter st (resolvedPairs st ps s) s = stateAfter st ps s
        ∧ (outcomesOf st ps s).length = (resolvedPairs st ps s).length := by
  induction ps with
  | nil => intro s; exact ⟨rfl, rfl, rfl⟩
  | cons p ps ih =>
    intro s
    cases hq : st.DBGetTracerIDByTracerString s p.2 with
    | error e =>
      rw [resolvedPairs_cons_error st p ps s e hq, outcomesOf_cons_error st p ps s e hq,
        stateAfter_cons_error st p ps s e hq]
      exact ih s
    | ok trcrID =>
      have h := ih (addEventHelper st trcrID p.1 s).2
      rw [resolvedPairs_cons_ok st p ps s trcrID hq, outcomesOf_cons_ok st p _ s trcrID hq,
        outcomesOf_cons_ok st p _ s trcrID hq, stateAfter_cons_ok st p _ s trcrID hq,
        stateAfter_cons_ok st p _ s trcrID hq, h.1, h.2.1]
      exact ⟨rfl, rfl, by simp [h.2.2]⟩

theorem addEventHelper_lookup_stable {σ : Type} (st : EventStore σ)
    (hstable : ∀ trcrID trcrEvnt s t,
      st.DBGetTracerIDByTracerString (st.AddEvent trcrID trcrEvnt s).2 t =
        st.DBGetTracerIDByTracerString s t)
    (trcrID : Int) (trcrEvnt : TracerEvent) (s : σ) (t : String) :
    st.DBGetTracerIDByTracerString (addEventHelper st trcrID trcrEvnt s).2 t =
      st.DBGetTracerIDByTracerString s t := by
  have hs := hstable trcrID trcrEvnt s t
  unfold addEventHelper
  by_cases hd : trcrEvnt.Data.String = ""
  · simp [hd]
  by_cases hl : trcrEvnt.Location.String = ""
  · simp [hd, hl]
  by_cases he : trcrEvnt.EventType.String = ""
  · simp [hd, hl, he]
  simp only [hd, hl, he, if_false]
  rcases hw : st.AddEvent trcrID trcrEvnt s with ⟨r, s'⟩
  rw [hw] at hs
  cases r with
  | error err => cases hc : strings.Contains err "UNIQUE" <;> simpa [hc] using hs
  | ok evntStr => simpa using hs

theorem keepResolved_stable {σ : Type} (st : EventStore σ)
    (hstable : ∀ trcrID trcrEvnt s t,
      st.DBGetTracerIDByTracerString (st.AddEvent trcrID trcrEvnt s).2 t =
        st.DBGetTracerIDByTracerString s t)
    (s₀ : σ) (trcrEvnt : TracerEvent) (ts : List String) :
    ∀ s : σ, (∀ t, st.DBGetTracerIDByTracerString s t = st.DBGetTracerIDByTracerString s₀ t) →
      (keepResolved st trcrEvnt ts s).1 = ts.filter (resolvable st s₀)
        ∧ ∀ t, st.DBGetTracerIDByTracerString (keepResolved st trcrEvnt ts s).2 t =
            st.DBGetTracerIDByTracerString s₀ t := by
  induction ts with
  | nil => intro s hs; exact ⟨rfl, hs⟩
  | cons t ts ih =>
    intro s hs
    cases hq : st.DBGetTracerIDByTracerString s t with
    | error e =>
      have hr : resolvable st s₀ t = false := by
        unfold resolvable; rw [← hs, hq]
      have hk : keepResolved st trcrEvnt (t :: ts) s = keepResolved st trcrEvnt ts s := by
        simp [keepResolved, hq]
      rw [hk]
      simp only [List.filter_cons, hr, Bool.false_eq_true, if_false]
      exact ih s hs
    | ok trcrID =>
      have hr : resolvable st s₀ t = true := by
        unfold resolvable; rw [← hs, hq]
      have hs' : ∀ t', st.DBGetTracerIDByTracerString (addEventHelper st trcrID trcrEvnt s).2 t' =
          st.DBGetTracerIDByTracerString s₀ t' := by
        intro t'
        rw [addEventHelper_lookup_stable st hstable, hs]
      have hk : keepResolved st trcrEvnt (t :: ts) s =
          (t :: (keepResolved st trcrEvnt ts (addEventHelper st trcrID trcrEvnt s).2).1,
            (keepResolved st trcrEvnt ts (addEventHelper st trcrID trcrEvnt s).2).2) := by
        simp [keepResolved, hq]
      rw [hk]
      simp only [List.filter_cons, hr, if_true]
      exact ⟨by rw [(ih _ hs').1], (ih _ hs').2⟩

theorem dropSkipped_stable {σ : Type} (st : EventStore σ)
    (hstable : ∀ trcrID trcrEvnt s t,
      st.DBGetTracerIDByTracerString (st.AddEvent trcrID trcrEvnt s).2 t =
        st.DBGetTracerIDByTracerString s t)
    (s₀ : σ) (trcrEvntsBulk : List TracerEventBulk) :
    ∀ s : σ, (∀ t, st.DBGetTracerIDByTracerString s t = st.DBGetTracerIDByTracerString s₀ t) →
      dropSkipped st trcrEvntsBulk s = dropUnresolvable st s₀ trcrEvntsBulk := by
  induction trcrEvntsBulk with
  | nil => intro s _; rfl
  | cons item rest ih =>
    intro s hs
    have hk := keepResolved_stable st hstable s₀ item.TracerEvent item.TracerStrings s hs
    have hrest := ih _ hk.2
    unfold dropUnresolvable at hrest ⊢
    simp only [dropSkipped, List.map_cons, hk.1, hrest]

end rest

/-! ## Properties of `AddEvents` -/

namespace rest

theorem AddEvents_status {σ : Type} (st : EventStore σ) (trcrEvntsBulk : List TracerEventBulk)
    (s : σ) :
    (AddEvents st trcrEvntsBulk s).1.1 =
      specFinalStatus ((pairOutcomes st trcrEvntsBulk s).map Prod.fst) := by
  rw [AddEvents_eq_fold]
  exact aggregateAll_finalStatus _

theorem pairOutcomes_status {σ : Type} (st : EventStore σ)
    (trcrEvntsBulk : List TracerEventBulk) (s : σ) :
    ∀ o ∈ pairOutcomes st trcrEvntsBulk s, o.1 = 200 ∨ o.1 = 409 ∨ o.1 = 500 :=
  outcomesOf_status st (pairs trcrEvntsBulk) s

theorem statusRank_le_specFinalStatus (l : List Nat) :
    ∀ x ∈ l, statusRank x ≤ statusRank (specFinalStatus l) := by
  intro x hx
  rw [specFinalStatus_eq]
  unfold statusRank
  by_cases h5 : (500 : Nat) ∈ l
  · simp only [h5, if_true]
    split_ifs <;> omega
  · by_cases h4 : (409 : Nat) ∈ l
    · have hx5 : x ≠ 500 := fun h => h5 (h ▸ hx)
      simp [h5, h4, hx5]
      split_ifs <;> omega
    · have hx5 : x ≠ 500 := fun h => h5 (h ▸ hx)
      have hx4 : x ≠ 409 := fun h => h4 (h ▸ hx)
      simp [h5, h4, hx5, hx4]

theorem addEventHelper_stateless {σ : Type} (st : EventStore σ)
    (hwrite : ∀ trcrID trcrEvnt s₁ s₂, (st.AddEvent trcrID trcrEvnt s₁).1 = (st.AddEvent trcrID trcrEvnt s₂).1)
    (trcrID : Int) (trcrEvnt : TracerEvent) (s₁ s₂ : σ) :
    (addEventHelper st trcrID trcrEvnt s₁).1 = (addEventHelper st trcrID trcrEvnt s₂).1 := by
  have h := hwrite trcrID trcrEvnt s₁ s₂
  unfold addEventHelper
  by_cases hd : trcrEvnt.Data.String = ""
  · simp [hd]
  by_cases hl : trcrEvnt.Location.String = ""
  · simp [hd, hl]
  by_cases he : trcrEvnt.EventType.String = ""
  · simp [hd, hl, he]
  simp only [hd, hl, he, if_false]
  rcases h1 : st.AddEvent trcrID trcrEvnt s₁ with ⟨r1, t1⟩
  rcases h2 : st.AddEvent trcrID trcrEvnt s₂ with ⟨r2, t2⟩
  rw [h1, h2] at h
  simp only at h
  subst h
  cases r1 with
  | error err => cases hc : strings.Contains err "UNIQUE" <;> simp [hc]
  | ok evntStr => simp

theorem outcomesOf_stateless {σ : Type} (st : EventStore σ)
    (hlookup : ∀ s₁ s₂ t, st.DBGetTracerIDByTracerString s₁ t = st.DBGetTracerIDByTracerString s₂ t)
    (hwrite : ∀ trcrID trcrEvnt s₁ s₂, (st.AddEvent trcrID trcrEvnt s₁).1 = (st.AddEvent trcrID trcrEvnt s₂).1)
    (s₀ : σ) (ps : List (TracerEvent × String)) :
    ∀ s : σ, (outcomesOf st ps s).map Prod.fst = ps.filterMap (pairStatus st s₀) := by
  induction ps with
  | nil => intro s; rfl
  | cons p ps ih =>
    intro s
    cases hq : st.DBGetTracerIDByTracerString s p.2 with
    | error e =>
      have hq0 : st.DBGetTracerIDByTracerString s₀ p.2 = Except.error e := by
        rw [hlookup s₀ s]; exact hq
      rw [outcomesOf_cons_error st p ps s e hq, ih s]
      simp [List.filterMap_cons, pairStatus, hq0]
    | ok trcrID =>
      have hq0 : st.DBGetTracerIDByTracerString s₀ p.2 = Except.ok trcrID := by
        rw [hlookup s₀ s]; exact hq
      rw [outcomesOf_cons_ok st p ps s trcrID hq]
      simp only [List.map_cons, ih]
      simp [List.filterMap_cons, pairStatus, hq0, addEventHelper_stateless st hwrite trcrID p.1 s s₀]

theorem specFinalStatus_perm (l₁ l₂ : List Nat) (h : l₁.Perm l₂) :
    specFinalStatus l₁ = specFinalStatus l₂ := by
  rw [specFinalStatus_eq, specFinalStatus_eq]
  simp only [h.mem_iff]

/-- C4, as stated, fails: with a store whose answers depend on the rows written
before, the batch with the pairs `("a")`, `("b")` ends with status 200 and the
batch with the same pairs in the other order ends with status 500. -/
theorem AddEvents_status_depends_on_pair_order :
    (pairs [⟨demoEvent, ["b", "a"]⟩]).Perm (pairs [⟨demoEvent, ["a", "b"]⟩])
      ∧ (pairOutcomes orderStore [⟨demoEvent, ["a", "b"]⟩] []).map Prod.fst = [200, 200]
      ∧ (AddEvents orderStore [⟨demoEvent, ["a", "b"]⟩] []).1.1 = 200
      ∧ (pairOutcomes orderStore [⟨demoEvent, ["b", "a"]⟩] []).map Prod.fst = [500, 200]
      ∧ (AddEvents orderStore [⟨demoEvent, ["b", "a"]⟩] []).1.1 = 500 := by
  refine ⟨by decide, by decide, by decide, by decide, by decide⟩

/-- C4, amended: the final status of `AddEvents` is the maximum, under the
ranking failure (500) above conflict (409) above success (200), of the
statuses of the pairs whose tracer string resolved: it is the fold of the
ranked maximum over them starting from success, it is 500 if any pair failed,
otherwise 409 if any pair conflicted, otherwise 200 (so 200 for the empty
batch), it is one of the statuses (or the initial 200) and no status outranks
it.  The fold does not depend on the order of the per-pair statuses: a run of
`AddEvents` on another batch, from any state, whose per-pair statuses are
those of this run in another order ends with the same final status, and when
neither the lookups nor the answers of the writes depend on the state of the
store this is so for every reordering of the pairs. -/
theorem AddEvents_finalStatus_is_ranked_maximum {σ : Type} (st : EventStore σ)
    (trcrEvntsBulk : List TracerEventBulk) (s : σ)
    (reordered : List TracerEventBulk) (s' : σ)
    (hperm : ((pairOutcomes st reordered s').map Prod.fst).Perm
      ((pairOutcomes st trcrEvntsBulk s).map Prod.fst)) :
    (AddEvents st trcrEvntsBulk s).1.1 =
        specFinalStatus ((pairOutcomes st trcrEvntsBulk s).map Prod.fst)
      ∧ (AddEvents st trcrEvntsBulk s).1.1 =
        (if 500 ∈ (pairOutcomes st trcrEvntsBulk s).map Prod.fst then 500
         else if 409 ∈ (pairOutcomes st trcrEvntsBulk s).map Prod.fst then 409
         else 200)
      ∧ (AddEvents st trcrEvntsBulk s).1.1 ∈
        200 :: (pairOutcomes st trcrEvntsBulk s).map Prod.fst
      ∧ (∀ x ∈ (pairOutcomes st trcrEvntsBulk s).map Prod.fst,
          statusRank x ≤ statusRank (AddEvents st trcrEvntsBulk s).1.1)
      ∧ (AddEvents st [] s).1.1 = 200
      ∧ (AddEvents st reordered s').1.1 = (AddEvents st trcrEvntsBulk s).1.1
      ∧ (∀ statuses : List Nat, statuses.Perm ((pairOutcomes st trcrEvntsBulk s).map Prod.fst) →
          specFinalStatus statuses = (AddEvents st trcrEvntsBulk s).1.1)
      ∧ ((∀ s₁ s₂ t, st.DBGetTracerIDByTracerString s₁ t = st.DBGetTracerIDByTracerString s₂ t) →
          (∀ trcrID trcrEvnt s₁ s₂,
            (st.AddEvent trcrID trcrEvnt s₁).1 = (st.AddEvent trcrID trcrEvnt s₂).1) →
          ∀ (other : List TracerEventBulk) (t : σ), (pairs other).Perm (pairs trcrEvntsBulk) →
            (AddEvents st other t).1.1 = (AddEvents st trcrEvntsBulk s).1.1) := by
  have hst := AddEvents_status st trcrEvntsBulk s
  refine ⟨hst, ?_, ?_, ?_, rfl, ?_, ?_, ?_⟩
  · rw [hst, specFinalStatus_eq]
  · rw [hst, specFinalStatus_eq]
    by_cases h5 : (500 : Nat) ∈ (pairOutcomes st trcrEvntsBulk s).map Prod.fst
    · rw [if_pos h5]; exact List.mem_cons_of_mem _ h5
    · rw [if_neg h5]
      by_cases h4 : (409 : Nat) ∈ (pairOutcomes st trcrEvntsBulk s).map Prod.fst
      · rw [if_pos h4]; exact List.mem_cons_of_mem _ h4
      · rw [if_neg h4]; exact List.mem_cons_self _ _
  · rw [hst]
    exact statusRank_le_specFinalStatus _
  · rw [hst, AddEvents_status st reordered s']
    exact specFinalStatus_perm _ _ hperm
  · intro statuses hp
    rw [hst]
    exact specFinalStatus_perm _ _ hp
  · intro hlookup hwrite other t hp
    rw [hst, AddEvents_status st other t]
    apply specFinalStatus_perm
    unfold pairOutcomes
    rw [outcomesOf_stateless st hlookup hwrite s (pairs other) t,
      outcomesOf_stateless st hlookup hwrite s (pairs trcrEvntsBulk) s]
    exact hp.filterMap _

theorem AddEvents_finalStatus_is_ranked_maximum_witness :
    ((pairOutcomes demoStore demoBatchReordered []).map Prod.fst).Perm
        ((pairOutcomes demoStore demoBatch []).map Prod.fst)
      ∧ (pairOutcomes demoStore demoBatch []).map Prod.fst = [500, 200, 409]
      ∧ (pairOutcomes demoStore demoBatchReordered []).map Prod.fst = [200, 409, 500]
      ∧ (AddEvents demoStore demoBatch []).1.1 = 500
      ∧ (AddEvents demoStore demoBatchReordered []).1.1 = (AddEvents demoStore demoBatch []).1.1
      ∧ (AddEvents pureStore [⟨demoEvent, ["b", "a"]⟩] ()).1.1 =
          (AddEvents pureStore [⟨demoEvent, ["a", "b"]⟩] ()).1.1
      ∧ (AddEvents pureStore [⟨demoEvent, ["a", "b"]⟩] ()).1.1 = 409 :=
  ⟨by decide, by decide, by decide,
    (AddEvents_finalStatus_is_ranked_maximum demoStore demoBatch [] demoBatchReordered []
      (by decide)).2.1,
    (AddEvents_finalStatus_is_ranked_maximum demoStore demoBatch [] demoBatchReordered []
      (by decide)).2.2.2.2.2.1,
    (AddEvents_finalStatus_is_ranked_maximum pureStore [⟨demoEvent, ["a", "b"]⟩] ()
      [⟨demoEvent, ["a", "b"]⟩] () (List.Perm.refl _)).2.2.2.2.2.2.2
      (fun _ _ _ => rfl) (fun _ _ _ _ => rfl) [⟨demoEvent, ["b", "a"]⟩] () (by decide),
    (AddEvents_finalStatus_is_ranked_maximum pureStore [⟨demoEvent, ["a", "b"]⟩] ()
      [⟨demoEvent, ["a", "b"]⟩] () (List.Perm.refl _)).2.1⟩

/-- C5, as stated, fails: with one conflict and no failure among the resolved
pairs the status is 409 but the body is the conflict message, not the count of
the successful pairs. -/
theorem AddEvents_conflict_body_is_not_the_count :
    (pairOutcomes demoStore demoConflictBatch []).map Prod.fst = [200, 409]
      ∧ (AddEvents demoStore demoConflictBatch []).1 =
          (409, "\x7b\"Status\": \"UNIQUE constraint failed: tracer_events.event_data\":\x7d")
      ∧ (AddEvents demoStore demoConflictBatch []).1.2 ≠ successBody 1 := by
  decide

/-- C5, amended: when exactly one resolved pair conflicts and none fails, the
status is 409 and the body is the status message built from the message of
that conflict. -/
theorem AddEvents_single_conflict {σ : Type} (st : EventStore σ)
    (trcrEvntsBulk : List TracerEventBulk) (s : σ)
    (hone : ((pairOutcomes st trcrEvntsBulk s).filter fun o => o.1 = 409).length = 1)
    (hnone : ∀ o ∈ pairOutcomes st trcrEvntsBulk s, o.1 ≠ 500) :
    ∃ m, ((pairOutcomes st trcrEvntsBulk s).filter fun o => o.1 = 409) = [(409, m)]
      ∧ (AddEvents st trcrEvntsBulk s).1 = (409, statusBody m) := by
  obtain ⟨x, hx⟩ := List.length_eq_one.mp hone
  have hxmem : x ∈ (pairOutcomes st trcrEvntsBulk s).filter fun o => o.1 = 409 := by
    rw [hx]; simp
  have hx1 : x.1 = 409 := by simpa using (List.mem_filter.mp hxmem).2
  have hxin : x ∈ pairOutcomes st trcrEvntsBulk s := (List.mem_filter.mp hxmem).1
  have hlast : lastMessage 409 (pairOutcomes st trcrEvntsBulk s) = some x.2 := by
    unfold lastMessage
    rw [hx]; rfl
  have h5 : (500 : Nat) ∉ (pairOutcomes st trcrEvntsBulk s).map Prod.fst := by
    intro h
    obtain ⟨o, ho, ho5⟩ := List.mem_map.mp h
    exact hnone o ho ho5
  have h4 : (409 : Nat) ∈ (pairOutcomes st trcrEvntsBulk s).map Prod.fst :=
    List.mem_map.mpr ⟨x, hxin, hx1⟩
  have hfs : (aggregateAll (pairOutcomes st trcrEvntsBulk s)).finalStatus = 409 := by
    rw [aggregateAll_finalStatus, specFinalStatus_eq, if_neg h5, if_pos h4]
  refine ⟨x.2, ?_, ?_⟩
  · rw [hx]
    cases x with
    | mk a b => simp at hx1; rw [hx1]
  · rw [AddEvents_eq_fold]
    rcases aggregateAll_cases _ (pairOutcomes_status st trcrEvntsBulk s) with
      ⟨h1, _⟩ | ⟨_, m, h2, h3⟩ | ⟨h1, _⟩
    · omega
    · rw [hlast] at h2
      cases h2
      rw [hfs, h3, if_neg (statusBody_length_ne_zero _)]
    · omega

theorem AddEvents_single_conflict_witness :
    ((pairOutcomes demoStore demoConflictBatch []).filter fun o => o.1 = 409).length = 1
      ∧ (∀ o ∈ pairOutcomes demoStore demoConflictBatch [], o.1 ≠ 500)
      ∧ ∃ m, ((pairOutcomes demoStore demoConflictBatch []).filter fun o => o.1 = 409)
            = [(409, m)]
          ∧ (AddEvents demoStore demoConflictBatch []).1 = (409, statusBody m) :=
  ⟨by decide, by decide,
    AddEvents_single_conflict demoStore demoConflictBatch [] (by decide) (by decide)⟩

/-- C6: when the final status is 200 the body is the success message whose
count is the number of pairs that resolved and succeeded; every resolved pair
is then one of them, so the count is the number of pairs whose lookup
succeeded, pairs whose lookup failed are not counted, and the empty batch
gives the count 0. -/
theorem AddEvents_success_body {σ : Type} (st : EventStore σ)
    (trcrEvntsBulk : List TracerEventBulk) (s : σ)
    (h : (AddEvents st trcrEvntsBulk s).1.1 = 200) :
    (AddEvents st trcrEvntsBulk s).1.2 =
        successBody ((pairOutcomes st trcrEvntsBulk s).filter fun o => o.1 = 200).length
      ∧ ((pairOutcomes st trcrEvntsBulk s).filter fun o => o.1 = 200)
          = pairOutcomes st trcrEvntsBulk s
      ∧ (AddEvents st trcrEvntsBulk s).1.2 =
          successBody (resolvedPairs st (pairs trcrEvntsBulk) s).length
      ∧ (AddEvents st [] s).1 = (200, successBody 0) := by
  rw [AddEvents_eq_fold] at h
  simp only at h
  rcases aggregateAll_cases _ (pairOutcomes_status st trcrEvntsBulk s) with
    ⟨h1, h2, h3, h4⟩ | ⟨h1, _⟩ | ⟨h1, _⟩
  · have hall : ((pairOutcomes st trcrEvntsBulk s).filter fun o => o.1 = 200)
        = pairOutcomes st trcrEvntsBulk s := by
      apply List.filter_eq_self.mpr
      intro o ho
      simpa using h4 o ho
    have hbody : (AddEvents st trcrEvntsBulk s).1.2 =
        successBody (pairOutcomes st trcrEvntsBulk s).length := by
      rw [AddEvents_eq_fold]
      simp only [h2, h3]
      rfl
    refine ⟨by rw [hall]; exact hbody, hall, ?_, rfl⟩
    rw [hbody]
    unfold pairOutcomes
    rw [(run_resolvedPairs st (pairs trcrEvntsBulk) s).2.2]
  · omega
  · omega

theorem AddEvents_success_body_witness :
    (AddEvents demoStore demoCleanBatch []).1.1 = 200
      ∧ (pairs demoCleanBatch).length = 3
      ∧ (AddEvents demoStore demoCleanBatch []).1.2 = successBody 2 :=
  ⟨by decide, by decide,
    (AddEvents_success_body demoStore demoCleanBatch [] (by decide)).1⟩

/-- C7, as stated, fails: a failure followed by a conflict gives status 500
and the body of the failure, while the last offending pair in batch order is
the conflict. -/
theorem AddEvents_body_is_not_last_offending :
    pairOutcomes demoStore demoFailureThenConflictBatch [] =
        [(500, "disk I/O error"), (200, "event:<img>"),
          (409, "UNIQUE constraint failed: tracer_events.event_data")]
      ∧ lastOffendingMessage (pairOutcomes demoStore demoFailureThenConflictBatch []) =
          some "UNIQUE constraint failed: tracer_events.event_data"
      ∧ (AddEvents demoStore demoFailureThenConflictBatch []).1 =
          (500, statusBody "disk I/O error")
      ∧ (AddEvents demoStore demoFailureThenConflictBatch []).1.2 ≠
          statusBody "UNIQUE constraint failed: tracer_events.event_data" := by
  decide

/-- C7, amended: when the final status is 500 or 409 the body is the status
message built from the message of the last pair, in batch order, whose
single-event status equals the final status; when the final status is 409
that pair is also the last offending pair. -/
theorem AddEvents_error_body {σ : Type} (st : EventStore σ)
    (trcrEvntsBulk : List TracerEventBulk) (s : σ)
    (h : (AddEvents st trcrEvntsBulk s).1.1 = 500 ∨ (AddEvents st trcrEvntsBulk s).1.1 = 409) :
    ∃ m, lastMessage (AddEvents st trcrEvntsBulk s).1.1 (pairOutcomes st trcrEvntsBulk s)
          = some m
      ∧ (AddEvents st trcrEvntsBulk s).1.2 = statusBody m
      ∧ ((AddEvents st trcrEvntsBulk s).1.1 = 409 →
          lastOffendingMessage (pairOutcomes st trcrEvntsBulk s) = some m) := by
  have hst := AddEvents_status st trcrEvntsBulk s
  rw [AddEvents_eq_fold] at h ⊢
  simp only at h ⊢
  rcases aggregateAll_cases _ (pairOutcomes_status st trcrEvntsBulk s) with
    ⟨h1, _⟩ | ⟨h1, m, h2, h3⟩ | ⟨h1, m, h2, h3⟩
  · omega
  · refine ⟨m, ?_, ?_, ?_⟩
    · rw [h1]; exact h2
    · rw [h3, if_neg (statusBody_length_ne_zero _)]
    · intro _
      have h5 : (500 : Nat) ∉ (pairOutcomes st trcrEvntsBulk s).map Prod.fst := by
        intro hmem
        rw [AddEvents_eq_fold, specFinalStatus_eq, if_pos hmem] at hst
        simp only at hst
        omega
      have hfilter : ((pairOutcomes st trcrEvntsBulk s).filter fun o => o.1 = 500 ∨ o.1 = 409)
          = (pairOutcomes st trcrEvntsBulk s).filter fun o => o.1 = 409 := by
        apply List.filter_congr
        intro o ho
        have : o.1 ≠ 500 := fun e => h5 (List.mem_map.mpr ⟨o, ho, e⟩)
        simp [this]
      unfold lastOffendingMessage
      rw [hfilter]
      exact h2
  · refine ⟨m, ?_, ?_, ?_⟩
    · rw [h1]; exact h2
    · rw [h3, if_neg (statusBody_length_ne_zero _)]
    · intro h4
      omega

theorem AddEvents_error_body_witness :
    ((AddEvents demoStore demoFailureThenConflictBatch []).1.1 = 500 ∨
        (AddEvents demoStore demoFailureThenConflictBatch []).1.1 = 409)
      ∧ ∃ m, lastMessage (AddEvents demoStore demoFailureThenConflictBatch []).1.1
            (pairOutcomes demoStore demoFailureThenConflictBatch []) = some m
          ∧ (AddEvents demoStore demoFailureThenConflictBatch []).1.2 = statusBody m
          ∧ ((AddEvents demoStore demoFailureThenConflictBatch []).1.1 = 409 →
              lastOffendingMessage (pairOutcomes demoStore demoFailureThenConflictBatch [])
                = some m) :=
  ⟨Or.inl (by decide),
    AddEvents_error_body demoStore demoFailureThenConflictBatch [] (Or.inl (by decide))⟩

end rest

/-! ## Skipped pairs -/

namespace rest

/-- The pairs of one batch item: a failed lookup leaves the accumulators and the
state as they were and the loop goes on with the next tracer string. -/
theorem foldl_bulkPair_skip {σ : Type} (st : EventStore σ) (trcrEvnt : TracerEvent)
    (acc : BulkState × σ) (t : String) (ts : List String)
    (h : resolvable st acc.2 t = false) :
    (t :: ts).foldl (bulkPair st trcrEvnt) acc = ts.foldl (bulkPair st trcrEvnt) acc := by
  have hb : bulkPair st trcrEvnt acc t = acc := by
    unfold resolvable at h
    unfold bulkPair
    cases hq : st.DBGetTracerIDByTracerString acc.2 t with
    | error e => rfl
    | ok trcrID => rw [hq] at h; simp at h
  rw [List.foldl_cons, hb]

/-- C8: a pair whose tracer-string lookup fails is skipped and the batch goes
on.  In the inner loop a tracer string that does not resolve leaves the
accumulators and the database state as they were and the loop continues with
the strings after it; a tracer string that resolves is processed: its event is
handed to `addEventHelper` in the state reached, the status is aggregated and
the state is the one after the write.  So the status, the body and the final
state of `AddEvents` are those of the fold over the results of all the pairs
that resolved, one result for each, wherever the unresolved pairs stand, and
they equal those of `AddEvents` on the batch from which the tracer strings
whose lookup failed have been removed.  When event writes do not change what a
tracer string resolves to, the strings removed are exactly those that do not
resolve in the state in which the batch arrives. -/
theorem AddEvents_skips_unresolvable {σ : Type} (st : EventStore σ)
    (trcrEvntsBulk : List TracerEventBulk) (s : σ) :
    (∀ (trcrEvnt : TracerEvent) (acc : BulkState × σ) (t : String) (ts : List String),
        resolvable st acc.2 t = false →
          (t :: ts).foldl (bulkPair st trcrEvnt) acc = ts.foldl (bulkPair st trcrEvnt) acc)
      ∧ (∀ (trcrEvnt : TracerEvent) (acc : BulkState × σ) (t : String) (ts : List String)
          (trcrID : Int), st.DBGetTracerIDByTracerString acc.2 t = Except.ok trcrID →
          (t :: ts).foldl (bulkPair st trcrEvnt) acc =
            ts.foldl (bulkPair st trcrEvnt)
              (aggregate acc.1 (addEventHelper st trcrID trcrEvnt acc.2).1.1
                  (addEventHelper st trcrID trcrEvnt acc.2).1.2,
                (addEventHelper st trcrID trcrEvnt acc.2).2))
      ∧ AddEvents st trcrEvntsBulk s =
          (((aggregateAll (pairOutcomes st trcrEvntsBulk s)).finalStatus,
            if (aggregateAll (pairOutcomes st trcrEvntsBulk s)).finalRet.length = 0
            then successBody (aggregateAll (pairOutcomes st trcrEvntsBulk s)).count
            else (aggregateAll (pairOutcomes st trcrEvntsBulk s)).finalRet),
            stateAfter st (pairs trcrEvntsBulk) s)
      ∧ (pairOutcomes st trcrEvntsBulk s).length =
          (resolvedPairs st (pairs trcrEvntsBulk) s).length
      ∧ AddEvents st (dropSkipped st trcrEvntsBulk s) s = AddEvents st trcrEvntsBulk s
      ∧ pairOutcomes st (dropSkipped st trcrEvntsBulk s) s = pairOutcomes st trcrEvntsBulk s
      ∧ (pairOutcomes st trcrEvntsBulk s).length = (pairs (dropSkipped st trcrEvntsBulk s)).length
      ∧ ((∀ trcrID trcrEvnt s t,
            st.DBGetTracerIDByTracerString (st.AddEvent trcrID trcrEvnt s).2 t =
              st.DBGetTracerIDByTracerString s t) →
          dropSkipped st trcrEvntsBulk s = dropUnresolvable st s trcrEvntsBulk
            ∧ AddEvents st (dropUnresolvable st s trcrEvntsBulk) s =
                AddEvents st trcrEvntsBulk s) := by
  have h := run_resolvedPairs st (pairs trcrEvntsBulk) s
  have ho : pairOutcomes st (dropSkipped st trcrEvntsBulk s) s =
      pairOutcomes st trcrEvntsBulk s := by
    unfold pairOutcomes
    rw [pairs_dropSkipped, h.1]
  have hA : AddEvents st (dropSkipped st trcrEvntsBulk s) s = AddEvents st trcrEvntsBulk s := by
    rw [AddEvents_eq_fold, AddEvents_eq_fold, ho, pairs_dropSkipped, h.2.1]
  refine ⟨fun trcrEvnt acc t ts hr => foldl_bulkPair_skip st trcrEvnt acc t ts hr, ?_,
    AddEvents_eq_fold st trcrEvntsBulk s, h.2.2, hA, ho, ?_, ?_⟩
  · intro trcrEvnt acc t ts trcrID hq
    rw [List.foldl_cons]
    congr 1
    simp [bulkPair, hq]
  · rw [pairs_dropSkipped]; exact h.2.2
  · intro hstable
    have hd := dropSkipped_stable st hstable s trcrEvntsBulk s (fun _ => rfl)
    exact ⟨hd, by rw [← hd]; exact hA⟩

theorem AddEvents_skips_unresolvable_witness :
    AddEvents demoStore [⟨demoEvent, ["zzz", "a", "nope", "a"]⟩] [] =
        ((409, "\x7b\"Status\": \"UNIQUE constraint failed: tracer_events.event_data\":\x7d"),
          [(1, demoEvent)])
      ∧ pairOutcomes demoStore [⟨demoEvent, ["zzz", "a", "nope", "a"]⟩] [] =
          [(200, "event:<img>"), (409, "UNIQUE constraint failed: tracer_events.event_data")]
      ∧ AddEvents demoStore demoCleanBatch [] =
          ((200, "\x7b\"Status\":\"Success\", \"Count\":\"2\"\x7d"),
            [(2, demoEvent), (1, demoEvent)])
      ∧ dropSkipped demoStore demoBatch [] = [⟨demoEmptyEvent, ["a"]⟩, ⟨demoEvent, ["a", "a"]⟩]
      ∧ AddEvents demoStore [⟨demoEmptyEvent, ["a"]⟩, ⟨demoEvent, ["a", "a"]⟩] [] =
          AddEvents demoStore demoBatch []
      ∧ (pairOutcomes demoStore demoBatch []).length = 3
      ∧ dropUnresolvable demoStore [] demoBatch =
          [⟨demoEmptyEvent, ["a"]⟩, ⟨demoEvent, ["a", "a"]⟩] :=
  ⟨(AddEvents_skips_unresolvable demoStore [⟨demoEvent, ["zzz", "a", "nope", "a"]⟩] []).2.2.1.trans
      (by decide),
    by decide,
    (AddEvents_skips_unresolvable demoStore demoCleanBatch []).2.2.1.trans (by decide),
    by decide,
    (AddEvents_skips_unresolvable demoStore demoBatch []).2.2.2.2.1,
    (AddEvents_skips_unresolvable demoStore demoBatch []).2.2.2.2.2.2.1.trans (by decide),
    ((AddEvents_skips_unresolvable demoStore demoBatch []).2.2.2.2.2.2.2
      (fun _ _ _ _ => rfl)).1.symm.trans (by decide)⟩

end rest

/-! ## Properties of `AddTracer` -/

namespace common

theorem AddTracer_within_limit {σ : Type} (MaxRequestSize : Int)
    (Create : Request → σ → (Request × Option String) × σ)
    (Marshal : Request → Except String String) (request : Request) (s : σ)
    (h : (request.RawRequest.length : Int) ≤ MaxRequestSize) :
    ∃ r, AddTracer MaxRequestSize Create Marshal request s = Except.ok r
      ∧ r.stored = some request := by
  unfold AddTracer
  have hn : ¬ ((request.RawRequest.length : Int) > MaxRequestSize) := by omega
  simp only [hn, if_false]
  rcases hc : Create request s with ⟨⟨created, err⟩, s'⟩
  cases err with
  | some e => exact ⟨_, rfl, rfl⟩
  | none =>
    dsimp only
    cases hm : Marshal created with
    | error e => exact ⟨_, rfl, rfl⟩
    | ok ret => exact ⟨_, rfl, rfl⟩

theorem AddTracer_over_limit {σ : Type} (MaxRequestSize : Int) (hM : 0 ≤ MaxRequestSize)
    (Create : Request → σ → (Request × Option String) × σ)
    (Marshal : Request → Except String String) (request : Request) (s : σ)
    (h : MaxRequestSize < (request.RawRequest.length : Int)) :
    AddTracer MaxRequestSize Create Marshal request s =
      AddTracer MaxRequestSize Create Marshal
        { request with RawRequest := request.RawRequest.take MaxRequestSize.toNat } s := by
  have hlen : ((request.RawRequest.take MaxRequestSize.toNat).length : Int) ≤ MaxRequestSize := by
    rw [List.length_take]
    omega
  have h1 : (request.RawRequest.length : Int) > MaxRequestSize := h
  have h2 : ¬ (MaxRequestSize < 0) := by omega
  have h3 : ¬ (((request.RawRequest.take MaxRequestSize.toNat).length : Int)
      > MaxRequestSize) := by omega
  unfold AddTracer
  simp only [h1, h2, h3, if_true, if_false]

/-- C9: for a non-negative maximum `M`, `AddTracer` returns and the request it
hands to `store.DB.Create` is the original with only `RawRequest` possibly
changed: unchanged when its length is at most `M`, and its first `M` bytes,
of length exactly `M`, when it is longer; so the stored length is
`min(len, M)`, and adding the stored request again hands over the same
request. -/
theorem AddTracer_limits_RawRequest {σ : Type} (MaxRequestSize : Int)
    (hM : 0 ≤ MaxRequestSize)
    (Create : Request → σ → (Request × Option String) × σ)
    (Marshal : Request → Except String String) (request : Request) (s : σ) :
    ∃ r stored, AddTracer MaxRequestSize Create Marshal request s = Except.ok r
      ∧ r.stored = some stored
      ∧ stored = { request with RawRequest := stored.RawRequest }
      ∧ ((request.RawRequest.length : Int) ≤ MaxRequestSize →
          stored.RawRequest = request.RawRequest)
      ∧ (MaxRequestSize < (request.RawRequest.length : Int) →
          stored.RawRequest = request.RawRequest.take MaxRequestSize.toNat
            ∧ (stored.RawRequest.length : Int) = MaxRequestSize)
      ∧ (stored.RawRequest.length : Int) = min (request.RawRequest.length : Int) MaxRequestSize
      ∧ ∃ r', AddTracer MaxRequestSize Create Marshal stored s = Except.ok r'
          ∧ r'.stored = some stored := by
  by_cases h : (request.RawRequest.length : Int) ≤ MaxRequestSize
  · obtain ⟨r, hr, hs⟩ := AddTracer_within_limit MaxRequestSize Create Marshal request s h
    refine ⟨r, request, hr, hs, rfl, fun _ => rfl, fun h' => absurd h' (by omega), ?_,
      r, hr, hs⟩
    omega
  · have h' : MaxRequestSize < (request.RawRequest.length : Int) := by omega
    have hlen : ((request.RawRequest.take MaxRequestSize.toNat).length : Int)
        = MaxRequestSize := by
      rw [List.length_take]
      omega
    obtain ⟨r, hr, hs⟩ := AddTracer_within_limit MaxRequestSize Create Marshal
      { request with RawRequest := request.RawRequest.take MaxRequestSize.toNat } s
      (by simp only; omega)
    refine ⟨r, { request with RawRequest := request.RawRequest.take MaxRequestSize.toNat },
      ?_, hs, rfl, fun h'' => absurd h'' h, fun _ => ⟨rfl, hlen⟩, ?_, r, hr, hs⟩
    · rw [AddTracer_over_limit MaxRequestSize hM Create Marshal request s h']
      exact hr
    · simp only
      omega

theorem AddTracer_limits_RawRequest_witness :
    (0 : Int) ≤ 4
      ∧ ∃ r stored, AddTracer 4 demoCreate (fun _ => Except.ok "json") demoRequestA 0
            = Except.ok r
          ∧ r.stored = some stored
          ∧ stored = { demoRequestA with RawRequest := stored.RawRequest }
          ∧ ((demoRequestA.RawRequest.length : Int) ≤ 4 →
              stored.RawRequest = demoRequestA.RawRequest)
          ∧ ((4 : Int) < (demoRequestA.RawRequest.length : Int) →
              stored.RawRequest = demoRequestA.RawRequest.take (4 : Int).toNat
                ∧ (stored.RawRequest.length : Int) = 4)
          ∧ (stored.RawRequest.length : Int) = min (demoRequestA.RawRequest.length : Int) 4
          ∧ ∃ r', AddTracer 4 demoCreate (fun _ => Except.ok "json") stored 0 = Except.ok r'
              ∧ r'.stored = some stored :=
  ⟨by decide,
    AddTracer_limits_RawRequest 4 (by decide) demoCreate (fun _ => Except.ok "json")
      demoRequestA 0⟩

end common

/-! ## The tracer cache: updates followed by a read -/

namespace common

theorem marshalInto_some (Marshal : Option (List Request) → Except String String)
    (g : String → Option String) (u : String) (v : Option (List Request)) :
    ∃ g' b, marshalInto Marshal (some g) u v = Except.ok (some g', b)
      ∧ ∀ k, k ≠ u → g' k = g k := by
  unfold marshalInto
  cases Marshal v with
  | error e =>
    exact ⟨Function.update g u none, true, rfl, fun k hk => Function.update_noteq hk _ _⟩
  | ok bytes =>
    exact ⟨Function.update g u (some bytes), false, rfl,
      fun k hk => Function.update_noteq hk _ _⟩

theorem patchTracersLoop_some (Marshal : Option (List Request) → Except String String)
    (u : String) (r0 : Tracer) (whole : List Tracer → List Request) (todo : List Tracer) :
    ∀ (done : List Tracer) (g : String → Option String),
      ∃ ts g', patchTracersLoop Marshal u r0 whole done todo (some g) = Except.ok (ts, some g')
        ∧ ts.map eraseScreenshot = (done ++ todo).map eraseScreenshot
        ∧ ∀ k, k ≠ u → g' k = g k := by
  induction todo with
  | nil => intro done g; exact ⟨done, g, rfl, by simp, fun _ _ => rfl⟩
  | cons t todo ih =>
    intro done g
    unfold patchTracersLoop
    by_cases hid : r0.ID = t.ID
    · simp only [hid, if_true]
      obtain ⟨g1, b, hm, hg1⟩ := marshalInto_some Marshal g u
        (some (whole (done ++ { t with Screenshot := r0.Screenshot } :: todo)))
      rw [hm]
      obtain ⟨ts, g', hrun, hts, hg'⟩ := ih (done ++ [{ t with Screenshot := r0.Screenshot }]) g1
      refine ⟨ts, g', hrun, ?_, fun k hk => (hg' k hk).trans (hg1 k hk)⟩
      rw [hts]
      simp [eraseScreenshot]
    · simp only [hid, if_false]
      obtain ⟨ts, g', hrun, hts, hg'⟩ := ih (done ++ [t]) g
      exact ⟨ts, g', hrun, by rw [hts]; simp, hg'⟩

theorem patchRequestsLoop_some (Marshal : Option (List Request) → Except String String)
    (u : String) (r0 : Tracer) (todo : List Request) :
    ∀ (done : List Request) (g : String → Option String),
      ∃ l g', patchRequestsLoop Marshal u r0 done todo (some g) = Except.ok (l, some g')
        ∧ l.map eraseScreenshots = (done ++ todo).map eraseScreenshots
        ∧ ∀ k, k ≠ u → g' k = g k := by
  induction todo with
  | nil => intro done g; exact ⟨done, g, rfl, by simp, fun _ _ => rfl⟩
  | cons req todo ih =>
    intro done g
    unfold patchRequestsLoop
    obtain ⟨ts, g1, hinner, hts, hg1⟩ := patchTracersLoop_some Marshal u r0
      (fun ts => done ++ { req with Tracers := ts } :: todo) req.Tracers [] g
    rw [hinner]
    obtain ⟨l, g', hrun, hl, hg'⟩ := ih (done ++ [{ req with Tracers := ts }]) g1
    refine ⟨l, g', hrun, ?_, fun k hk => (hg' k hk).trans (hg1 k hk)⟩
    rw [hl]
    have hreq : eraseScreenshots { req with Tracers := ts } = eraseScreenshots req := by
      simp only [eraseScreenshots]
      rw [hts]
      simp
    simp [hreq]

/-- One update on a cache whose two maps are allocated: it does not crash,
sends nothing, keeps the key `u` and the entries of all other keys, and either
appends the request to the entry of `u` or, in the screenshot branch, leaves
that entry as it was up to screenshots. -/
theorem tracerCacheStep_inU (getTracersDB : String → Except String (Option (List Request)))
    (Marshal : Option (List Request) → Except String String) (s : CacheState)
    (f : String → Option (List Request)) (g : String → Option String)
    (hf : s.tracers = some f) (hg : s.tracersJSON = some g) (r : Request) :
    ∃ s' f' g', tracerCacheStep getTracersDB Marshal s (Msg.inU r) = Except.ok ⟨s', none, []⟩
      ∧ s'.u = s.u ∧ s'.tracers = some f' ∧ s'.tracersJSON = some g'
      ∧ (∀ k, k ≠ s.u → f' k = f k)
      ∧ (isScreenshotUpdate r = true →
          (f' s.u).isSome = (f s.u).isSome ∧
          ((f' s.u).getD []).map eraseScreenshots = ((f s.u).getD []).map eraseScreenshots)
      ∧ (isScreenshotUpdate r = false → f' s.u = some ((f s.u).getD [] ++ [r])) := by
  have happend : isScreenshotUpdate r = false →
      ∃ s' f' g', appendUpdate Marshal s r = Except.ok ⟨s', none, []⟩
        ∧ s'.u = s.u ∧ s'.tracers = some f' ∧ s'.tracersJSON = some g'
        ∧ (∀ k, k ≠ s.u → f' k = f k)
        ∧ (isScreenshotUpdate r = true →
            (f' s.u).isSome = (f s.u).isSome ∧
            ((f' s.u).getD []).map eraseScreenshots = ((f s.u).getD []).map eraseScreenshots)
        ∧ (isScreenshotUpdate r = false → f' s.u = some ((f s.u).getD [] ++ [r])) := by
    intro hnot
    unfold appendUpdate
    simp only [hf, hg, GoMap.set, GoMap.get]
    obtain ⟨g', b, hm, _⟩ := marshalInto_some Marshal g s.u
      (Function.update f s.u (some ((f s.u).getD [] ++ [r])) s.u)
    rw [hm]
    refine ⟨_, Function.update f s.u (some ((f s.u).getD [] ++ [r])), g', rfl, rfl, rfl, rfl,
      fun k hk => Function.update_noteq hk _ _, ?_, ?_⟩
    · intro h; rw [hnot] at h; cases h
    · intro _; exact Function.update_same _ _ _
  unfold tracerCacheStep
  cases hT : r.Tracers with
  | nil =>
    simp only [hT]
    exact happend (by simp [isScreenshotUpdate, hT])
  | cons t0 rest =>
    simp only [hT]
    by_cases h0 : t0.RequestID = 0
    · simp only [h0, if_true]
      have hshot : isScreenshotUpdate r = true := by simp [isScreenshotUpdate, hT, h0]
      cases hc : s.tracers.get s.u with
      | none =>
        simp only
        have hfu : f s.u = none := by simpa [GoMap.get, hf] using hc
        exact ⟨s, f, g, rfl, rfl, hf, hg, fun _ _ => rfl, fun _ => ⟨rfl, rfl⟩,
          fun h => by rw [hshot] at h; cases h⟩
      | some cached =>
        simp only
        have hfu : f s.u = some cached := by simpa [GoMap.get, hf] using hc
        rw [hg]
        obtain ⟨l, g', hrun, hl, _⟩ := patchRequestsLoop_some Marshal s.u t0 cached [] g
        rw [hrun]
        simp only [hf, Option.map_some']
        refine ⟨_, Function.update f s.u (some l), g', rfl, rfl, rfl, rfl,
          fun k hk => Function.update_noteq hk _ _, ?_, ?_⟩
        · intro _
          rw [Function.update_same, hfu]
          refine ⟨rfl, ?_⟩
          simpa using hl
        · intro h; rw [hshot] at h; cases h
    · simp only [h0, if_false]
      exact happend (by simp [isScreenshotUpdate, hT, h0])

end common

namespace common

/-- C10: the failing input.  After reads of sessions `"A"` and `"B"`, an update
that carries a request of session `"A"` is appended under `"B"`; the next read
of `"A"` returns the list cached before, without the request, even when the
database holds it by then, and the read of `"B"` returns it. -/
theorem tracerCache_read_misses_request_of_its_session :
    demoRequestA.UUID = "A" ∧ isScreenshotUpdate demoRequestA = false
      ∧ ∃ s, tracerCacheRun demoDB demoMarshal CacheState.init
              [Msg.inR "A", Msg.inR "B", Msg.inU demoRequestA] =
            Except.ok (s, [Reply.out (some [demoRequest0]), Reply.out (some [])])
          ∧ (∃ s', tracerCacheStep demoDBAfter demoMarshal s (Msg.inR "A") =
              Except.ok ⟨s', some (Reply.out (some [demoRequest0])), []⟩)
          ∧ demoRequestA ∉ [demoRequest0]
          ∧ (∃ s', tracerCacheStep demoDBAfter demoMarshal s (Msg.inR "B") =
              Except.ok ⟨s', some (Reply.out (some [demoRequestA])), []⟩) :=
  ⟨rfl, rfl, _, rfl, ⟨_, rfl⟩, by decide, ⟨_, rfl⟩⟩

end common

/-! ## The screenshot branch in closed form -/

namespace common

theorem marshalInto_some_eq (Marshal : Option (List Request) → Except String String)
    (g : String → Option String) (u : String) (v : Option (List Request)) :
    ∃ b, marshalInto Marshal (some g) u v =
      Except.ok (some (Function.update g u (encodeEntry Marshal v)), b) := by
  unfold marshalInto encodeEntry
  cases Marshal v with
  | error e => exact ⟨true, rfl⟩
  | ok bytes => exact ⟨false, rfl⟩

theorem marshalInto_none (Marshal : Option (List Request) → Except String String)
    (u : String) (v : Option (List Request)) :
    marshalInto Marshal none u v = Except.error Crash.nilMapWrite := by
  unfold marshalInto
  cases Marshal v <;> rfl

theorem map_patchTracer_of_no_match (r0 : Tracer) (ts : List Tracer)
    (h : matchesTracers r0 ts = false) : ts.map (patchTracer r0) = ts := by
  induction ts with
  | nil => rfl
  | cons t ts ih =>
    simp only [matchesTracers, List.any_cons, Bool.or_eq_false_iff, decide_eq_false_iff_not] at h
    have ih' := ih (by simpa [matchesTracers] using h.2)
    simp [patchTracer, h.1, ih']

theorem map_patchRequest_of_no_match (r0 : Tracer) (l : List Request)
    (h : matchesRequests r0 l = false) : l.map (patchRequest r0) = l := by
  induction l with
  | nil => rfl
  | cons req l ih =>
    simp only [matchesRequests, List.any_cons, Bool.or_eq_false_iff] at h
    have ih' := ih (by simpa [matchesRequests] using h.2)
    simp [patchRequest, map_patchTracer_of_no_match r0 req.Tracers h.1, ih']

/-- The loop over the tracers of one request, on an allocated `tracersJSON`:
every tracer is patched, and if one matched the memoized encoding is that of
the list after the last match. -/
theorem patchTracersLoop_closed (Marshal : Option (List Request) → Except String String)
    (u : String) (r0 : Tracer) (whole : List Tracer → List Request) (todo : List Tracer) :
    ∀ (done : List Tracer) (g : String → Option String),
      patchTracersLoop Marshal u r0 whole done todo (some g) =
        Except.ok (done ++ todo.map (patchTracer r0),
          some (if matchesTracers r0 todo then
              Function.update g u
                (encodeEntry Marshal (some (whole (done ++ todo.map (patchTracer r0)))))
            else g)) := by
  induction todo with
  | nil => intro done g; simp [patchTracersLoop, matchesTracers]
  | cons t todo ih =>
    intro done g
    unfold patchTracersLoop
    by_cases hid : r0.ID = t.ID
    · simp only [hid, if_true]
      obtain ⟨b, hm⟩ := marshalInto_some_eq Marshal g u
        (some (whole (done ++ { t with Screenshot := r0.Screenshot } :: todo)))
      rw [hm]
      simp only
      rw [ih]
      have hp : patchTracer r0 t = { t with Screenshot := r0.Screenshot } := by
        simp [patchTracer, hid]
      have hany : matchesTracers r0 (t :: todo) = true := by
        simp [matchesTracers, hid]
      rw [hany]
      simp only [List.map_cons, hp, List.append_assoc, List.singleton_append, if_true]
      cases hrest : matchesTracers r0 todo with
      | true => simp only [if_true, Function.update_idem]
      | false =>
        simp only [Bool.false_eq_true, if_false]
        rw [map_patchTracer_of_no_match r0 todo hrest]
    · simp only [hid, if_false]
      rw [ih]
      have hp : patchTracer r0 t = t := by simp [patchTracer, hid]
      have hany : matchesTracers r0 (t :: todo) = matchesTracers r0 todo := by
        simp [matchesTracers, hid]
      rw [hany]
      simp only [List.map_cons, hp, List.append_assoc, List.singleton_append]

/-- The loop over the tracers of one request when `tracersJSON` is `nil`: the
first match panics, and without a match nothing changes. -/
theorem patchTracersLoop_nil (Marshal : Option (List Request) → Except String String)
    (u : String) (r0 : Tracer) (whole : List Tracer → List Request) (todo : List Tracer) :
    ∀ done : List Tracer,
      patchTracersLoop Marshal u r0 whole done todo none =
        if matchesTracers r0 todo then Except.error Crash.nilMapWrite
        else Except.ok (done ++ todo, none) := by
  induction todo with
  | nil => intro done; simp [patchTracersLoop, matchesTracers]
  | cons t todo ih =>
    intro done
    unfold patchTracersLoop
    by_cases hid : r0.ID = t.ID
    · simp [hid, marshalInto_none, matchesTracers]
    · simp only [hid, if_false]
      rw [ih]
      have hany : matchesTracers r0 (t :: todo) = matchesTracers r0 todo := by
        simp [matchesTracers, hid]
      rw [hany]
      simp

/-- The loop over the cached requests, on an allocated `tracersJSON`: every
tracer of every request is patched, and if one matched the memoized encoding
is that of the patched list. -/
theorem patchRequestsLoop_closed (Marshal : Option (List Request) → Except String String)
    (u : String) (r0 : Tracer) (todo : List Request) :
    ∀ (done : List Request) (g : String → Option String),
      patchRequestsLoop Marshal u r0 done todo (some g) =
        Except.ok (done ++ todo.map (patchRequest r0),
          some (if matchesRequests r0 todo then
              Function.update g u
                (encodeEntry Marshal (some (done ++ todo.map (patchRequest r0))))
            else g)) := by
  induction todo with
  | nil => intro done g; simp [patchRequestsLoop, matchesRequests]
  | cons req todo ih =>
    intro done g
    unfold patchRequestsLoop
    rw [patchTracersLoop_closed]
    simp only [List.nil_append]
    rw [ih]
    have hreq : ({ req with Tracers := req.Tracers.map (patchTracer r0) } : Request) =
        patchRequest r0 req := rfl
    rw [hreq]
    have hany : matchesRequests r0 (req :: todo) =
        (matchesTracers r0 req.Tracers || matchesRequests r0 todo) := by
      simp [matchesRequests]
    rw [hany]
    simp only [List.map_cons, List.append_assoc, List.singleton_append]
    cases hrest : matchesRequests r0 todo with
    | true =>
      cases hhere : matchesTracers r0 req.Tracers <;>
        simp only [Bool.or_true, if_true, Bool.false_eq_true, if_false, Function.update_idem]
    | false =>
      rw [map_patchRequest_of_no_match r0 todo hrest]
      cases hhere : matchesTracers r0 req.Tracers <;>
        simp only [Bool.or_false, if_true, Bool.false_eq_true, if_false]

/-- The loop over the cached requests when `tracersJSON` is `nil`. -/
theorem patchRequestsLoop_nil (Marshal : Option (List Request) → Except String String)
    (u : String) (r0 : Tracer) (todo : List Request) :
    ∀ done : List Request,
      patchRequestsLoop Marshal u r0 done todo none =
        if matchesRequests r0 todo then Except.error Crash.nilMapWrite
        else Except.ok (done ++ todo, none) := by
  induction todo with
  | nil => intro done; simp [patchRequestsLoop, matchesRequests]
  | cons req todo ih =>
    intro done
    unfold patchRequestsLoop
    rw [patchTracersLoop_nil]
    have hany : matchesRequests r0 (req :: todo) =
        (matchesTracers r0 req.Tracers || matchesRequests r0 todo) := by
      simp [matchesRequests]
    rw [hany]
    cases hhere : matchesTracers r0 req.Tracers with
    | true => simp
    | false =>
      simp only [Bool.false_eq_true, if_false, List.nil_append, Bool.false_or]
      rw [ih]
      simp

end common

/-! ## The two branches of an update -/

namespace common

theorem tracerCacheStep_inU_patch (getTracersDB : String → Except String (Option (List Request)))
    (Marshal : Option (List Request) → Except String String) (s : CacheState) (r : Request)
    (t0 : Tracer) (rest : List Tracer) (h : r.Tracers = t0 :: rest) (h0 : t0.RequestID = 0) :
    tracerCacheStep getTracersDB Marshal s (Msg.inU r) = patchUpdate Marshal s t0 := by
  simp only [tracerCacheStep, h, h0, if_true, patchUpdate]

theorem tracerCacheStep_inU_append (getTracersDB : String → Except String (Option (List Request)))
    (Marshal : Option (List Request) → Except String String) (s : CacheState) (r : Request)
    (h : isScreenshotUpdate r = false) :
    tracerCacheStep getTracersDB Marshal s (Msg.inU r) = appendUpdate Marshal s r := by
  unfold tracerCacheStep
  cases hT : r.Tracers with
  | nil => simp only [hT]
  | cons t0 rest =>
    have h0 : ¬ t0.RequestID = 0 := by
      simpa [isScreenshotUpdate, hT] using h
    simp only [hT, h0, if_false]

theorem isScreenshotUpdate_iff (r : Request) :
    isScreenshotUpdate r = true ↔ ∃ t0 rest, r.Tracers = t0 :: rest ∧ t0.RequestID = 0 := by
  unfold isScreenshotUpdate
  cases hT : r.Tracers with
  | nil => simp
  | cons t0 rest => simp

/-- The screenshot branch when no cached tracer has the ID of the update: the
state is returned as it was, whatever the state. -/
theorem patchUpdate_of_no_match (Marshal : Option (List Request) → Except String String)
    (s : CacheState) (t0 : Tracer)
    (hno : matchesRequests t0 ((s.tracers.get s.u).getD []) = false) :
    patchUpdate Marshal s t0 = Except.ok ⟨s, none, []⟩ := by
  obtain ⟨u, tracers, tracersJSON⟩ := s
  unfold patchUpdate
  cases hc : GoMap.get tracers u with
  | none => simp only [hc]
  | some cached =>
    simp only [hc, Option.getD_some] at hno ⊢
    cases tracers with
    | none => simp [GoMap.get] at hc
    | some f =>
      have hfu : f u = some cached := by simpa [GoMap.get] using hc
      have hupd : Function.update f u (some cached) = f := by
        rw [← hfu]; exact Function.update_eq_self u f
      cases tracersJSON with
      | none =>
        rw [patchRequestsLoop_nil]
        simp [hno, hupd]
      | some g =>
        rw [patchRequestsLoop_closed]
        simp [hno, map_patchRequest_of_no_match _ _ hno, hupd]

/-- The screenshot branch on allocated maps. -/
theorem patchUpdate_allocated (Marshal : Option (List Request) → Except String String)
    (s : CacheState) (f : String → Option (List Request)) (g : String → Option String)
    (hf : s.tracers = some f) (hg : s.tracersJSON = some g) (t0 : Tracer)
    (cached : List Request) (hc : f s.u = some cached) :
    patchUpdate Marshal s t0 =
      Except.ok ⟨{ s with
          tracers := some (Function.update f s.u (some (cached.map (patchRequest t0)))),
          tracersJSON := some (if matchesRequests t0 cached then
              Function.update g s.u
                (encodeEntry Marshal (some (cached.map (patchRequest t0))))
            else g) }, none, []⟩ := by
  unfold patchUpdate
  simp only [hf, hg, GoMap.get, hc, patchRequestsLoop_closed, List.nil_append, Option.map_some']

theorem patchRequest_erase (t0 : Tracer) (req : Request) :
    eraseScreenshots (patchRequest t0 req) = eraseScreenshots req := by
  have h : ∀ t, eraseScreenshot (patchTracer t0 t) = eraseScreenshot t := by
    intro t
    unfold patchTracer eraseScreenshot
    split_ifs <;> rfl
  simp [eraseScreenshots, patchRequest, List.map_map, Function.comp_def, h]

end common

namespace common

/-- C11, as stated, fails in both directions: a request with exactly one
tracer of ID zero that belongs to a request is appended, and an update
descriptor with a non-zero tracer ID and no parent request is not appended
but patches the cached tracer. -/
theorem tracerCache_branch_is_not_decided_by_the_ID :
    specScreenshotShape demoZeroID = true
      ∧ tracerCacheStep demoDB demoMarshal CacheState.init (Msg.inU demoZeroID) =
          appendUpdate demoMarshal CacheState.init demoZeroID
      ∧ (∃ s, tracerCacheRun demoDB demoMarshal CacheState.init
              [Msg.inU demoZeroID, Msg.inR ""] =
            Except.ok (s, [Reply.out (some [demoZeroID])]))
      ∧ specScreenshotShape demoScreenshot = false
      ∧ (∃ s, tracerCacheRun demoDB demoMarshal CacheState.init
              [Msg.inU demoRequestA, Msg.inU demoScreenshot, Msg.inR ""] =
            Except.ok (s, [Reply.out (some
              [{ demoRequestA with Tracers := [{ demoTracer with Screenshot := "shot.png" }] }])])) :=
  ⟨rfl, rfl, ⟨_, rfl⟩, rfl, ⟨_, rfl⟩⟩

/-- C11, amended: an update takes the screenshot branch exactly when the
request carries at least one tracer and the `RequestID` of its first tracer is
zero; every other request (no tracer, or a first tracer with a non-zero
`RequestID`) takes the append branch.  The two branches are told apart by
their effect: on allocated maps the first leaves the number of cached requests
of the key `u` as it is and the second adds one. -/
theorem tracerCache_update_branch
    (getTracersDB : String → Except String (Option (List Request)))
    (Marshal : Option (List Request) → Except String String) (s : CacheState) (r : Request) :
    (∀ t0 rest, r.Tracers = t0 :: rest → t0.RequestID = 0 →
        tracerCacheStep getTracersDB Marshal s (Msg.inU r) = patchUpdate Marshal s t0)
      ∧ (r.Tracers = [] →
        tracerCacheStep getTracersDB Marshal s (Msg.inU r) = appendUpdate Marshal s r)
      ∧ (∀ t0 rest, r.Tracers = t0 :: rest → t0.RequestID ≠ 0 →
        tracerCacheStep getTracersDB Marshal s (Msg.inU r) = appendUpdate Marshal s r)
      ∧ (isScreenshotUpdate r = true ↔ ∃ t0 rest, r.Tracers = t0 :: rest ∧ t0.RequestID = 0)
      ∧ (∀ f g, s.tracers = some f → s.tracersJSON = some g →
          ∃ s', tracerCacheStep getTracersDB Marshal s (Msg.inU r) = Except.ok ⟨s', none, []⟩
            ∧ ((s'.tracers.get s.u).getD []).length =
                ((s.tracers.get s.u).getD []).length + (if isScreenshotUpdate r then 0 else 1)) := by
  refine ⟨?_, ?_, ?_, isScreenshotUpdate_iff r, ?_⟩
  · intro t0 rest h h0
    exact tracerCacheStep_inU_patch getTracersDB Marshal s r t0 rest h h0
  · intro h
    exact tracerCacheStep_inU_append getTracersDB Marshal s r (by simp [isScreenshotUpdate, h])
  · intro t0 rest h h0
    exact tracerCacheStep_inU_append getTracersDB Marshal s r (by simp [isScreenshotUpdate, h, h0])
  · intro f g hf hg
    obtain ⟨s', f', g', hstep, _, hf', _, _, hshot, happ⟩ :=
      tracerCacheStep_inU getTracersDB Marshal s f g hf hg r
    refine ⟨s', hstep, ?_⟩
    have hget' : s'.tracers.get s.u = f' s.u := by simp [GoMap.get, hf']
    have hget : s.tracers.get s.u = f s.u := by simp [GoMap.get, hf]
    rw [hget', hget]
    cases hr : isScreenshotUpdate r with
    | true =>
      have h := congrArg List.length (hshot hr).2
      simpa using h
    | false =>
      rw [happ hr]
      simp

theorem tracerCache_update_branch_witness :
    tracerCacheStep demoDB demoMarshal CacheState.init (Msg.inU demoScreenshot) =
        patchUpdate demoMarshal CacheState.init ⟨7, 0, "", "", "shot.png"⟩
      ∧ tracerCacheStep demoDB demoMarshal CacheState.init (Msg.inU demoRequestA) =
        appendUpdate demoMarshal CacheState.init demoRequestA :=
  ⟨(tracerCache_update_branch demoDB demoMarshal CacheState.init demoScreenshot).1 _ [] rfl rfl,
    (tracerCache_update_branch demoDB demoMarshal CacheState.init demoRequestA).2.2.1
      demoTracer [] rfl (by decide)⟩

end common

/-! ## The screenshot branch with the tracers in memory -/

namespace common

theorem update_screenshot_self (mem : TracerMem) (c c0 : Nat) :
    Function.update mem c { mem c with Screenshot := (mem c0).Screenshot } c0 = mem c0 := by
  by_cases h : c0 = c
  · subst h; simp
  · simp [Function.update_noteq h]

theorem update_screenshot_ID (mem : TracerMem) (c : Nat) (shot : String) (x : Nat) :
    (Function.update mem c { mem c with Screenshot := shot } x).ID = (mem x).ID := by
  by_cases h : x = c
  · subst h; simp
  · simp [Function.update_noteq h]

theorem patchMem_nil (r0 : Tracer) (mem : TracerMem) : patchMem r0 [] mem = mem := by
  funext x; simp [patchMem]

theorem patchMem_ID (r0 : Tracer) (cells : List Nat) (mem : TracerMem) (x : Nat) :
    (patchMem r0 cells mem x).ID = (mem x).ID := by
  unfold patchMem
  split_ifs <;> rfl

theorem patchMem_cons_of_match (r0 : Tracer) (c : Nat) (cs : List Nat) (mem : TracerMem)
    (h : r0.ID = (mem c).ID) :
    patchMem r0 cs (Function.update mem c { mem c with Screenshot := r0.Screenshot }) =
      patchMem r0 (c :: cs) mem := by
  funext x
  unfold patchMem
  by_cases hx : x = c
  · subst hx
    simp [h]
  · simp [Function.update_noteq hx, hx]

theorem patchMem_cons_of_no_match (r0 : Tracer) (c : Nat) (cs : List Nat) (mem : TracerMem)
    (h : ¬ r0.ID = (mem c).ID) :
    patchMem r0 (c :: cs) mem = patchMem r0 cs mem := by
  funext x
  unfold patchMem
  by_cases hx : x = c
  · subst hx
    simp [h]
  · simp [hx]

theorem matchesCells_update (r0 : Tracer) (cs : List Nat) (mem : TracerMem) (c : Nat)
    (shot : String) :
    matchesCells r0 cs (Function.update mem c { mem c with Screenshot := shot }) =
      matchesCells r0 cs mem := by
  unfold matchesCells
  simp only [update_screenshot_ID]

theorem patchMem_of_no_match (r0 : Tracer) (cs : List Nat) (mem : TracerMem)
    (h : matchesCells r0 cs mem = false) : patchMem r0 cs mem = mem := by
  funext x
  unfold patchMem
  unfold matchesCells at h
  rw [List.any_eq_false] at h
  by_cases hx : x ∈ cs
  · have := h x hx
    simp at this
    simp [this]
  · simp [hx]

/-- The loop over the tracers of one request, on an allocated `tracersJSON`: the
memory is patched at the cells visited and the entry of `u` is the encoding of
the list as it stands after the last match. -/
theorem patchTracersLoopMem_closed (Marshal : Option (List Request) → Except String String)
    (u : String) (c0 : Nat) (entry : List RequestRef) (r0 : Tracer) (cells : List Nat) :
    ∀ (mem : TracerMem) (g : String → Option String), mem c0 = r0 →
      patchTracersLoopMem Marshal u c0 entry cells mem (some g) =
        Except.ok (patchMem r0 cells mem,
          some (if matchesCells r0 cells mem then
              Function.update g u
                (encodeEntry Marshal (some (loadAll (patchMem r0 cells mem) entry)))
            else g)) := by
  induction cells with
  | nil =>
    intro mem g _
    simp [patchTracersLoopMem, patchMem_nil, matchesCells]
  | cons c cs ih =>
    intro mem g h0
    unfold patchTracersLoopMem
    rw [h0]
    by_cases hm : r0.ID = (mem c).ID
    · have hself := update_screenshot_self mem c c0
      rw [h0] at hself
      obtain ⟨b, hb⟩ := marshalInto_some_eq Marshal g u
        (some (loadAll (Function.update mem c { mem c with Screenshot := r0.Screenshot }) entry))
      have hih := ih (Function.update mem c { mem c with Screenshot := r0.Screenshot })
        (Function.update g u (encodeEntry Marshal (some (loadAll
          (Function.update mem c { mem c with Screenshot := r0.Screenshot }) entry)))) hself
      have hpm := patchMem_cons_of_match r0 c cs mem hm
      have hmc := matchesCells_update r0 cs mem c r0.Screenshot
      have hall : matchesCells r0 (c :: cs) mem = true := by simp [matchesCells, hm]
      dsimp only at hb hih hpm hmc ⊢
      simp only [hm, if_true, hb, hih, hpm, hmc, hall]
      cases hcs : matchesCells r0 cs mem with
      | true => simp
      | false =>
        have hno := patchMem_of_no_match r0 cs _ (hmc.trans hcs)
        rw [hpm] at hno
        simp [hno]
    · rw [patchMem_cons_of_no_match r0 c cs mem hm]
      have hall : matchesCells r0 (c :: cs) mem = matchesCells r0 cs mem := by
        simp [matchesCells, hm]
      simp only [hm, if_false, hall]
      exact ih mem g h0

theorem patchMem_self (mem : TracerMem) (c0 : Nat) (cells : List Nat) :
    patchMem (mem c0) cells mem c0 = mem c0 := by
  unfold patchMem
  split_ifs <;> rfl

theorem patchMem_append (r0 : Tracer) (cs₁ cs₂ : List Nat) (mem : TracerMem) :
    patchMem r0 cs₂ (patchMem r0 cs₁ mem) = patchMem r0 (cs₁ ++ cs₂) mem := by
  funext x
  have hid := patchMem_ID r0 cs₁ mem x
  by_cases h1 : x ∈ cs₁ <;> by_cases h2 : x ∈ cs₂ <;> by_cases hm : r0.ID = (mem x).ID <;>
    simp [patchMem, h1, h2, hm]

theorem matchesCells_patchMem (r0 : Tracer) (cs cs' : List Nat) (mem : TracerMem) :
    matchesCells r0 cs (patchMem r0 cs' mem) = matchesCells r0 cs mem := by
  unfold matchesCells
  simp only [patchMem_ID]

theorem matchesCells_append (r0 : Tracer) (cs₁ cs₂ : List Nat) (mem : TracerMem) :
    matchesCells r0 (cs₁ ++ cs₂) mem = (matchesCells r0 cs₁ mem || matchesCells r0 cs₂ mem) := by
  simp [matchesCells]

/-- The loop over the requests of the entry, on an allocated `tracersJSON`. -/
theorem patchRequestsLoopMem_closed (Marshal : Option (List Request) → Except String String)
    (u : String) (c0 : Nat) (entry : List RequestRef) (r0 : Tracer) (todo : List RequestRef) :
    ∀ (mem : TracerMem) (g : String → Option String), mem c0 = r0 →
      patchRequestsLoopMem Marshal u c0 entry todo mem (some g) =
        Except.ok (patchMem r0 (cellsOf todo) mem,
          some (if matchesCells r0 (cellsOf todo) mem then
              Function.update g u
                (encodeEntry Marshal (some (loadAll (patchMem r0 (cellsOf todo) mem) entry)))
            else g)) := by
  induction todo with
  | nil =>
    intro mem g _
    simp [patchRequestsLoopMem, cellsOf, patchMem_nil, matchesCells]
  | cons req todo ih =>
    intro mem g h0
    unfold patchRequestsLoopMem
    rw [patchTracersLoopMem_closed Marshal u c0 entry r0 req.Tracers mem g h0]
    have hself : patchMem r0 req.Tracers mem c0 = r0 := by
      rw [← h0]; exact patchMem_self mem c0 _
    have hcells : cellsOf (req :: todo) = req.Tracers ++ cellsOf todo := by simp [cellsOf]
    simp only [ih _ _ hself, hcells, patchMem_append, matchesCells_append, matchesCells_patchMem]
    cases h1 : matchesCells r0 req.Tracers mem <;> cases h2 : matchesCells r0 (cellsOf todo) mem
    · simp
    · simp
    · have hno := patchMem_of_no_match r0 (cellsOf todo) (patchMem r0 req.Tracers mem)
        ((matchesCells_patchMem r0 _ _ mem).trans h2)
      rw [patchMem_append] at hno
      simp [hno]
    · simp


theorem patchTracersLoopMem_nil (Marshal : Option (List Request) → Except String String)
    (u : String) (c0 : Nat) (entry : List RequestRef) (r0 : Tracer) (cells : List Nat) :
    ∀ mem : TracerMem, mem c0 = r0 →
      patchTracersLoopMem Marshal u c0 entry cells mem none =
        if matchesCells r0 cells mem then Except.error Crash.nilMapWrite
        else Except.ok (mem, none) := by
  induction cells with
  | nil => intro mem _; simp [patchTracersLoopMem, matchesCells]
  | cons c cs ih =>
    intro mem h0
    unfold patchTracersLoopMem
    rw [h0]
    by_cases hm : r0.ID = (mem c).ID
    · simp [hm, marshalInto_none, matchesCells]
    · simp only [hm, if_false]
      rw [ih mem h0]
      have hany : matchesCells r0 (c :: cs) mem = matchesCells r0 cs mem := by
        simp [matchesCells, hm]
      rw [hany]

theorem patchRequestsLoopMem_nil (Marshal : Option (List Request) → Except String String)
    (u : String) (c0 : Nat) (entry : List RequestRef) (r0 : Tracer) (todo : List RequestRef) :
    ∀ mem : TracerMem, mem c0 = r0 →
      patchRequestsLoopMem Marshal u c0 entry todo mem none =
        if matchesCells r0 (cellsOf todo) mem then Except.error Crash.nilMapWrite
        else Except.ok (mem, none) := by
  induction todo with
  | nil => intro mem _; simp [patchRequestsLoopMem, cellsOf, matchesCells]
  | cons req todo ih =>
    intro mem h0
    unfold patchRequestsLoopMem
    rw [patchTracersLoopMem_nil Marshal u c0 entry r0 req.Tracers mem h0]
    have hcells : cellsOf (req :: todo) = req.Tracers ++ cellsOf todo := by simp [cellsOf]
    rw [hcells, matchesCells_append]
    cases hhere : matchesCells r0 req.Tracers mem with
    | true => simp
    | false =>
      simp only [Bool.false_eq_true, if_false, Bool.false_or]
      rw [ih mem h0]

theorem isScreenshotUpdateMem_iff (mem : TracerMem) (r : RequestRef) :
    isScreenshotUpdateMem mem r = true ↔
      ∃ c0 rest, r.Tracers = c0 :: rest ∧ (mem c0).RequestID = 0 := by
  unfold isScreenshotUpdateMem
  cases hT : r.Tracers with
  | nil => simp
  | cons c0 rest => simp

theorem tracerCacheStepMem_inU_append
    (getTracersDB : TracerMem → String → Except String (Option (List RequestRef) × TracerMem))
    (Marshal : Option (List Request) → Except String String) (s : MemState) (r : RequestRef)
    (h : isScreenshotUpdateMem s.mem r = false) :
    tracerCacheStepMem getTracersDB Marshal s (MemMsg.inU r) = appendUpdateMem Marshal s r := by
  unfold tracerCacheStepMem
  cases hT : r.Tracers with
  | nil => simp only [hT]
  | cons c0 rest =>
    have h0 : ¬ (s.mem c0).RequestID = 0 := by
      simpa [isScreenshotUpdateMem, hT] using h
    simp only [hT, h0, if_false]

/-- The screenshot branch when the key `u` has no entry. -/
theorem tracerCacheStepMem_inU_patch_none
    (getTracersDB : TracerMem → String → Except String (Option (List RequestRef) × TracerMem))
    (Marshal : Option (List Request) → Except String String) (s : MemState) (r : RequestRef)
    (c0 : Nat) (rest : List Nat) (h : r.Tracers = c0 :: rest) (h0 : (s.mem c0).RequestID = 0)
    (hc : s.tracers.get s.u = none) :
    tracerCacheStepMem getTracersDB Marshal s (MemMsg.inU r) = Except.ok ⟨s, none, []⟩ := by
  simp only [tracerCacheStepMem, h, h0, if_true, hc]

/-- The screenshot branch on an allocated `tracersJSON`. -/
theorem tracerCacheStepMem_inU_patch_some
    (getTracersDB : TracerMem → String → Except String (Option (List RequestRef) × TracerMem))
    (Marshal : Option (List Request) → Except String String) (s : MemState) (r : RequestRef)
    (c0 : Nat) (rest : List Nat) (h : r.Tracers = c0 :: rest) (h0 : (s.mem c0).RequestID = 0)
    (cached : List RequestRef) (hc : s.tracers.get s.u = some cached)
    (g : String → Option String) (hg : s.tracersJSON = some g) :
    tracerCacheStepMem getTracersDB Marshal s (MemMsg.inU r) =
      Except.ok ⟨{ s with
          tracersJSON := some (if matchesCells (s.mem c0) (cellsOf cached) s.mem then
              Function.update g s.u (encodeEntry Marshal
                (some (loadAll (patchMem (s.mem c0) (cellsOf cached) s.mem) cached)))
            else g),
          mem := patchMem (s.mem c0) (cellsOf cached) s.mem }, none, []⟩ := by
  simp only [tracerCacheStepMem, h, h0, if_true, hc, hg,
    patchRequestsLoopMem_closed Marshal s.u c0 cached (s.mem c0) cached s.mem g rfl]

/-- The screenshot branch on a `nil` `tracersJSON`. -/
theorem tracerCacheStepMem_inU_patch_nil
    (getTracersDB : TracerMem → String → Except String (Option (List RequestRef) × TracerMem))
    (Marshal : Option (List Request) → Except String String) (s : MemState) (r : RequestRef)
    (c0 : Nat) (rest : List Nat) (h : r.Tracers = c0 :: rest) (h0 : (s.mem c0).RequestID = 0)
    (cached : List RequestRef) (hc : s.tracers.get s.u = some cached)
    (hg : s.tracersJSON = none) :
    tracerCacheStepMem getTracersDB Marshal s (MemMsg.inU r) =
      if matchesCells (s.mem c0) (cellsOf cached) s.mem then Except.error Crash.nilMapWrite
      else Except.ok ⟨s, none, []⟩ := by
  simp only [tracerCacheStepMem, h, h0, if_true, hc, hg,
    patchRequestsLoopMem_nil Marshal s.u c0 cached (s.mem c0) cached s.mem rfl]
  split_ifs
  · rfl
  · obtain ⟨u, t, j, m⟩ := s
    simp only at hg
    subst hg
    rfl

theorem appendUpdateMem_allocated (Marshal : Option (List Request) → Except String String)
    (s : MemState) (f : String → Option (List RequestRef)) (g : String → Option String)
    (hf : s.tracers = some f) (hg : s.tracersJSON = some g) (r : RequestRef) :
    appendUpdateMem Marshal s r =
      Except.ok ⟨{ s with
          tracers := some (Function.update f s.u (some ((f s.u).getD [] ++ [r]))),
          tracersJSON := some (Function.update g s.u
            (encodeEntry Marshal (some (loadAll s.mem ((f s.u).getD [] ++ [r]))))) }, none, []⟩ := by
  simp only [appendUpdateMem, hf, hg, GoMap.get, GoMap.set, Function.update_same, marshalInto,
    encodeEntry, Option.map_some']
  cases Marshal (some (loadAll s.mem ((f s.u).getD [] ++ [r]))) <;> simp [Except.map]

theorem appendUpdateMem_nil (Marshal : Option (List Request) → Except String String)
    (s : MemState) (h : s.tracers = none ∨ s.tracersJSON = none) (r : RequestRef) :
    appendUpdateMem Marshal s r = Except.error Crash.nilMapWrite := by
  unfold appendUpdateMem
  cases hT : s.tracers with
  | none => simp [GoMap.set]
  | some f =>
    have hj : s.tracersJSON = none := by
      rcases h with h | h
      · rw [hT] at h; cases h
      · exact h
    simp [GoMap.set, hj, marshalInto_none]

/-- What the patched memory shows of requests all of whose cells were visited:
each tracer patched. -/
theorem loadAll_patchMem (r0 : Tracer) (cells : List Nat) (mem : TracerMem)
    (l : List RequestRef) (hsub : ∀ c ∈ cellsOf l, c ∈ cells) :
    loadAll (patchMem r0 cells mem) l = (loadAll mem l).map (patchRequest r0) := by
  unfold loadAll
  rw [List.map_map]
  apply List.map_congr_left
  intro req hreq
  simp only [Function.comp, RequestRef.load, patchRequest, List.map_map, Request.mk.injEq,
    true_and]
  apply List.map_congr_left
  intro c hc
  have hin : c ∈ cells := hsub c (by
    simp only [cellsOf, List.mem_flatMap]
    exact ⟨req, hreq, hc⟩)
  simp [patchMem, patchTracer, hin]

/-- What the patched memory shows of requests none of whose cells was
written. -/
theorem loadAll_patchMem_frame (r0 : Tracer) (cells : List Nat) (mem : TracerMem)
    (l : List RequestRef) (hno : ∀ c ∈ cellsOf l, c ∈ cells → r0.ID ≠ (mem c).ID) :
    loadAll (patchMem r0 cells mem) l = loadAll mem l := by
  unfold loadAll
  apply List.map_congr_left
  intro req hreq
  simp only [RequestRef.load, Request.mk.injEq, true_and]
  apply List.map_congr_left
  intro c hc
  have hin : c ∈ cellsOf l := by
    simp only [cellsOf, List.mem_flatMap]
    exact ⟨req, hreq, hc⟩
  unfold patchMem
  by_cases hcell : c ∈ cells
  · simp [hcell, hno c hin hcell]
  · simp [hcell]

/-- The patched memory shows every request as before, up to screenshots. -/
theorem loadAll_patchMem_erase (r0 : Tracer) (cells : List Nat) (mem : TracerMem)
    (l : List RequestRef) :
    (loadAll (patchMem r0 cells mem) l).map eraseScreenshots =
      (loadAll mem l).map eraseScreenshots := by
  unfold loadAll
  rw [List.map_map, List.map_map]
  apply List.map_congr_left
  intro req _
  simp only [Function.comp, RequestRef.load, eraseScreenshots, List.map_map, Request.mk.injEq,
    true_and]
  apply List.map_congr_left
  intro c _
  simp only [Function.comp, patchMem, eraseScreenshot]
  split_ifs <;> rfl

end common

/-! ## The effect of a screenshot update -/

namespace common

/-- C12, as stated, fails: when the cached list holds the same tracer twice
(a request loaded from the database and then appended by its own update, the
two with tracers of their own), a screenshot update overwrites the screenshot
of both, not of the first only. -/
theorem tracerCache_patch_is_not_first_only :
    (∃ s, tracerCacheRun demoDBAfter demoMarshal CacheState.init
          [Msg.inR "A", Msg.inU demoRequestA, Msg.inU demoScreenshot, Msg.inR "A"] =
        Except.ok (s,
          [Reply.out (some [demoRequest0, demoRequestA]),
           Reply.out (some [demoRequest0,
             { demoRequestA with Tracers := [{ demoTracer with Screenshot := "shot.png" }] },
             { demoRequestA with Tracers := [{ demoTracer with Screenshot := "shot.png" }] }])]))
      ∧ (∃ s, tracerCacheRunMem demoMarshal (MemState.init demoMem)
          [(id, demoLoadAfter, MemMsg.inR "A"), (id, demoLoadAfter, MemMsg.inU demoRefA),
           (id, demoLoadAfter, MemMsg.inU demoRefShot), (id, demoLoadAfter, MemMsg.inR "A")] =
        Except.ok (s,
          [Reply.out (some [demoRequest0, demoRequestA]),
           Reply.out (some [demoRequest0,
             { demoRequestA with Tracers := [{ demoTracer with Screenshot := "shot.png" }] },
             { demoRequestA with Tracers := [{ demoTracer with Screenshot := "shot.png" }] }])]))
      ∧ ({ demoRequestA with Tracers := [{ demoTracer with Screenshot := "shot.png" }] } : Request)
          ≠ demoRequestA :=
  ⟨⟨_, rfl⟩, ⟨_, rfl⟩, by decide⟩

/-- C12, amended: on a state whose `tracersJSON` is allocated (or whose
`tracers` is `nil`), with the key of the actor the session of the update, an
update that takes the screenshot branch does not crash, sends nothing and
overwrites the `Screenshot` of every tracer of the requests cached for the
session whose ID is that of the update's first tracer, the first one
included, and changes nothing else.  No request is added, removed or moved
under any key; the memory of the tracers changes in exactly those cells and
there in the screenshot only, so every cached list of every key shows the
same requests and the same tracers in the same order, up to screenshots; the
list of the session shows each of its tracers patched; a list of another key
is unchanged when it holds none of the tracers written, that is when it shares
no matching tracer with the requests of the session.  The memoized encoding of
the session is recomputed when a tracer matched, those of the other keys are
as before. -/
theorem tracerCache_patch_effect
    (getTracersDB : TracerMem → String → Except String (Option (List RequestRef) × TracerMem))
    (Marshal : Option (List Request) → Except String String) (s : MemState) (r : RequestRef)
    (c0 : Nat) (rest : List Nat) (session : String)
    (h : r.Tracers = c0 :: rest) (h0 : (s.mem c0).RequestID = 0) (hkey : s.u = session)
    (hs : s.tracers = none ∨ s.tracersJSON ≠ none) :
    (∃ s', tracerCacheStepMem getTracersDB Marshal s (MemMsg.inU r) = Except.ok ⟨s', none, []⟩
        ∧ s'.u = s.u
        ∧ s'.tracers = s.tracers
        ∧ (∀ c, s'.mem c =
            if c ∈ cellsOf ((s.tracers.get session).getD []) ∧ (s.mem c0).ID = (s.mem c).ID
            then { s.mem c with Screenshot := (s.mem c0).Screenshot } else s.mem c)
        ∧ (s'.tracers.get session).map (loadAll s'.mem) =
            ((s.tracers.get session).map (loadAll s.mem)).map
              (List.map (patchRequest (s.mem c0)))
        ∧ (∀ k l, s.tracers.get k = some l →
            (loadAll s'.mem l).map eraseScreenshots = (loadAll s.mem l).map eraseScreenshots)
        ∧ (∀ k l, s.tracers.get k = some l →
            (∀ c ∈ cellsOf l, c ∈ cellsOf ((s.tracers.get session).getD []) →
              (s.mem c0).ID ≠ (s.mem c).ID) →
            loadAll s'.mem l = loadAll s.mem l)
        ∧ (∀ k, k ≠ session → s'.tracersJSON.get k = s.tracersJSON.get k)
        ∧ s'.tracersJSON.get session =
            if matchesCells (s.mem c0) (cellsOf ((s.tracers.get session).getD [])) s.mem
            then encodeEntry Marshal ((s'.tracers.get session).map (loadAll s'.mem))
            else s.tracersJSON.get session)
      ∧ (∀ t0 req, patchRequest t0 req = { req with Tracers := req.Tracers.map (patchTracer t0) })
      ∧ (∀ t0 t : Tracer, t.ID = t0.ID → patchTracer t0 t = { t with Screenshot := t0.Screenshot })
      ∧ (∀ t0 t : Tracer, t.ID ≠ t0.ID → patchTracer t0 t = t) := by
  subst hkey
  refine ⟨?_, fun _ _ => rfl, ?_, ?_⟩
  · cases hc : s.tracers.get s.u with
    | none =>
      rw [tracerCacheStepMem_inU_patch_none getTracersDB Marshal s r c0 rest h h0 hc]
      refine ⟨s, rfl, rfl, rfl, ?_, ?_, fun _ _ _ => rfl, fun _ _ _ _ => rfl, fun _ _ => rfl, ?_⟩
      · intro c; simp [cellsOf]
      · simp [hc]
      · simp [cellsOf, matchesCells]
    | some cached =>
      have hj : s.tracersJSON ≠ none := by
        rcases hs with hs | hs
        · rw [hs] at hc; cases hc
        · exact hs
      obtain ⟨g, hg⟩ := Option.ne_none_iff_exists'.mp hj
      rw [tracerCacheStepMem_inU_patch_some getTracersDB Marshal s r c0 rest h h0 cached hc g hg]
      refine ⟨_, rfl, rfl, rfl, ?_, ?_, ?_, ?_, ?_, ?_⟩
      · intro c
        simp only [Option.getD_some, patchMem]
      · simp only [hc, Option.map_some', Option.some.injEq]
        exact loadAll_patchMem _ _ _ cached (fun _ hcell => hcell)
      · intro k l _
        exact loadAll_patchMem_erase _ _ _ l
      · intro k l _ hno
        exact loadAll_patchMem_frame _ _ _ l (by simpa using hno)
      · intro k hk
        simp only [GoMap.get, hg]
        split_ifs
        · exact Function.update_noteq hk _ _
        · rfl
      · simp only [Option.getD_some, GoMap.get, hg]
        have hc' : s.tracers.get s.u = some cached := hc
        simp only [GoMap.get] at hc'
        split_ifs
        · simp [hc']
        · rfl
  · intro t0 t ht
    simp [patchTracer, ht]
  · intro t0 t ht
    have : ¬ t0.ID = t.ID := fun e => ht e.symm
    simp [patchTracer, this]

theorem tracerCache_patch_effect_witness :
    demoRefShot.Tracers = [1] ∧ (demoPatchState.mem 1).RequestID = 0 ∧ demoPatchState.u = "A"
      ∧ (demoPatchState.tracers = none ∨ demoPatchState.tracersJSON ≠ none)
      ∧ ∃ s', tracerCacheStepMem demoEmptyLoad demoMarshal demoPatchState (MemMsg.inU demoRefShot) =
            Except.ok ⟨s', none, []⟩
          ∧ demoPatchState.mem 0 = demoTracer
          ∧ s'.mem 0 = { demoTracer with Screenshot := "shot.png" }
          ∧ (s'.tracers.get "A").map (loadAll s'.mem) =
              some [{ demoRequestA with Tracers := [{ demoTracer with Screenshot := "shot.png" }] }]
          ∧ s'.tracersJSON.get "A" = some "[1]" :=
  ⟨rfl, rfl, rfl, Or.inr (by simp [demoPatchState]),
    (tracerCache_patch_effect demoEmptyLoad demoMarshal demoPatchState demoRefShot 1 [] "A"
      rfl rfl rfl (Or.inr (by simp [demoPatchState]))).1.imp
      fun _ h => ⟨h.1, rfl, (h.2.2.2.1 0).trans (by decide), h.2.2.2.2.1.trans (by decide),
        h.2.2.2.2.2.2.2.2.trans (by
          rw [h.2.2.2.2.1]
          decide)⟩⟩

end common

namespace common

/-- C13, as stated, fails.  A request of the shape of a screenshot update
(exactly one tracer, of ID zero) whose tracer matches nothing, the cache being
empty, is not dropped: it takes the append branch, because the `RequestID` of
its tracer is not zero, and both maps change.  And after the reads of `"A"` and
`"B"` and the update that files `demoRequestA` under `"B"`, the descriptor for
tracer 7, a tracer of session `"A"` of which the entry of `"A"` holds nothing,
is not dropped either: it rewrites the entry of `"B"`. -/
theorem tracerCache_unmatched_update_is_not_dropped :
    specScreenshotShape demoZeroID = true
      ∧ (∀ k, CacheState.init.tracers.get k = none)
      ∧ (∃ s, tracerCacheStep demoDB demoMarshal CacheState.init (Msg.inU demoZeroID) =
            Except.ok ⟨s, none, []⟩
          ∧ s.tracers.get "" = some [demoZeroID]
          ∧ s.tracersJSON.get "" = some "[1]"
          ∧ CacheState.init.tracersJSON.get "" = none)
      ∧ (∃ s, tracerCacheRun demoDB demoMarshal CacheState.init
              [Msg.inR "A", Msg.inR "B", Msg.inU demoRequestA] =
            Except.ok (s, [Reply.out (some [demoRequest0]), Reply.out (some [])])
          ∧ demoTracer.UUID = "A"
          ∧ s.tracers.get "A" = some [demoRequest0]
          ∧ (∀ req ∈ [demoRequest0], ∀ t ∈ req.Tracers, t.ID ≠ 7)
          ∧ s.tracers.get "B" = some [demoRequestA]
          ∧ ∃ s', tracerCacheStep demoDB demoMarshal s (Msg.inU demoScreenshot) =
                Except.ok ⟨s', none, []⟩
              ∧ s'.tracers.get "B" = some
                  [{ demoRequestA with Tracers := [{ demoTracer with Screenshot := "shot.png" }] }]) :=
  ⟨rfl, fun _ => rfl, ⟨_, rfl, rfl, rfl, rfl⟩,
    ⟨_, rfl, rfl, rfl, by decide, rfl, ⟨_, rfl, rfl⟩⟩⟩

/-- C13, amended: an update that takes the screenshot branch (its request
carries at least one tracer and the `RequestID` of the first is zero), arriving
while the key of the actor is the session, and whose tracer ID is that of no
tracer cached for the session, is a no-op in every state: the iteration ends
normally, sends nothing, and the key and both maps are exactly as before. -/
theorem tracerCache_patch_without_match
    (getTracersDB : String → Except String (Option (List Request)))
    (Marshal : Option (List Request) → Except String String) (s : CacheState) (r : Request)
    (t0 : Tracer) (rest : List Tracer) (session : String)
    (h : r.Tracers = t0 :: rest) (h0 : t0.RequestID = 0) (hkey : s.u = session)
    (hno : ∀ req ∈ (s.tracers.get session).getD [], ∀ t ∈ req.Tracers, t.ID ≠ t0.ID) :
    tracerCacheStep getTracersDB Marshal s (Msg.inU r) = Except.ok ⟨s, none, []⟩ := by
  subst hkey
  rw [tracerCacheStep_inU_patch getTracersDB Marshal s r t0 rest h h0]
  apply patchUpdate_of_no_match
  rw [Bool.eq_false_iff]
  intro hany
  obtain ⟨req, hreq, hreq'⟩ := List.any_eq_true.mp hany
  obtain ⟨t, ht, e⟩ := List.any_eq_true.mp hreq'
  exact hno req hreq t ht (of_decide_eq_true e).symm

theorem tracerCache_patch_without_match_witness :
    demoScreenshot.Tracers = [⟨7, 0, "", "", "shot.png"⟩]
      ∧ (∀ req ∈ ((⟨"A", some (fun _ => some [demoRequest0]), some (fun _ => some "[1]")⟩ :
          CacheState).tracers.get "A").getD [], ∀ t ∈ req.Tracers, t.ID ≠ 7)
      ∧ tracerCacheStep demoDB demoMarshal
          ⟨"A", some (fun _ => some [demoRequest0]), some (fun _ => some "[1]")⟩
          (Msg.inU demoScreenshot) =
        Except.ok ⟨⟨"A", some (fun _ => some [demoRequest0]), some (fun _ => some "[1]")⟩,
          none, []⟩ :=
  ⟨rfl, by simp [GoMap.get, demoRequest0],
    tracerCache_patch_without_match demoDB demoMarshal _ demoScreenshot _ [] "A" rfl rfl rfl
      (by simp [GoMap.get, demoRequest0])⟩

end common

/-! ## Reads, and the frame of an update -/

namespace common

theorem encodeEntry_eq_some (Marshal : Option (List Request) → Except String String)
    (v : Option (List Request)) (b : String) :
    encodeEntry Marshal v = some b ↔ Marshal v = Except.ok b := by
  unfold encodeEntry
  cases Marshal v <;> simp

theorem CacheState.with_u_self (s : CacheState) (u : String) (h : s.u = u) :
    ({ s with u := u } : CacheState) = s := by
  subst h; rfl

/-- A read of a key without entry, on allocated maps: one query, and the rows
found are installed and sent. -/
theorem tracerCacheStep_inR_cold (Find : String → Except String (List Request))
    (Marshal : Option (List Request) → Except String String) (s : CacheState)
    (f : String → Option (List Request)) (hf : s.tracers = some f) (u : String)
    (hu : f u = none) (l : List Request) (hdb : Find u = Except.ok l) :
    tracerCacheStep (getTracersDB Find) Marshal s (Msg.inR u) =
      Except.ok ⟨{ s with u := u, tracers := some (Function.update f u (some l)) },
        some (Reply.out (some l)), [u]⟩ := by
  simp [tracerCacheStep, hf, GoMap.get, GoMap.set, hu, getTracersDB, hdb]

/-- A read of a key with an entry: no query, and the entry is sent. -/
theorem tracerCacheStep_inR_warm (getTracersDB : String → Except String (Option (List Request)))
    (Marshal : Option (List Request) → Except String String) (s : CacheState)
    (u : String) (l : List Request) (hu : s.tracers.get u = some l) :
    tracerCacheStep getTracersDB Marshal s (Msg.inR u) =
      Except.ok ⟨{ s with u := u }, some (Reply.out (some l)), []⟩ := by
  simp [tracerCacheStep, hu]

/-- A JSON read of a key without entry, on allocated maps. -/
theorem tracerCacheStep_inRJ_cold (Find : String → Except String (List Request))
    (Marshal : Option (List Request) → Except String String) (s : CacheState)
    (f : String → Option (List Request)) (g : String → Option String)
    (hf : s.tracers = some f) (hg : s.tracersJSON = some g) (u : String)
    (hu : f u = none) (l : List Request) (hdb : Find u = Except.ok l) :
    tracerCacheStep (getTracersDB Find) Marshal s (Msg.inRJ u) =
      Except.ok ⟨⟨u, some (Function.update f u (some l)),
          some (Function.update g u (encodeEntry Marshal (some l)))⟩,
        some (Reply.outJSON (some ((encodeEntry Marshal (some l)).getD ""))), [u]⟩ := by
  simp only [tracerCacheStep, hf, hg, GoMap.get, GoMap.set, hu, getTracersDB, hdb,
    Option.isNone_none, if_true, Function.update_same, marshalInto, encodeEntry]
  cases Marshal (some l) <;> simp [Except.map, Function.update_same]

/-- A JSON read of a key with an entry but without memoized encoding. -/
theorem tracerCacheStep_inRJ_encode (getTracersDB : String → Except String (Option (List Request)))
    (Marshal : Option (List Request) → Except String String) (s : CacheState)
    (f : String → Option (List Request)) (g : String → Option String)
    (hf : s.tracers = some f) (hg : s.tracersJSON = some g) (u : String)
    (l : List Request) (hu : f u = some l) (hj : g u = none) :
    tracerCacheStep getTracersDB Marshal s (Msg.inRJ u) =
      Except.ok ⟨⟨u, s.tracers,
          some (Function.update g u (encodeEntry Marshal (some l)))⟩,
        some (Reply.outJSON (some ((encodeEntry Marshal (some l)).getD ""))), []⟩ := by
  simp only [tracerCacheStep, hf, hg, GoMap.get, GoMap.set, hu, hj,
    Option.isNone_none, Option.isNone_some, if_true, Bool.false_eq_true, if_false,
    marshalInto, encodeEntry]
  cases Marshal (some l) <;> simp [Except.map, Function.update_same]

/-- A JSON read of a key with an entry and a memoized encoding. -/
theorem tracerCacheStep_inRJ_memo (getTracersDB : String → Except String (Option (List Request)))
    (Marshal : Option (List Request) → Except String String) (s : CacheState)
    (u : String) (l : List Request) (b : String)
    (hu : s.tracers.get u = some l) (hj : s.tracersJSON.get u = some b) :
    tracerCacheStep getTracersDB Marshal s (Msg.inRJ u) =
      Except.ok ⟨{ s with u := u }, some (Reply.outJSON (some b)), []⟩ := by
  simp [tracerCacheStep, hu, hj]

/-- A read on `nil` maps panics, whatever the database answers. -/
theorem tracerCacheStep_inR_nil (getTracersDB : String → Except String (Option (List Request)))
    (Marshal : Option (List Request) → Except String String) (s : CacheState)
    (hf : s.tracers = none) (u : String) :
    tracerCacheStep getTracersDB Marshal s (Msg.inR u) = Except.error Crash.nilMapWrite := by
  simp only [tracerCacheStep, hf, GoMap.get, GoMap.set, Option.isNone_none, if_true]
  cases getTracersDB u <;> rfl

theorem tracerCacheStep_inRJ_nil (getTracersDB : String → Except String (Option (List Request)))
    (Marshal : Option (List Request) → Except String String) (s : CacheState)
    (hf : s.tracers = none) (u : String) :
    tracerCacheStep getTracersDB Marshal s (Msg.inRJ u) = Except.error Crash.nilMapWrite := by
  simp only [tracerCacheStep, hf, GoMap.get, GoMap.set, Option.isNone_none, if_true]
  cases getTracersDB u <;> rfl

/-- The append branch on allocated maps. -/
theorem appendUpdate_allocated (Marshal : Option (List Request) → Except String String)
    (s : CacheState) (f : String → Option (List Request)) (g : String → Option String)
    (hf : s.tracers = some f) (hg : s.tracersJSON = some g) (r : Request) :
    appendUpdate Marshal s r =
      Except.ok ⟨{ s with
          tracers := some (Function.update f s.u (some ((f s.u).getD [] ++ [r]))),
          tracersJSON := some (Function.update g s.u
            (encodeEntry Marshal (some ((f s.u).getD [] ++ [r])))) }, none, []⟩ := by
  simp only [appendUpdate, hf, hg, GoMap.get, GoMap.set, Function.update_same, marshalInto,
    encodeEntry]
  cases Marshal (some ((f s.u).getD [] ++ [r])) <;> simp [Except.map]

/-- The append branch on a `nil` map panics. -/
theorem appendUpdate_nil (Marshal : Option (List Request) → Except String String)
    (s : CacheState) (h : s.tracers = none ∨ s.tracersJSON = none) (r : Request) :
    appendUpdate Marshal s r = Except.error Crash.nilMapWrite := by
  unfold appendUpdate
  cases hT : s.tracers with
  | none => simp [GoMap.set]
  | some f =>
    have hj : s.tracersJSON = none := by
      rcases h with h | h
      · rw [hT] at h; cases h
      · exact h
    simp [GoMap.set, hj, marshalInto_none]

end common

/-! ## Properties of the reads -/

namespace common

/-- What a JSON read that returns leaves behind: allocated maps, the key `u`,
an entry for `u`, and a memoized encoding that is absent only when the
encoding of the entry fails; what it sent is that memoized encoding, or the
empty byte sequence. -/
theorem tracerCacheStep_inRJ_ok (Find : String → Except String (List Request))
    (Marshal : Option (List Request) → Except String String) (s : CacheState) (u : String)
    (r : StepResult)
    (h : tracerCacheStep (getTracersDB Find) Marshal s (Msg.inRJ u) = Except.ok r) :
    ∃ f g l, r.state.u = u ∧ r.state.tracers = some f ∧ r.state.tracersJSON = some g
      ∧ f u = some l ∧ (g u = none → encodeEntry Marshal (some l) = none)
      ∧ r.reply = some (Reply.outJSON (some ((g u).getD ""))) := by
  cases hT : s.tracers with
  | none =>
    rw [tracerCacheStep_inRJ_nil _ _ _ hT] at h
    cases h
  | some f =>
    cases hJ : s.tracersJSON with
    | none =>
      exfalso
      simp only [tracerCacheStep, hT, hJ, GoMap.get, GoMap.set, getTracersDB,
        Option.isNone_none] at h
      cases hfu : f u with
      | none =>
        simp only [hfu, Option.isNone_none, if_true] at h
        cases hdb : Find u with
        | error e => simp [hdb] at h
        | ok l => simp [hdb, marshalInto_none] at h
      | some l =>
        simp [hfu, marshalInto_none] at h
    | some g =>
      cases hfu : f u with
      | none =>
        cases hdb : Find u with
        | error e =>
          simp [tracerCacheStep, hT, GoMap.get, GoMap.set, getTracersDB, hfu, hdb] at h
        | ok l =>
          rw [tracerCacheStep_inRJ_cold Find Marshal s f g hT hJ u hfu l hdb] at h
          cases h
          exact ⟨_, _, l, rfl, rfl, rfl, Function.update_same _ _ _,
            by simp [Function.update_same], by simp [Function.update_same]⟩
      | some l =>
        cases hgu : g u with
        | none =>
          rw [tracerCacheStep_inRJ_encode _ Marshal s f g hT hJ u l hfu hgu] at h
          cases h
          exact ⟨f, _, l, rfl, hT, rfl, hfu, by simp [Function.update_same],
            by simp [Function.update_same]⟩
        | some b =>
          rw [tracerCacheStep_inRJ_memo _ Marshal s u l b (by simp [GoMap.get, hT, hfu])
            (by simp [GoMap.get, hJ, hgu])] at h
          cases h
          exact ⟨f, g, l, rfl, hT, hJ, hfu, by simp [hgu], by simp [hgu]⟩

/-- A JSON read in a state that a JSON read of the same key left: nothing
changes, nothing is queried, and the same bytes are sent. -/
theorem tracerCacheStep_inRJ_settled
    (getTracersDB : String → Except String (Option (List Request)))
    (Marshal : Option (List Request) → Except String String) (s : CacheState)
    (f : String → Option (List Request)) (g : String → Option String)
    (hf : s.tracers = some f) (hg : s.tracersJSON = some g) (u : String) (hu : s.u = u)
    (l : List Request) (hfu : f u = some l)
    (hgu : g u = none → encodeEntry Marshal (some l) = none) :
    tracerCacheStep getTracersDB Marshal s (Msg.inRJ u) =
      Except.ok ⟨s, some (Reply.outJSON (some ((g u).getD ""))), []⟩ := by
  obtain ⟨u', tracers, tracersJSON⟩ := s
  simp only at hf hg hu
  subst hf hg hu
  cases hj : g u' with
  | none =>
    rw [tracerCacheStep_inRJ_encode _ Marshal _ f g rfl rfl u' l hfu hj, hgu hj]
    have hupd : Function.update g u' none = g := by
      rw [← hj]; exact Function.update_eq_self u' g
    simp [hupd]
  | some b =>
    rw [tracerCacheStep_inRJ_memo _ Marshal _ u' l b (by simp [GoMap.get, hfu])
      (by simp [GoMap.get, hj])]
    simp

/-- C14: when a JSON read returns, a second JSON read of the same key right
after it returns the same bytes, leaves the state exactly as the first one
left it and does not query the database, whatever the state before the first
read and whatever the database holds by then.  The first read does return in
every state with allocated maps when the key has an entry or the query
succeeds (after `Clear` the maps are `nil` and it panics). -/
theorem tracerCache_ReadJSON_twice (Find₁ Find₂ : String → Except String (List Request))
    (Marshal : Option (List Request) → Except String String) (s : CacheState) (u : String) :
    (∀ r₁, tracerCacheStep (getTracersDB Find₁) Marshal s (Msg.inRJ u) = Except.ok r₁ →
        tracerCacheStep (getTracersDB Find₂) Marshal r₁.state (Msg.inRJ u) =
          Except.ok ⟨r₁.state, r₁.reply, []⟩)
      ∧ (∀ f g, s.tracers = some f → s.tracersJSON = some g →
          (f u ≠ none ∨ ∃ l, Find₁ u = Except.ok l) →
          ∃ r₁, tracerCacheStep (getTracersDB Find₁) Marshal s (Msg.inRJ u) = Except.ok r₁) := by
  constructor
  · intro r₁ h
    obtain ⟨f, g, l, hu, hf, hg, hfu, hgu, hreply⟩ :=
      tracerCacheStep_inRJ_ok Find₁ Marshal s u r₁ h
    rw [hreply]
    exact tracerCacheStep_inRJ_settled _ Marshal r₁.state f g hf hg u hu l hfu hgu
  · intro f g hf hg hload
    cases hfu : f u with
    | none =>
      rcases hload with hne | ⟨l, hdb⟩
      · exact absurd hfu hne
      · exact ⟨_, tracerCacheStep_inRJ_cold Find₁ Marshal s f g hf hg u hfu l hdb⟩
    | some l =>
      cases hgu : g u with
      | none => exact ⟨_, tracerCacheStep_inRJ_encode _ Marshal s f g hf hg u l hfu hgu⟩
      | some b =>
        exact ⟨_, tracerCacheStep_inRJ_memo _ Marshal s u l b (by simp [GoMap.get, hf, hfu])
          (by simp [GoMap.get, hg, hgu])⟩

theorem tracerCache_ReadJSON_twice_witness :
    ∃ r₁, tracerCacheStep (getTracersDB demoFind) demoMarshal CacheState.init (Msg.inRJ "A") =
          Except.ok r₁
      ∧ r₁.reply = some (Reply.outJSON (some "[1]"))
      ∧ tracerCacheStep (getTracersDB (fun _ => Except.ok [])) demoMarshal r₁.state
          (Msg.inRJ "A") = Except.ok ⟨r₁.state, r₁.reply, []⟩ :=
  ⟨_, rfl, rfl,
    (tracerCache_ReadJSON_twice demoFind (fun _ => Except.ok []) demoMarshal CacheState.init
      "A").1 _ rfl⟩

/-- C15 on the code: `Clear` leaves both maps `nil`, so that they read as
empty, and the next read of any key, after it has queried the database,
assigns to an entry of the `nil` map and panics instead of returning the rows
found; so does the next JSON read, whatever the database answers. -/
theorem tracerCache_read_after_Clear_panics
    (getTracersDB : String → Except String (Option (List Request)))
    (Marshal : Option (List Request) → Except String String) (s : CacheState) (v : Int)
    (u : String) :
    (∃ s', tracerCacheStep getTracersDB Marshal s (Msg.inClear v) = Except.ok ⟨s', none, []⟩
        ∧ s'.tracers = none ∧ s'.tracersJSON = none
        ∧ (∀ k, s'.tracers.get k = none ∧ s'.tracersJSON.get k = none)
        ∧ tracerCacheStep getTracersDB Marshal s' (Msg.inR u) = Except.error Crash.nilMapWrite
        ∧ tracerCacheStep getTracersDB Marshal s' (Msg.inRJ u) =
            Except.error Crash.nilMapWrite)
      ∧ tracerCacheRun demoDBAfter demoMarshal CacheState.init
          [Msg.inR "A", Msg.inClear (-1), Msg.inR "A"] = Except.error Crash.nilMapWrite := by
  refine ⟨⟨{ s with tracers := none, tracersJSON := none }, rfl, rfl, rfl,
    fun _ => ⟨rfl, rfl⟩, ?_, ?_⟩, rfl⟩
  · exact tracerCacheStep_inR_nil _ _ _ rfl u
  · exact tracerCacheStep_inRJ_nil _ _ _ rfl u

/-- Reading through on allocated maps: a read of a key without entry makes exactly one
query, for that key, installs the rows found under the key and sends them; a
second read of the key right after it makes no query, changes nothing and
sends the same rows, whatever the database holds by then, and also when no row
was found. -/
theorem tracerCache_read_through (Find Find' : String → Except String (List Request))
    (Marshal : Option (List Request) → Except String String) (s : CacheState)
    (f : String → Option (List Request)) (hf : s.tracers = some f) (u : String)
    (hu : f u = none) (l : List Request) (hdb : Find u = Except.ok l) :
    ∃ s₁, tracerCacheStep (getTracersDB Find) Marshal s (Msg.inR u) =
          Except.ok ⟨s₁, some (Reply.out (some l)), [u]⟩
      ∧ s₁.tracers.get u = some l
      ∧ (∀ k, k ≠ u → s₁.tracers.get k = s.tracers.get k)
      ∧ s₁.tracersJSON = s.tracersJSON
      ∧ tracerCacheStep (getTracersDB Find') Marshal s₁ (Msg.inR u) =
          Except.ok ⟨s₁, some (Reply.out (some l)), []⟩ := by
  refine ⟨_, tracerCacheStep_inR_cold Find Marshal s f hf u hu l hdb, ?_, ?_, rfl, ?_⟩
  · simp [GoMap.get]
  · intro k hk
    simp [GoMap.get, hf, Function.update_noteq hk]
  · rw [tracerCacheStep_inR_warm _ Marshal _ u l (by simp [GoMap.get])]

theorem tracerCache_read_through_witness :
    CacheState.init.tracers = some (fun _ => none)
      ∧ demoFind "B" = Except.ok []
      ∧ ∃ s₁, tracerCacheStep (getTracersDB demoFind) demoMarshal CacheState.init (Msg.inR "B") =
            Except.ok ⟨s₁, some (Reply.out (some [])), ["B"]⟩
          ∧ tracerCacheStep (getTracersDB (fun _ => Except.ok [demoRequestA])) demoMarshal s₁
              (Msg.inR "B") = Except.ok ⟨s₁, some (Reply.out (some [])), []⟩ :=
  ⟨rfl, rfl,
    (tracerCache_read_through demoFind (fun _ => Except.ok [demoRequestA]) demoMarshal
      CacheState.init (fun _ => none) rfl "B" rfl [] rfl).imp
      fun _ h => ⟨h.1, h.2.2.2.2⟩⟩

/-- C16: the failing input.  After `Clear` both maps are `nil`: every session
is absent from the cache, and a read of any session, after its query has found
the rows, assigns the entry of the `nil` map and panics; nothing is installed
and nothing is returned.  From the initial state the read of `"B"` answers
twice, the second time from the cache; with a `Clear` before it the first read
ends the process. -/
theorem tracerCache_read_through_fails_after_Clear
    (Find : String → Except String (List Request))
    (Marshal : Option (List Request) → Except String String) (s : CacheState) (v : Int)
    (u : String) :
    (∃ s', tracerCacheStep (getTracersDB Find) Marshal s (Msg.inClear v) =
          Except.ok ⟨s', none, []⟩
        ∧ s'.tracers.get u = none
        ∧ (∀ l, Find u = Except.ok l →
            tracerCacheStep (getTracersDB Find) Marshal s' (Msg.inR u) =
              Except.error Crash.nilMapWrite))
      ∧ (∃ s₂, tracerCacheRun (getTracersDB demoFind) demoMarshal CacheState.init
            [Msg.inR "B", Msg.inR "B"] =
          Except.ok (s₂, [Reply.out (some []), Reply.out (some [])]))
      ∧ tracerCacheRun (getTracersDB demoFind) demoMarshal CacheState.init
            [Msg.inClear 0, Msg.inR "B"] = Except.error Crash.nilMapWrite
      ∧ tracerCacheRun (getTracersDB demoFind) demoMarshal CacheState.init
            [Msg.inR "B", Msg.inClear 0, Msg.inR "B"] = Except.error Crash.nilMapWrite := by
  refine ⟨⟨{ s with tracers := none, tracersJSON := none }, rfl, rfl, fun l _ => ?_⟩,
    ⟨_, rfl⟩, rfl, rfl⟩
  exact tracerCacheStep_inR_nil _ _ _ rfl u

/-- C19: on allocated maps, when the encoding of the entry of the key fails
during a JSON read (after a load, or for an entry without memoized encoding),
the read ends normally, sends the empty byte sequence and leaves no memoized
encoding for the key, the entry itself and the encodings of other keys being
kept; the next JSON read encodes again: it sends the encoding and memoizes it
if the encoder then succeeds, and sends the empty sequence again if not. -/
theorem tracerCache_ReadJSON_encoding_failure (Find : String → Except String (List Request))
    (Marshal : Option (List Request) → Except String String) (s : CacheState)
    (f : String → Option (List Request)) (g : String → Option String)
    (hf : s.tracers = some f) (hg : s.tracersJSON = some g) (u : String) (l : List Request)
    (e : String)
    (hcase : (f u = none ∧ Find u = Except.ok l) ∨ (f u = some l ∧ g u = none))
    (hfail : Marshal (some l) = Except.error e) :
    ∃ s' qs, tracerCacheStep (getTracersDB Find) Marshal s (Msg.inRJ u) =
          Except.ok ⟨s', some (Reply.outJSON (some "")), qs⟩
      ∧ s'.tracersJSON.get u = none
      ∧ s'.tracers.get u = some l
      ∧ (∀ k, k ≠ u → s'.tracersJSON.get k = s.tracersJSON.get k)
      ∧ (∀ (getTracersDB' : String → Except String (Option (List Request)))
            (Marshal' : Option (List Request) → Except String String) (b : String),
          Marshal' (some l) = Except.ok b →
          ∃ s'', tracerCacheStep getTracersDB' Marshal' s' (Msg.inRJ u) =
              Except.ok ⟨s'', some (Reply.outJSON (some b)), []⟩
            ∧ s''.tracersJSON.get u = some b)
      ∧ (∀ getTracersDB' : String → Except String (Option (List Request)),
          tracerCacheStep getTracersDB' Marshal s' (Msg.inRJ u) =
            Except.ok ⟨s', some (Reply.outJSON (some "")), []⟩) := by
  have henc : encodeEntry Marshal (some l) = none := by simp [encodeEntry, hfail]
  have key : ∀ (s' : CacheState) (f' : String → Option (List Request)),
      s'.u = u → s'.tracers = some f' → f' u = some l →
      s'.tracersJSON = some (Function.update g u none) →
      s'.tracersJSON.get u = none
        ∧ s'.tracers.get u = some l
        ∧ (∀ k, k ≠ u → s'.tracersJSON.get k = s.tracersJSON.get k)
        ∧ (∀ (getTracersDB' : String → Except String (Option (List Request)))
              (Marshal' : Option (List Request) → Except String String) (b : String),
            Marshal' (some l) = Except.ok b →
            ∃ s'', tracerCacheStep getTracersDB' Marshal' s' (Msg.inRJ u) =
                Except.ok ⟨s'', some (Reply.outJSON (some b)), []⟩
              ∧ s''.tracersJSON.get u = some b)
        ∧ (∀ getTracersDB' : String → Except String (Option (List Request)),
            tracerCacheStep getTracersDB' Marshal s' (Msg.inRJ u) =
              Except.ok ⟨s', some (Reply.outJSON (some "")), []⟩) := by
    intro s' f' hu' hf' hfu' hg'
    have hgu' : Function.update g u none u = none := Function.update_same _ _ _
    refine ⟨by simp [GoMap.get, hg'], by simp [GoMap.get, hf', hfu'], ?_, ?_, ?_⟩
    · intro k hk
      simp [GoMap.get, hg', hg, Function.update_noteq hk]
    · intro db' M' b hb
      have hb' : encodeEntry M' (some l) = some b := (encodeEntry_eq_some M' _ b).mpr hb
      rw [tracerCacheStep_inRJ_encode db' M' s' f' _ hf' hg' u l hfu' hgu', hb']
      exact ⟨_, rfl, by simp [GoMap.get]⟩
    · intro db'
      have h := tracerCacheStep_inRJ_settled db' Marshal s' f' _ hf' hg' u hu' l hfu'
        (fun _ => henc)
      rw [hgu'] at h
      exact h
  rcases hcase with ⟨hfu, hdb⟩ | ⟨hfu, hgu⟩
  · refine ⟨⟨u, some (Function.update f u (some l)), some (Function.update g u none)⟩, [u],
      ?_, key _ (Function.update f u (some l)) rfl rfl (Function.update_same _ _ _) rfl⟩
    rw [tracerCacheStep_inRJ_cold Find Marshal s f g hf hg u hfu l hdb, henc]
    rfl
  · refine ⟨⟨u, s.tracers, some (Function.update g u none)⟩, [], ?_, key _ f rfl hf hfu rfl⟩
    rw [tracerCacheStep_inRJ_encode _ Marshal s f g hf hg u l hfu hgu, henc]
    rfl

theorem tracerCache_ReadJSON_encoding_failure_witness :
    ∃ s' qs, tracerCacheStep (getTracersDB demoFind) demoFailingMarshal CacheState.init
          (Msg.inRJ "A") = Except.ok ⟨s', some (Reply.outJSON (some "")), qs⟩
      ∧ s'.tracersJSON.get "A" = none
      ∧ s'.tracers.get "A" = some [demoRequest0] :=
  (tracerCache_ReadJSON_encoding_failure demoFind demoFailingMarshal CacheState.init
    (fun _ => none) (fun _ => none) rfl rfl "A" [demoRequest0] "json: unsupported value"
    (Or.inl ⟨rfl, rfl⟩) rfl).imp fun _ h => h.imp fun _ h' => ⟨h'.1, h'.2.1, h'.2.2.1⟩

end common

/-! ## The two models on an update -/

namespace common

theorem isScreenshotUpdate_load (mem : TracerMem) (r : RequestRef) :
    isScreenshotUpdate (r.load mem) = isScreenshotUpdateMem mem r := by
  unfold isScreenshotUpdate isScreenshotUpdateMem RequestRef.load
  cases r.Tracers <;> rfl

theorem matchesRequests_loadAll (r0 : Tracer) (mem : TracerMem) (l : List RequestRef) :
    matchesRequests r0 (loadAll mem l) = matchesCells r0 (cellsOf l) mem := by
  induction l with
  | nil => rfl
  | cons req l ih =>
    have hcells : cellsOf (req :: l) = req.Tracers ++ cellsOf l := by simp [cellsOf]
    have hhere : ∀ cs : List Nat, ((cs.map mem).any fun t => decide (r0.ID = t.ID)) =
        cs.any fun c => decide (r0.ID = (mem c).ID) := by
      intro cs
      induction cs with
      | nil => rfl
      | cons c cs ihc => simp [ihc]
    rw [hcells, matchesCells_append, ← ih]
    simp [matchesRequests, matchesTracers, matchesCells, loadAll, RequestRef.load, hhere]

theorem MemState.view_get (s : MemState) (k : String) :
    s.view.tracers.get k = (s.tracers.get k).map (loadAll s.mem) := by
  unfold MemState.view GoMap.get
  cases s.tracers <;> rfl

/-- An update in the two models.  When no tracer that the update writes is held
by a request cached under another key, the first model, on the state as it
sees it, makes the step that the second makes. -/
theorem tracerCacheStepMem_inU_view
    (getTracersDB : TracerMem → String → Except String (Option (List RequestRef) × TracerMem))
    (getTracersDB' : String → Except String (Option (List Request)))
    (Marshal : Option (List Request) → Except String String) (s : MemState) (r : RequestRef)
    (res : MemStepResult)
    (h : tracerCacheStepMem getTracersDB Marshal s (MemMsg.inU r) = Except.ok res)
    (hsep : ∀ k l, k ≠ s.u → s.tracers.get k = some l →
      ∀ c ∈ cellsOf l, c ∈ cellsOf ((s.tracers.get s.u).getD []) →
        ∀ c0 ∈ r.Tracers.head?, (s.mem c0).ID ≠ (s.mem c).ID) :
    tracerCacheStep getTracersDB' Marshal s.view (Msg.inU (r.load s.mem)) =
      Except.ok ⟨res.state.view, none, []⟩ := by
  cases hshot : isScreenshotUpdateMem s.mem r with
  | false =>
    rw [tracerCacheStepMem_inU_append _ Marshal s r hshot] at h
    rw [tracerCacheStep_inU_append _ Marshal _ _ ((isScreenshotUpdate_load s.mem r).trans hshot)]
    cases hT : s.tracers with
    | none =>
      rw [appendUpdateMem_nil Marshal s (Or.inl hT)] at h
      cases h
    | some f =>
      cases hJ : s.tracersJSON with
      | none =>
        rw [appendUpdateMem_nil Marshal s (Or.inr hJ)] at h
        cases h
      | some g =>
        rw [appendUpdateMem_allocated Marshal s f g hT hJ] at h
        cases h
        rw [appendUpdate_allocated Marshal s.view (fun k => (f k).map (loadAll s.mem)) g
          (by simp [MemState.view, hT]) (by simp [MemState.view, hJ])]
        have hl : loadAll s.mem ((f s.u).getD [] ++ [r]) =
            ((f s.u).map (loadAll s.mem)).getD [] ++ [r.load s.mem] := by
          cases f s.u <;> simp [loadAll]
        have hu : s.view.u = s.u := rfl
        simp only [hu, hl, MemState.view, Option.map_some']
        congr 4
        funext k
        by_cases hk : k = s.u
        · subst hk; simp [hl]
        · simp [Function.update_noteq hk]
  | true =>
    obtain ⟨c0, rest, hT0, h0⟩ := (isScreenshotUpdateMem_iff s.mem r).mp hshot
    have hload : (r.load s.mem).Tracers = s.mem c0 :: rest.map s.mem := by
      simp [RequestRef.load, hT0]
    rw [tracerCacheStep_inU_patch _ Marshal s.view _ _ _ hload h0]
    cases hc : s.tracers.get s.u with
    | none =>
      rw [tracerCacheStepMem_inU_patch_none _ Marshal s r c0 rest hT0 h0 hc] at h
      cases h
      exact patchUpdate_of_no_match Marshal s.view _
        (by rw [MemState.view_get]; simp [show s.view.u = s.u from rfl, hc, matchesRequests])
    | some cached =>
      have hmatch := matchesRequests_loadAll (s.mem c0) s.mem cached
      cases hJ : s.tracersJSON with
      | none =>
        rw [tracerCacheStepMem_inU_patch_nil _ Marshal s r c0 rest hT0 h0 cached hc hJ] at h
        split_ifs at h with hm
        cases h
        exact patchUpdate_of_no_match Marshal s.view _
          (by
            rw [MemState.view_get]
            simp only [show s.view.u = s.u from rfl, hc, Option.map_some', Option.getD_some,
              hmatch]
            simpa using hm)
      | some g =>
        rw [tracerCacheStepMem_inU_patch_some _ Marshal s r c0 rest hT0 h0 cached hc g hJ] at h
        cases h
        obtain ⟨f, hf⟩ : ∃ f, s.tracers = some f := by
          cases hT : s.tracers with
          | none => rw [hT] at hc; cases hc
          | some f => exact ⟨f, rfl⟩
        have hfu : f s.u = some cached := by simpa [GoMap.get, hf] using hc
        rw [patchUpdate_allocated Marshal s.view (fun k => (f k).map (loadAll s.mem)) g
          (by simp [MemState.view, hf]) (by simp [MemState.view, hJ]) (s.mem c0)
          (loadAll s.mem cached) (by simp [show s.view.u = s.u from rfl, hfu])]
        have hpatched := loadAll_patchMem (s.mem c0) (cellsOf cached) s.mem cached
          (fun _ hcell => hcell)
        have hu : s.view.u = s.u := rfl
        simp only [hu, MemState.view, hf, Option.map_some', hmatch, hpatched]
        congr 4
        funext k
        by_cases hk : k = s.u
        · subst hk; simp [hfu, hpatched]
        · rw [Function.update_noteq hk]
          cases hfk : f k with
          | none => rfl
          | some l =>
            simp only [Option.map_some', Option.some.injEq]
            symm
            apply loadAll_patchMem_frame
            intro c hcl hcu
            exact hsep k l hk (by simp [GoMap.get, hf, hfk]) c hcl (by simpa [hc] using hcu) c0
              (by simp [hT0])

end common

/-! ## The key of an update, and the memoized encoding -/

namespace common

/-- An update that returns keeps the key `u`, sends nothing and queries
nothing; it assigns no entry of either map under another key and writes no
cell but those of the requests cached under `u`. -/
theorem tracerCacheStepMem_inU_frame
    (getTracersDB : TracerMem → String → Except String (Option (List RequestRef) × TracerMem))
    (Marshal : Option (List Request) → Except String String) (s : MemState) (r : RequestRef)
    (res : MemStepResult)
    (h : tracerCacheStepMem getTracersDB Marshal s (MemMsg.inU r) = Except.ok res) :
    res.state.u = s.u ∧ res.reply = none ∧ res.queries = []
      ∧ (∀ k, k ≠ s.u → res.state.tracers.get k = s.tracers.get k ∧
          res.state.tracersJSON.get k = s.tracersJSON.get k)
      ∧ (∀ c, c ∉ cellsOf ((s.tracers.get s.u).getD []) → res.state.mem c = s.mem c) := by
  cases hshot : isScreenshotUpdateMem s.mem r with
  | false =>
    rw [tracerCacheStepMem_inU_append _ Marshal s r hshot] at h
    cases hT : s.tracers with
    | none =>
      rw [appendUpdateMem_nil Marshal s (Or.inl hT)] at h
      cases h
    | some f =>
      cases hJ : s.tracersJSON with
      | none =>
        rw [appendUpdateMem_nil Marshal s (Or.inr hJ)] at h
        cases h
      | some g =>
        rw [appendUpdateMem_allocated Marshal s f g hT hJ] at h
        cases h
        refine ⟨rfl, rfl, rfl, fun k hk => ?_, fun _ _ => rfl⟩
        simp [GoMap.get, Function.update_noteq hk]
  | true =>
    obtain ⟨c0, rest, hT0, h0⟩ := (isScreenshotUpdateMem_iff s.mem r).mp hshot
    cases hc : s.tracers.get s.u with
    | none =>
      rw [tracerCacheStepMem_inU_patch_none _ Marshal s r c0 rest hT0 h0 hc] at h
      cases h
      exact ⟨rfl, rfl, rfl, fun _ _ => ⟨rfl, rfl⟩, fun _ _ => rfl⟩
    | some cached =>
      cases hJ : s.tracersJSON with
      | none =>
        rw [tracerCacheStepMem_inU_patch_nil _ Marshal s r c0 rest hT0 h0 cached hc hJ] at h
        split_ifs at h
        cases h
        exact ⟨rfl, rfl, rfl, fun _ _ => ⟨rfl, by rw [hJ]⟩, fun _ _ => rfl⟩
      | some g =>
        rw [tracerCacheStepMem_inU_patch_some _ Marshal s r c0 rest hT0 h0 cached hc g hJ] at h
        cases h
        refine ⟨rfl, rfl, rfl, fun k hk => ⟨rfl, ?_⟩, fun c hcell => ?_⟩
        · simp only [GoMap.get]
          split_ifs
          · exact Function.update_noteq hk _ _
          · rfl
        · simp only [Option.getD_some] at hcell
          simp [patchMem, hcell]

/-- The key `u` after one iteration that does not end the process. -/
theorem tracerCacheStepMem_key
    (getTracersDB : TracerMem → String → Except String (Option (List RequestRef) × TracerMem))
    (Marshal : Option (List Request) → Except String String) (s : MemState) (m : MemMsg)
    (r : MemStepResult) (h : tracerCacheStepMem getTracersDB Marshal s m = Except.ok r) :
    r.state.u = lastReadKeyMem s.u [m] := by
  cases m with
  | inClear v =>
    simp only [tracerCacheStepMem] at h
    cases h
    rfl
  | inU req => exact (tracerCacheStepMem_inU_frame getTracersDB Marshal s req r h).1
  | inR u =>
    simp only [lastReadKeyMem]
    unfold tracerCacheStepMem at h
    by_cases hn : (s.tracers.get u).isNone = true
    · simp only [hn, if_true] at h
      cases hdb : getTracersDB s.mem u with
      | error e =>
        simp only [hdb] at h
        cases hs : s.tracers.set u none <;> simp [hs] at h
      | ok p =>
        obtain ⟨reqs, mem'⟩ := p
        simp only [hdb] at h
        cases hs : s.tracers.set u reqs with
        | error c => simp [hs] at h
        | ok t' =>
          simp only [hs] at h
          cases h
          rfl
    · simp only [hn] at h
      cases h
      rfl
  | inRJ u =>
    simp only [lastReadKeyMem]
    unfold tracerCacheStepMem at h
    by_cases hn : (s.tracers.get u).isNone = true
    · simp only [hn, if_true] at h
      cases hdb : getTracersDB s.mem u with
      | error e =>
        simp only [hdb] at h
        cases hs : s.tracers.set u none <;> simp [hs] at h
      | ok p =>
        obtain ⟨reqs, mem'⟩ := p
        simp only [hdb] at h
        cases hs : s.tracers.set u reqs with
        | error c => simp [hs] at h
        | ok t' =>
          simp only [hs] at h
          cases hmi : marshalInto Marshal s.tracersJSON u ((GoMap.get t' u).map (loadAll mem')) with
          | error c => simp [hmi] at h
          | ok p =>
            obtain ⟨j, b⟩ := p
            cases b <;> (simp only [hmi] at h; cases h; rfl)
    · simp only [hn] at h
      by_cases hj : (s.tracersJSON.get u).isNone = true
      · simp only [hj, if_true] at h
        cases hmi : marshalInto Marshal s.tracersJSON u ((s.tracers.get u).map (loadAll s.mem)) with
        | error c => simp [hmi] at h
        | ok p =>
          obtain ⟨j, b⟩ := p
          cases b <;> (simp only [hmi] at h; cases h; rfl)
      · simp only [hj] at h
        cases h
        rfl

theorem lastReadKeyMem_cons (u₀ : String) (m : MemMsg) (ms : List MemMsg) :
    lastReadKeyMem u₀ (m :: ms) = lastReadKeyMem (lastReadKeyMem u₀ [m]) ms := by
  cases m <;> rfl

theorem tracerCacheRunMem_key (Marshal : Option (List Request) → Except String String)
    (steps : List ((TracerMem → TracerMem) ×
      (TracerMem → String → Except String (Option (List RequestRef) × TracerMem)) × MemMsg)) :
    ∀ (s s' : MemState) (replies : List Reply),
      tracerCacheRunMem Marshal s steps = Except.ok (s', replies) →
      s'.u = lastReadKeyMem s.u (steps.map fun step => step.2.2) := by
  induction steps with
  | nil =>
    intro s s' replies h
    simp only [tracerCacheRunMem] at h
    cases h
    rfl
  | cons step steps ih =>
    intro s s' replies h
    unfold tracerCacheRunMem at h
    cases hstep : tracerCacheStepMem step.2.1 Marshal { s with mem := step.1 s.mem } step.2.2 with
    | error c => simp [hstep] at h
    | ok r =>
      simp only [hstep] at h
      cases hrun : tracerCacheRunMem Marshal r.state steps with
      | error c => simp [hrun] at h
      | ok p =>
        obtain ⟨s₂, replies₂⟩ := p
        simp only [hrun, Except.ok.injEq, Prod.mk.injEq] at h
        have hk := tracerCacheStepMem_key step.2.1 Marshal _ step.2.2 r hstep
        simp only at hk
        rw [List.map_cons, lastReadKeyMem_cons, ← hk, ← h.1]
        exact ih r.state s₂ replies₂ hrun

/-- C20: after any run of messages, whatever the database answers and whatever
the rest of the program writes to memory along the run, the key `u` that the
loop holds is the key of the last read or JSON read of the run (the empty
string at first).  An update acts on the entry of that key, whatever the
request carries, its session `UUID` included: it never changes `u`, assigns no
entry of either map under another key and writes no tracer but those of the
requests cached under `u`; on allocated maps an appending update puts its
request at the end of the entry of `u` and stores the encoding of that entry
under `u`, and an update that takes the screenshot branch overwrites the
screenshot of exactly the tracers of the entry of `u` that have the ID of its
first tracer; so two updates in a row act on the same key. -/
theorem tracerCache_update_key
    (Marshal : Option (List Request) → Except String String) (mem₀ : TracerMem)
    (steps : List ((TracerMem → TracerMem) ×
      (TracerMem → String → Except String (Option (List RequestRef) × TracerMem)) × MemMsg))
    (s : MemState) (replies : List Reply)
    (hrun : tracerCacheRunMem Marshal (MemState.init mem₀) steps = Except.ok (s, replies)) :
    s.u = lastReadKeyMem "" (steps.map fun step => step.2.2)
      ∧ (∀ getTracersDB r res,
          tracerCacheStepMem getTracersDB Marshal s (MemMsg.inU r) = Except.ok res →
          res.state.u = s.u
            ∧ (∀ k, k ≠ s.u → res.state.tracers.get k = s.tracers.get k ∧
                res.state.tracersJSON.get k = s.tracersJSON.get k)
            ∧ (∀ c, c ∉ cellsOf ((s.tracers.get s.u).getD []) → res.state.mem c = s.mem c))
      ∧ (∀ getTracersDB r f g, s.tracers = some f → s.tracersJSON = some g →
          isScreenshotUpdateMem s.mem r = false →
          ∃ res, tracerCacheStepMem getTracersDB Marshal s (MemMsg.inU r) = Except.ok res
            ∧ res.state.tracers.get s.u = some ((s.tracers.get s.u).getD [] ++ [r])
            ∧ res.state.tracersJSON.get s.u =
                encodeEntry Marshal (some (loadAll s.mem ((s.tracers.get s.u).getD [] ++ [r])))
            ∧ res.state.mem = s.mem)
      ∧ (∀ getTracersDB r c0 rest g, r.Tracers = c0 :: rest → (s.mem c0).RequestID = 0 →
          s.tracersJSON = some g →
          ∃ res, tracerCacheStepMem getTracersDB Marshal s (MemMsg.inU r) = Except.ok res
            ∧ res.state.tracers = s.tracers
            ∧ (∀ c, res.state.mem c =
                if c ∈ cellsOf ((s.tracers.get s.u).getD []) ∧ (s.mem c0).ID = (s.mem c).ID
                then { s.mem c with Screenshot := (s.mem c0).Screenshot } else s.mem c)
            ∧ (res.state.tracers.get s.u).map (loadAll res.state.mem) =
                ((s.tracers.get s.u).map (loadAll s.mem)).map
                  (List.map (patchRequest (s.mem c0))))
      ∧ (∀ getTracersDB getTracersDB' r₁ r₂ res₁ res₂,
          tracerCacheStepMem getTracersDB Marshal s (MemMsg.inU r₁) = Except.ok res₁ →
          tracerCacheStepMem getTracersDB' Marshal res₁.state (MemMsg.inU r₂) = Except.ok res₂ →
          res₁.state.u = s.u ∧ res₂.state.u = s.u ∧
          ∀ k, k ≠ s.u → res₂.state.tracers.get k = s.tracers.get k ∧
            res₂.state.tracersJSON.get k = s.tracersJSON.get k) := by
  refine ⟨tracerCacheRunMem_key Marshal steps _ s replies hrun, ?_, ?_, ?_, ?_⟩
  · intro db r res h
    have hfr := tracerCacheStepMem_inU_frame db Marshal s r res h
    exact ⟨hfr.1, hfr.2.2.2.1, hfr.2.2.2.2⟩
  · intro db r f g hf hg hshot
    rw [tracerCacheStepMem_inU_append _ Marshal s r hshot,
      appendUpdateMem_allocated Marshal s f g hf hg]
    exact ⟨_, rfl, by simp [GoMap.get, hf], by simp [GoMap.get, hf], rfl⟩
  · intro db r c0 rest g hT h0 hg
    cases hc : s.tracers.get s.u with
    | none =>
      rw [tracerCacheStepMem_inU_patch_none db Marshal s r c0 rest hT h0 hc]
      refine ⟨_, rfl, rfl, ?_, ?_⟩
      · intro c; simp [cellsOf]
      · simp [hc]
    | some cached =>
      rw [tracerCacheStepMem_inU_patch_some db Marshal s r c0 rest hT h0 cached hc g hg]
      refine ⟨_, rfl, rfl, ?_, ?_⟩
      · intro c
        simp only [Option.getD_some, patchMem]
      · simp only [hc, Option.map_some', Option.some.injEq]
        exact loadAll_patchMem _ _ _ cached (fun _ hcell => hcell)
  · intro db db' r₁ r₂ res₁ res₂ h₁ h₂
    have hfr₁ := tracerCacheStepMem_inU_frame db Marshal s r₁ res₁ h₁
    have hfr₂ := tracerCacheStepMem_inU_frame db' Marshal res₁.state r₂ res₂ h₂
    refine ⟨hfr₁.1, hfr₂.1.trans hfr₁.1, ?_⟩
    intro k hk
    have hk' : k ≠ res₁.state.u := by rw [hfr₁.1]; exact hk
    exact ⟨(hfr₂.2.2.2.1 k hk').1.trans (hfr₁.2.2.2.1 k hk).1,
      (hfr₂.2.2.2.1 k hk').2.trans (hfr₁.2.2.2.1 k hk).2⟩

theorem tracerCache_update_key_witness :
    ∃ s, tracerCacheRunMem demoMarshal (MemState.init demoMem)
          [(id, demoEmptyLoad, MemMsg.inR "A"), (id, demoEmptyLoad, MemMsg.inRJ "B"),
           (id, demoEmptyLoad, MemMsg.inU demoRefA)] =
        Except.ok (s, [Reply.out (some []), Reply.outJSON (some "[0]")])
      ∧ s.u = "B"
      ∧ demoRefA.UUID = "A"
      ∧ (s.tracers.get "B").map (loadAll s.mem) = some [demoRequestA]
      ∧ s.tracers.get "A" = some []
      ∧ ∃ res, tracerCacheStepMem demoEmptyLoad demoMarshal s (MemMsg.inU demoRefShot) =
            Except.ok res
          ∧ (res.state.tracers.get "B").map (loadAll res.state.mem) =
              some [{ demoRequestA with Tracers := [{ demoTracer with Screenshot := "shot.png" }] }] :=
  ⟨_, rfl,
    (tracerCache_update_key demoMarshal demoMem
      [(id, demoEmptyLoad, MemMsg.inR "A"), (id, demoEmptyLoad, MemMsg.inRJ "B"),
       (id, demoEmptyLoad, MemMsg.inU demoRefA)] _ _ rfl).1,
    rfl, rfl, rfl,
    ((tracerCache_update_key demoMarshal demoMem
      [(id, demoEmptyLoad, MemMsg.inR "A"), (id, demoEmptyLoad, MemMsg.inRJ "B"),
       (id, demoEmptyLoad, MemMsg.inU demoRefA)] _ _ rfl).2.2.2.1
        demoEmptyLoad demoRefShot 1 [] _ rfl rfl rfl).imp
      fun _ h => ⟨h.1, h.2.2.2.trans (by decide)⟩⟩

/-- A run goes on after an iteration that returns. -/
theorem tracerCacheRunMem_cons_ok (Marshal : Option (List Request) → Except String String)
    (s : MemState) (env : TracerMem → TracerMem)
    (getTracersDB : TracerMem → String → Except String (Option (List RequestRef) × TracerMem))
    (m : MemMsg)
    (steps : List ((TracerMem → TracerMem) ×
      (TracerMem → String → Except String (Option (List RequestRef) × TracerMem)) × MemMsg))
    (r : MemStepResult) (s' : MemState) (replies : List Reply)
    (h₁ : tracerCacheStepMem getTracersDB Marshal { s with mem := env s.mem } m = Except.ok r)
    (h₂ : tracerCacheRunMem Marshal r.state steps = Except.ok (s', replies)) :
    tracerCacheRunMem Marshal s ((env, getTracersDB, m) :: steps) =
      Except.ok (s', r.reply.toList ++ replies) := by
  rw [tracerCacheRunMem]
  simp only [h₁, h₂]

/-- C17: the failing run, for every encoder.  One request is appended twice,
under the keys `"A"` and `"B"` (the second time after a read of `"B"`), so both
cached copies hold the same tracers; a screenshot update that arrives while
the key is `"B"` writes the screenshot through the copy under `"B"` and
recomputes the encoding of `"B"` only.  Afterwards a read of `"A"` returns the
request with the new screenshot, while the memoized encoding of `"A"`, which a
JSON read of `"A"` returns, is still the encoding `b₀` of the request as it
was before the update. -/
theorem tracerCache_memoized_JSON_goes_stale
    (Marshal : Option (List Request) → Except String String) (b₀ : String)
    (h0 : Marshal (some [demoRequestA]) = Except.ok b₀) :
    ∃ s, tracerCacheRunMem Marshal (MemState.init demoMem)
          [(id, demoEmptyLoad, MemMsg.inR "A"), (id, demoEmptyLoad, MemMsg.inU demoRefA),
           (id, demoEmptyLoad, MemMsg.inR "B"), (id, demoEmptyLoad, MemMsg.inU demoRefA),
           (id, demoEmptyLoad, MemMsg.inU demoRefShot)] =
        Except.ok (s, [Reply.out (some []), Reply.out (some [])])
      ∧ (∃ s', tracerCacheStepMem demoEmptyLoad Marshal s (MemMsg.inR "A") =
          Except.ok ⟨s', some (Reply.out (some
            [{ demoRequestA with Tracers := [{ demoTracer with Screenshot := "shot.png" }] }])),
            []⟩)
      ∧ (∃ s', tracerCacheStepMem demoEmptyLoad Marshal s (MemMsg.inRJ "A") =
          Except.ok ⟨s', some (Reply.outJSON (some b₀)), []⟩)
      ∧ s.tracersJSON.get "A" = some b₀
      ∧ s.tracersJSON.get "B" = encodeEntry Marshal (some
          [{ demoRequestA with Tracers := [{ demoTracer with Screenshot := "shot.png" }] }]) := by
  have hA : loadAll demoMem [demoRefA] = [demoRequestA] := by decide
  have hm : Marshal (some (loadAll demoMem [demoRefA])) = Except.ok b₀ := by rw [hA]; exact h0
  have hshotA : isScreenshotUpdateMem demoMem demoRefA = false := by decide
  -- the read of "A"
  have e1 : tracerCacheStepMem demoEmptyLoad Marshal (MemState.init demoMem) (MemMsg.inR "A") =
      Except.ok ⟨⟨"A", some (Function.update (fun _ => none) "A" (some [])), some (fun _ => none),
          demoMem⟩, some (Reply.out (some [])), ["A"]⟩ := rfl
  -- the request is appended under "A"
  have e2 : tracerCacheStepMem demoEmptyLoad Marshal ⟨"A", some (Function.update (fun _ => none)
      "A" (some [])), some (fun _ => none), demoMem⟩ (MemMsg.inU demoRefA) =
      Except.ok ⟨⟨"A", some (Function.update (Function.update (fun _ => none) "A" (some [])) "A"
          (some [demoRefA])), some (Function.update (fun _ => none) "A" (some b₀)), demoMem⟩, none,
          []⟩ := by
    rw [tracerCacheStepMem_inU_append _ _ _ _ hshotA,
      appendUpdateMem_allocated Marshal _ _ _ rfl rfl]
    simp [encodeEntry, hm]
  -- the read of "B"
  have e3 : tracerCacheStepMem demoEmptyLoad Marshal ⟨"A", some (Function.update (Function.update
      (fun _ => none) "A" (some [])) "A" (some [demoRefA])), some (Function.update (fun _ => none)
      "A" (some b₀)), demoMem⟩ (MemMsg.inR "B") =
      Except.ok ⟨⟨"B", some (Function.update (Function.update (Function.update (fun _ => none) "A"
          (some [])) "A" (some [demoRefA])) "B" (some [])), some (Function.update (fun _ => none)
          "A" (some b₀)), demoMem⟩, some (Reply.out (some [])), ["B"]⟩ := rfl
  -- the same request is appended under "B"
  have e4 : tracerCacheStepMem demoEmptyLoad Marshal ⟨"B", some (Function.update (Function.update
      (Function.update (fun _ => none) "A" (some [])) "A" (some [demoRefA])) "B" (some [])), some
      (Function.update (fun _ => none) "A" (some b₀)), demoMem⟩ (MemMsg.inU demoRefA) =
      Except.ok ⟨⟨"B", some (Function.update (Function.update (Function.update (Function.update
          (fun _ => none) "A" (some [])) "A" (some [demoRefA])) "B" (some [])) "B" (some
          [demoRefA])), some (Function.update (Function.update (fun _ => none) "A" (some b₀)) "B"
          (some b₀)), demoMem⟩, none, []⟩ := by
    rw [tracerCacheStepMem_inU_append _ _ _ _ hshotA,
      appendUpdateMem_allocated Marshal _ _ _ rfl rfl]
    simp [encodeEntry, hm]
  -- the screenshot update, under "B"
  have e5 := tracerCacheStepMem_inU_patch_some demoEmptyLoad Marshal ⟨"B", some (Function.update
      (Function.update (Function.update (Function.update (fun _ => none) "A" (some [])) "A" (some
      [demoRefA])) "B" (some [])) "B" (some [demoRefA])), some (Function.update (Function.update
      (fun _ => none) "A" (some b₀)) "B" (some b₀)), demoMem⟩
    demoRefShot 1 [] rfl rfl [demoRefA] rfl _ rfl
  have r5 := tracerCacheRunMem_cons_ok Marshal ⟨"B", some (Function.update (Function.update
      (Function.update (Function.update (fun _ => none) "A" (some [])) "A" (some [demoRefA])) "B"
      (some [])) "B" (some [demoRefA])), some (Function.update (Function.update (fun _ => none) "A"
      (some b₀)) "B" (some b₀)), demoMem⟩ id demoEmptyLoad _ [] _ _ [] e5 rfl
  have r4 := tracerCacheRunMem_cons_ok Marshal ⟨"B", some (Function.update (Function.update
      (Function.update (fun _ => none) "A" (some [])) "A" (some [demoRefA])) "B" (some [])), some
      (Function.update (fun _ => none) "A" (some b₀)), demoMem⟩ id demoEmptyLoad _ _ _ _ _ e4 r5
  have r3 := tracerCacheRunMem_cons_ok Marshal ⟨"A", some (Function.update (Function.update (fun _
      => none) "A" (some [])) "A" (some [demoRefA])), some (Function.update (fun _ => none) "A"
      (some b₀)), demoMem⟩ id demoEmptyLoad _ _ _ _ _ e3 r4
  have r2 := tracerCacheRunMem_cons_ok Marshal ⟨"A", some (Function.update (fun _ => none) "A"
      (some [])), some (fun _ => none), demoMem⟩ id demoEmptyLoad _ _ _ _ _ e2 r3
  have r1 := tracerCacheRunMem_cons_ok Marshal (MemState.init demoMem) id demoEmptyLoad _ _ _ _ _
      e1 r2
  exact ⟨_, r1, ⟨_, rfl⟩, ⟨_, rfl⟩, rfl, rfl⟩

theorem tracerCache_memoized_JSON_goes_stale_witness :
    demoMarshalShots (some [demoRequestA]) = Except.ok "[]"
      ∧ demoMarshalShots (some
            [{ demoRequestA with Tracers := [{ demoTracer with Screenshot := "shot.png" }] }]) =
          Except.ok "[shot.png]"
      ∧ ∃ s, tracerCacheRunMem demoMarshalShots (MemState.init demoMem)
            [(id, demoEmptyLoad, MemMsg.inR "A"), (id, demoEmptyLoad, MemMsg.inU demoRefA),
             (id, demoEmptyLoad, MemMsg.inR "B"), (id, demoEmptyLoad, MemMsg.inU demoRefA),
             (id, demoEmptyLoad, MemMsg.inU demoRefShot)] =
          Except.ok (s, [Reply.out (some []), Reply.out (some [])])
        ∧ (∃ s', tracerCacheStepMem demoEmptyLoad demoMarshalShots s (MemMsg.inR "A") =
            Except.ok ⟨s', some (Reply.out (some
              [{ demoRequestA with Tracers := [{ demoTracer with Screenshot := "shot.png" }] }])),
              []⟩)
        ∧ (∃ s', tracerCacheStepMem demoEmptyLoad demoMarshalShots s (MemMsg.inRJ "A") =
            Except.ok ⟨s', some (Reply.outJSON (some "[]")), []⟩)
        ∧ s.tracersJSON.get "B" = some "[shot.png]" :=
  ⟨rfl, rfl,
    (tracerCache_memoized_JSON_goes_stale demoMarshalShots "[]" rfl).imp
      fun _ h => ⟨h.1, h.2.1, h.2.2.1, h.2.2.2.2.trans rfl⟩⟩

end common

/-! ## The order of the effects of `AddTracer` and `EditTracer` -/

namespace common

/-- C18: `AddTracer` (for a non-negative size limit) and `EditTracer` first
write to the database; when the write fails they return its error and do
nothing else; when it succeeds they send exactly one update to the cache and
then notify the subscribers exactly once, both with the same request: for
`AddTracer` the request as the database completed it, for `EditTracer` a
request whose only tracer is the model that the database updated. -/
theorem AddTracer_EditTracer_effect_order {σ : Type} (MaxRequestSize : Int)
    (hM : 0 ≤ MaxRequestSize)
    (Create : Request → σ → (Request × Option String) × σ)
    (MarshalRequest : Request → Except String String)
    (Updates : Tracer → Tracer → σ → (Tracer × Option String) × σ)
    (MarshalTracer : Tracer → Except String String)
    (request : Request) (tracer : Tracer) (id : Nat) (s : σ) :
    (∃ stored,
        (∀ created err s', Create stored s = ((created, some err), s') →
          AddTracer MaxRequestSize Create MarshalRequest request s =
            Except.ok ⟨"", some err, s', [Effect.dbCreate stored]⟩)
        ∧ (∀ created s', Create stored s = ((created, none), s') →
          ∃ ret err, AddTracer MaxRequestSize Create MarshalRequest request s =
            Except.ok ⟨ret, err, s',
              [Effect.dbCreate stored, Effect.cacheUpdate created, Effect.notify created]⟩))
      ∧ (∀ t' err s', Updates ⟨id, 0, "", "", ""⟩ tracer s = ((t', some err), s') →
          EditTracer Updates MarshalTracer tracer id s =
            ⟨"", some err, s', [Effect.dbUpdates ⟨id, 0, "", "", ""⟩ tracer]⟩)
      ∧ (∀ t' s', Updates ⟨id, 0, "", "", ""⟩ tracer s = ((t', none), s') →
          ∃ ret err, EditTracer Updates MarshalTracer tracer id s =
            ⟨ret, err, s',
              [Effect.dbUpdates ⟨id, 0, "", "", ""⟩ tracer,
                Effect.cacheUpdate ⟨0, "", [], [t']⟩, Effect.notify ⟨0, "", [], [t']⟩]⟩) := by
  refine ⟨?_, ?_, ?_⟩
  · have hadd : ∀ q : Request, (q.RawRequest.length : Int) ≤ MaxRequestSize →
        (∀ created err s', Create q s = ((created, some err), s') →
          AddTracer MaxRequestSize Create MarshalRequest q s =
            Except.ok ⟨"", some err, s', [Effect.dbCreate q]⟩)
        ∧ (∀ created s', Create q s = ((created, none), s') →
          ∃ ret err, AddTracer MaxRequestSize Create MarshalRequest q s =
            Except.ok ⟨ret, err, s',
              [Effect.dbCreate q, Effect.cacheUpdate created, Effect.notify created]⟩) := by
      intro q hq
      have hn : ¬ ((q.RawRequest.length : Int) > MaxRequestSize) := by omega
      constructor
      · intro created err s' hc
        simp only [AddTracer, hn, if_false, hc]
      · intro created s' hc
        simp only [AddTracer, hn, if_false, hc]
        cases MarshalRequest created with
        | error e => exact ⟨_, _, rfl⟩
        | ok ret => exact ⟨_, _, rfl⟩
    by_cases h : (request.RawRequest.length : Int) ≤ MaxRequestSize
    · exact ⟨request, hadd request h⟩
    · have h' : MaxRequestSize < (request.RawRequest.length : Int) := by omega
      have hlen : ((request.RawRequest.take MaxRequestSize.toNat).length : Int)
          ≤ MaxRequestSize := by
        rw [List.length_take]
        omega
      refine ⟨{ request with RawRequest := request.RawRequest.take MaxRequestSize.toNat }, ?_⟩
      rw [AddTracer_over_limit MaxRequestSize hM Create MarshalRequest request s h']
      exact hadd _ hlen
  · intro t' err s' hu
    simp only [EditTracer, hu]
  · intro t' s' hu
    simp only [EditTracer, hu]
    cases MarshalTracer tracer with
    | error e => exact ⟨_, _, rfl⟩
    | ok ret => exact ⟨_, _, rfl⟩

theorem AddTracer_EditTracer_effect_order_witness :
    (0 : Int) ≤ 4
      ∧ (∃ ret err, AddTracer 4 demoCreate (fun _ => Except.ok "json") demoRequest0 0 =
          Except.ok ⟨ret, err, 1,
            [Effect.dbCreate demoRequest0, Effect.cacheUpdate demoRequest0,
              Effect.notify demoRequest0]⟩)
      ∧ (∃ ret err, EditTracer demoUpdates (fun _ => Except.ok "json")
            ⟨0, 0, "", "A", "shot.png"⟩ 7 0 =
          ⟨ret, err, 1,
            [Effect.dbUpdates ⟨7, 0, "", "", ""⟩ ⟨0, 0, "", "A", "shot.png"⟩,
              Effect.cacheUpdate demoScreenshot, Effect.notify demoScreenshot]⟩) :=
  ⟨by decide, ⟨_, _, rfl⟩,
    (AddTracer_EditTracer_effect_order 4 (by decide) demoCreate (fun _ => Except.ok "json")
      demoUpdates (fun _ => Except.ok "json") demoRequest0 ⟨0, 0, "", "A", "shot.png"⟩ 7 0).2.2
      _ _ rfl⟩

end common

end Tracy
